import Mathlib

/-!
# A 48-bit instruction set: assembler encoder and cycle-accurate simulator

Shallow embedding of `asm.c` (the assembler) and `sim.c` (the simulator).

Conventions of the embedding

* `uint32_t` and `uint64_t` values are natural numbers; every operation that can
  leave the range is followed by an explicit `% 2 ^ 32` or `% 2 ^ 64`.
* `int` values are integers; `toU32` gives the two's-complement bit pattern of an
  `int`, `toI32` reads a bit pattern back as a signed value.
* A C array is a total function from index to cell (`Nat → Nat`); the size of the
  array is checked where the source indexes it with a computed value, and an access
  outside the array (undefined behaviour in C) is the fault `Fault.outOfBounds`. The
  one exception is the word transfer of the disk controller, whose index may equal
  the size of the array: see `disk_transfer`.
* The count of a shift of a 32-bit value is taken modulo 32, as the shift
  instructions of the machine the program is compiled for take it (C leaves a shift
  by 32 or more undefined). `exit(EXIT_FAILURE)` is the fault `Fault.unknownOpcode`.
* Fallible functions return `Except Fault _`; a theorem about what a function leaves
  behind speaks about the executions in which it returns.
* Output written to the log files is not part of the state.
* A C string is the list of its characters before the terminator; the input file of
  the assembler is the list of the lines `fgets` returns, and an output file is the
  list of the words printed to it, one per line.
* The diagnosed exits of asm.c and the ways it leaves the defined behaviour of C
  (a buffer or table overrun, a token buffer read before it is filled, a number that
  does not fit its integer type) are the values of `AsmError`.
-/

namespace Sim

/-! ## Machine integers -/

/-- Two's-complement bit pattern of a C `int` as an unsigned 32-bit number. -/
def toU32 (x : Int) : Nat := (x % 4294967296).toNat

/-- Signed reading of a 32-bit pattern: the C cast `(int)` of a `uint32_t`. -/
def toI32 (x : Nat) : Int :=
  if x % 4294967296 < 2147483648 then ((x % 4294967296 : Nat) : Int)
  else ((x % 4294967296 : Nat) : Int) - 4294967296

/-- Writing cell `i` of a C array. -/
def upd (a : Nat → Nat) (i v : Nat) : Nat → Nat := fun j => if j = i then v else a j

/-! ## asm.c: `encodeInstruction` -/

/-- The function `encodeInstruction` of asm.c: the seven `int` arguments are packed
into a `uint64_t` by alternating left shifts and ors. `x & mask` on an `int` with a
non-negative mask is the bitwise and of the two's-complement pattern of `x`. -/
def encodeInstruction (opcode rd rs rt rm imm1 imm2 : Int) : Nat :=
  let instruction_bits_rep := toU32 opcode &&& 0xFF
  let instruction_bits_rep := (instruction_bits_rep <<< 4) % 2 ^ 64
  let instruction_bits_rep := instruction_bits_rep ||| (toU32 rd &&& 0xF)
  let instruction_bits_rep := (instruction_bits_rep <<< 4) % 2 ^ 64
  let instruction_bits_rep := instruction_bits_rep ||| (toU32 rs &&& 0xF)
  let instruction_bits_rep := (instruction_bits_rep <<< 4) % 2 ^ 64
  let instruction_bits_rep := instruction_bits_rep ||| (toU32 rt &&& 0xF)
  let instruction_bits_rep := (instruction_bits_rep <<< 4) % 2 ^ 64
  let instruction_bits_rep := instruction_bits_rep ||| (toU32 rm &&& 0xF)
  let instruction_bits_rep := (instruction_bits_rep <<< (4 * 3)) % 2 ^ 64
  let instruction_bits_rep := instruction_bits_rep ||| (toU32 imm1 &&& 0xFFF)
  let instruction_bits_rep := (instruction_bits_rep <<< (4 * 3)) % 2 ^ 64
  let instruction_bits_rep := instruction_bits_rep ||| (toU32 imm2 &&& 0xFFF)
  instruction_bits_rep

/-! ## sim.c: decoding -/

/-- The function `sign_extend` of sim.c: `mask = 1 << (bits - 1)`, result
`(value ^ mask) - mask`. -/
def sign_extend (value : Int) (bits : Nat) : Int :=
  let mask : Int := ((1 <<< (bits - 1) : Nat) : Int)
  Int.xor value mask - mask

/-- The loop of `decode_instruction`: `n` remaining rounds, writing
`registersUsed[i] = (instruction & mask) >> shift`, then `mask >>= 4`,
`shift -= 4`, `i++`. -/
def decode_loop (instruction : Nat) : Nat → Nat → Nat → Nat → (Nat → Nat) → (Nat → Nat)
  | 0, _, _, _, registersUsed => registersUsed
  | n + 1, i, mask, shift, registersUsed =>
    decode_loop instruction n (i + 1) (mask >>> 4) (shift - 4)
      (upd registersUsed i ((instruction &&& mask) >>> shift))

/-- The function `decode_instruction` of sim.c: the four register fields (written to
the array `registersUsed`, initially all zero) and the returned low 24 bits. -/
def decode_instruction (instruction : Nat) : (Nat → Nat) × Nat :=
  (decode_loop instruction 4 0 0x00F000000000 36 (fun _ => 0), instruction &&& 0xFFFFFF)

/-- The opcode as `execute_simulation_loop` extracts it: `current_instruction >> 40`. -/
def decode_opcode (current_instruction : Nat) : Nat := current_instruction >>> 40

/-- The first immediate as `execute_simulation_loop` computes it from the value
returned by `decode_instruction`. -/
def decode_immediate1 (immediate_value : Nat) : Int :=
  sign_extend (((immediate_value &&& 0xFFF000) >>> 12 : Nat) : Int) 12

/-- The second immediate as `execute_simulation_loop` computes it. -/
def decode_immediate2 (immediate_value : Nat) : Int :=
  sign_extend ((immediate_value &&& 0xFFF : Nat) : Int) 12

/-! ## sim.c: constants and state -/

def MEM_SIZE : Nat := 4096
def DISK_SIZE : Nat := 128 * 128
def MONITOR_SIZE : Nat := 256 * 256
def NUM_CPU_REGS : Nat := 16
def NUM_IO_REGS : Nat := 23

def IRQ0_ENABLE : Nat := 0
def IRQ1_ENABLE : Nat := 1
def IRQ2_ENABLE : Nat := 2
def IRQ0_STATUS : Nat := 3
def IRQ1_STATUS : Nat := 4
def IRQ2_STATUS : Nat := 5
def IRQ_HANDLER : Nat := 6
def IRQ_RETURN : Nat := 7
def CLOCK_CYCLE : Nat := 8
def LEDS : Nat := 9
def DISPLAY_7SEG : Nat := 10
def TIMER_ENABLE : Nat := 11
def TIMER_CURRENT : Nat := 12
def TIMER_MAX : Nat := 13
def DISK_CMD : Nat := 14
def DISK_SECTOR : Nat := 15
def DISK_BUFFER : Nat := 16
def DISK_STATUS : Nat := 17
def MONITOR_ADDR : Nat := 20
def MONITOR_DATA : Nat := 21
def MONITOR_CMD : Nat := 22

def RETI_OP : Nat := 18
def HALT_OP : Nat := 21

/-- The ways an execution of sim.c leaves the defined behaviour of the program. -/
inductive Fault where
  /-- The `default:` branch of `process_instruction`: `exit(EXIT_FAILURE)`. -/
  | unknownOpcode
  /-- An array is indexed outside its declared size. -/
  | outOfBounds
  deriving DecidableEq, Repr

/-- The global variables of sim.c. The `int` globals `halt_flag`, `isr_active_flag`,
`disk_cycle_counter` and `disk_index` start at 0 and are only ever set to 0 or 1 or
incremented, so they are natural numbers here. `irq2_file` is the unread rest of the
IRQ2 input file, one entry per line, each entry being what `atoi` returns on it. -/
structure Machine where
  instruction_memory : Nat → Nat
  data_memory : Nat → Nat
  disk_memory : Nat → Nat
  cpu_registers : Nat → Nat
  io_registers : Nat → Nat
  monitor_buffer : Nat → Nat
  program_counter : Nat
  halt_flag : Nat
  isr_active_flag : Nat
  irq2_next_cycle : Int
  disk_cycle_counter : Nat
  disk_index : Nat
  irq2_file : List Int

/-- The state at program start: every global is zero-initialised. -/
def Machine.init (irq2_lines : List Int) : Machine where
  instruction_memory := fun _ => 0
  data_memory := fun _ => 0
  disk_memory := fun _ => 0
  cpu_registers := fun _ => 0
  io_registers := fun _ => 0
  monitor_buffer := fun _ => 0
  program_counter := 0
  halt_flag := 0
  isr_active_flag := 0
  irq2_next_cycle := 0
  disk_cycle_counter := 0
  disk_index := 0
  irq2_file := irq2_lines

/-! ## sim.c: clock, timer, disk, monitor -/

/-- The function `increment_clock_cycle` of sim.c. -/
def increment_clock_cycle (io_registers : Nat → Nat) : Nat → Nat :=
  upd io_registers CLOCK_CYCLE
    (if io_registers CLOCK_CYCLE = 0xFFFFFFFF then 0
     else (io_registers CLOCK_CYCLE + 1) % 4294967296)

/-- The function `update_timer` of sim.c. -/
def update_timer (io_registers : Nat → Nat) : Nat → Nat :=
  if io_registers TIMER_ENABLE ≠ 0 then
    if io_registers TIMER_CURRENT = io_registers TIMER_MAX then
      upd (upd io_registers TIMER_CURRENT 0) IRQ0_STATUS 1
    else
      upd io_registers TIMER_CURRENT ((io_registers TIMER_CURRENT + 1) % 4294967296)
  else io_registers

/-- The function `handle_timer_operations` of sim.c (it tests `TIMER_ENABLE == 1`). -/
def handle_timer_operations (s : Machine) : Machine :=
  if s.io_registers TIMER_ENABLE = 1 then
    if s.io_registers TIMER_CURRENT = s.io_registers TIMER_MAX then
      { s with io_registers := upd (upd s.io_registers TIMER_CURRENT 0) IRQ0_STATUS 1 }
    else
      { s with io_registers := upd s.io_registers TIMER_CURRENT
                                 ((s.io_registers TIMER_CURRENT + 1) % 4294967296) }
  else s

/-- Lines 307-310 of `handle_disk_operations`: a command seen with the cycle counter
at 0 marks the disk busy and resets the transfer index. -/
def disk_start (s : Machine) : Machine :=
  if s.io_registers DISK_CMD ≠ 0 ∧ s.disk_cycle_counter = 0 then
    { s with io_registers := upd s.io_registers DISK_STATUS 1, disk_index := 0 }
  else s

/-- Lines 313-321 of `handle_disk_operations`: the word transfer of a read (command 1)
or a write (command 2) when the cycle counter is a multiple of 8. The two indices are
`int` expressions. An index may equal the size of its array: the completing call of a
command on the last sector, or on the last 128 words of data memory, moves one more
word at that index, which addresses the word after the array in the memory of the
program; the function that stands for the array has a cell for that word, kept apart
from the other variables. Any other index outside its array is a fault. -/
def disk_transfer (buffer_address sector_number : Int) (s : Machine) : Except Fault Machine :=
  let mem_index : Int := buffer_address + (s.disk_index : Int)
  let disk_index_full : Int := sector_number * 128 + (s.disk_index : Int)
  if s.io_registers DISK_CMD = 1 ∧ s.disk_cycle_counter % 8 = 0 then
    if 0 ≤ mem_index ∧ mem_index ≤ (MEM_SIZE : Int) ∧
        0 ≤ disk_index_full ∧ disk_index_full ≤ (DISK_SIZE : Int) then
      .ok { s with
        data_memory := upd s.data_memory mem_index.toNat (s.disk_memory disk_index_full.toNat),
        disk_index := s.disk_index + 1 }
    else .error Fault.outOfBounds
  else if s.io_registers DISK_CMD = 2 ∧ s.disk_cycle_counter % 8 = 0 then
    if 0 ≤ mem_index ∧ mem_index ≤ (MEM_SIZE : Int) ∧
        0 ≤ disk_index_full ∧ disk_index_full ≤ (DISK_SIZE : Int) then
      .ok { s with
        disk_memory := upd s.disk_memory disk_index_full.toNat (s.data_memory mem_index.toNat),
        disk_index := s.disk_index + 1 }
    else .error Fault.outOfBounds
  else .ok s

/-- Lines 324-335 of `handle_disk_operations`: completion at cycle counter 1024, then
the increment of the cycle counter while a command is present. -/
def disk_finish (s : Machine) : Machine :=
  let s1 : Machine :=
    if s.disk_cycle_counter = 1024 then
      { s with
        disk_cycle_counter := 0,
        disk_index := 0,
        io_registers := upd (upd (upd s.io_registers DISK_CMD 0) DISK_STATUS 0) IRQ1_STATUS 1 }
    else s
  if s1.io_registers DISK_CMD ≠ 0 then
    { s1 with disk_cycle_counter := s1.disk_cycle_counter + 1 }
  else s1

/-- The function `handle_disk_operations` of sim.c. `buffer_address` and
`sector_number` are the `int` copies of the two I/O registers taken on entry. -/
def handle_disk_operations (s : Machine) : Except Fault Machine :=
  let buffer_address : Int := toI32 (s.io_registers DISK_BUFFER)
  let sector_number : Int := toI32 (s.io_registers DISK_SECTOR)
  match disk_transfer buffer_address sector_number (disk_start s) with
  | .error e => .error e
  | .ok s2 => .ok (disk_finish s2)

/-- The function `handle_monitor_operations` of sim.c. -/
def handle_monitor_operations (s : Machine) : Except Fault Machine :=
  if s.io_registers MONITOR_CMD = 1 then
    if s.io_registers MONITOR_ADDR < MONITOR_SIZE then
      .ok { s with monitor_buffer := upd s.monitor_buffer (s.io_registers MONITOR_ADDR)
                                       (s.io_registers MONITOR_DATA) }
    else .error Fault.outOfBounds
  else .ok s

/-- The array reads of `log_hw_register_operations` of sim.c: for `in` and `out` it
indexes `io_register_names` and `io_registers` with the `int` value
`cpu_registers[rs] + cpu_registers[rt]`, read after the instruction has executed. The
line it prints is not modelled. -/
def log_hw_register_operations (opcode : Nat) (registers_used : Nat → Nat) (s : Machine) :
    Except Fault Unit :=
  if opcode = 19 ∨ opcode = 20 then
    let io_register_index : Int :=
      toI32 ((s.cpu_registers (registers_used 1) + s.cpu_registers (registers_used 2))
        % 4294967296)
    if 0 ≤ io_register_index ∧ io_register_index < (NUM_IO_REGS : Int) then .ok ()
    else .error Fault.outOfBounds
  else .ok ()

/-- The function `check_interrupts` of sim.c. -/
def check_interrupts (s : Machine) : Nat :=
  let irq_pending := 0
  let irq_pending :=
    if s.io_registers IRQ0_ENABLE ≠ 0 ∧ s.io_registers IRQ0_STATUS ≠ 0 then 1 else irq_pending
  let irq_pending :=
    if s.io_registers IRQ1_ENABLE ≠ 0 ∧ s.io_registers IRQ1_STATUS ≠ 0 then 1 else irq_pending
  let irq_pending :=
    if s.io_registers IRQ2_ENABLE ≠ 0 ∧ s.io_registers IRQ2_STATUS ≠ 0 then 1 else irq_pending
  irq_pending

/-- The function `handle_peripherals` of sim.c. `handle_led_and_display_operations`
only prints and is left out. -/
def handle_peripherals (opcode : Nat) (registers_used : Nat → Nat) (s : Machine) :
    Except Fault Machine :=
  match handle_disk_operations s with
  | .error e => .error e
  | .ok s1 =>
    match handle_monitor_operations (handle_timer_operations s1) with
    | .error e => .error e
    | .ok s2 =>
      match log_hw_register_operations opcode registers_used s2 with
      | .error e => .error e
      | .ok _ => .ok s2

/-! ## sim.c: instruction execution -/

/-- The `switch` of `process_instruction` in sim.c. `pc` is always
`&program_counter`; the result carries `jump_flag`. The four entries of
`registersUsed` are 4-bit fields, so they index `cpu_registers` inside its 16 cells.
`uint32_t` arithmetic wraps; the signed comparisons cast both sides to `int`; a data
or I/O access with a computed index outside the array is a fault. The three shifts
have no failure path: the count is the register `rt` modulo 32 (the count the shift
instructions of the machine use; C leaves a count of 32 or more undefined). In `jal`
the target is read from `cpu_registers` after the link register has been written. -/
def process_switch (opcode : Nat) (registersUsed : Nat → Nat) (s : Machine) :
    Except Fault (Machine × Nat) :=
  let r := s.cpu_registers
  let d := registersUsed 0
  let a := r (registersUsed 1)
  let b := r (registersUsed 2)
  let c := r (registersUsed 3)
  let setreg (v : Nat) : Machine := { s with cpu_registers := upd r d v }
  let branch (taken : Bool) : Except Fault (Machine × Nat) :=
    if taken then .ok ({ s with program_counter := c &&& 0xFFF }, 1) else .ok (s, 0)
  match opcode with
  | 0 => .ok (setreg ((a + b + c) % 4294967296), 0)
  | 1 => .ok (setreg (toU32 ((a : Int) - (b : Int) - (c : Int))), 0)
  | 2 => .ok (setreg ((a * b + c) % 4294967296), 0)
  | 3 => .ok (setreg (a &&& b &&& c), 0)
  | 4 => .ok (setreg (a ||| b ||| c), 0)
  | 5 => .ok (setreg (a ^^^ b ^^^ c), 0)
  | 6 => .ok (setreg ((a <<< (b % 32)) % 4294967296), 0)
  | 7 => .ok (setreg (toU32 (toI32 a >>> (b % 32))), 0)
  | 8 => .ok (setreg (a >>> (b % 32)), 0)
  | 9 => branch (decide (a = b))
  | 10 => branch (decide (a ≠ b))
  | 11 => branch (decide (toI32 a < toI32 b))
  | 12 => branch (decide (toI32 a > toI32 b))
  | 13 => branch (decide (toI32 a ≤ toI32 b))
  | 14 => branch (decide (toI32 a ≥ toI32 b))
  | 15 =>
    let r1 := upd r d ((s.program_counter + 1) % 4294967296)
    .ok ({ s with cpu_registers := r1, program_counter := r1 (registersUsed 3) &&& 0xFFF }, 1)
  | 16 =>
    if (a + b) % 4294967296 < MEM_SIZE then
      .ok (setreg ((s.data_memory ((a + b) % 4294967296) + c) % 4294967296), 0)
    else .error Fault.outOfBounds
  | 17 =>
    if (a + b) % 4294967296 < MEM_SIZE then
      .ok ({ s with data_memory :=
                      upd s.data_memory ((a + b) % 4294967296) ((c + r d) % 4294967296) }, 0)
    else .error Fault.outOfBounds
  | 18 => .ok ({ s with program_counter := s.io_registers IRQ_RETURN }, 0)
  | 19 =>
    if (a + b) % 4294967296 = MONITOR_CMD then .ok (setreg 0, 0)
    else if (a + b) % 4294967296 < NUM_IO_REGS then
      .ok (setreg (s.io_registers ((a + b) % 4294967296)), 0)
    else .error Fault.outOfBounds
  | 20 =>
    if (a + b) % 4294967296 < NUM_IO_REGS then
      .ok ({ s with io_registers := upd s.io_registers ((a + b) % 4294967296) c }, 0)
    else .error Fault.outOfBounds
  | 21 => .ok ({ s with halt_flag := 1 }, 0)
  | _ => .error Fault.unknownOpcode

/-- The function `process_instruction` of sim.c: the `switch`, then
`cpu_registers[0] = 0`, returning `jump_flag`. The parameters `imm1` and `imm2` are
not used by the body. -/
def process_instruction (opcode : Nat) (registersUsed : Nat → Nat) (s : Machine) :
    Except Fault (Machine × Nat) :=
  match process_switch opcode registersUsed s with
  | .error e => .error e
  | .ok (s1, jump_flag) => .ok ({ s1 with cpu_registers := upd s1.cpu_registers 0 0 }, jump_flag)

/-! ## sim.c: the execution loop -/

/-- The function `read_next_irq` of sim.c: `-1` when `fgets` gave `NULL`. -/
def read_next_irq (line : Option Int) : Int :=
  match line with
  | none => -1
  | some v => v

/-- Lines 779-782 of `execute_simulation_loop`: the IRQ2 feed. The comparison of the
`int` with the `uint32_t` clock converts the `int` to unsigned. -/
def irq2_feed (s : Machine) : Machine :=
  if toU32 s.irq2_next_cycle = s.io_registers CLOCK_CYCLE then
    { s with
      irq2_next_cycle := read_next_irq s.irq2_file.head?,
      irq2_file := s.irq2_file.tail,
      io_registers := upd s.io_registers IRQ2_STATUS 1 }
  else s

/-- The function `get_instruction` of sim.c: the fetched word and the state (the
stall branch decrements `program_counter`). -/
def get_instruction (s : Machine) : Except Fault (Nat × Machine) :=
  if s.io_registers DISK_STATUS = 1 ∧ s.halt_flag = 1 then
    if s.program_counter < MEM_SIZE then
      let s1 : Machine := { s with program_counter := toU32 ((s.program_counter : Int) - 1) }
      if s1.program_counter < MEM_SIZE then
        .ok (s1.instruction_memory s1.program_counter, s1)
      else .error Fault.outOfBounds
    else .error Fault.outOfBounds
  else
    if s.program_counter < MEM_SIZE then .ok (s.instruction_memory s.program_counter, s)
    else .error Fault.outOfBounds

/-- Lines 779-810 of `execute_simulation_loop`: IRQ2 feed, fetch, decode, the two
immediates written to registers 1 and 2, `process_instruction`, the sequential
advance of the program counter when `jump_flag` is 0, and `handle_peripherals`.
Returns the state and the opcode. -/
def execute_and_peripherals (s : Machine) : Except Fault (Machine × Nat) :=
  match get_instruction (irq2_feed s) with
  | .error e => .error e
  | .ok (current_instruction, s1) =>
    let opcode := decode_opcode current_instruction
    let operand_registers := (decode_instruction current_instruction).1
    let immediate_value := (decode_instruction current_instruction).2
    let immediate1 := decode_immediate1 immediate_value
    let immediate2 := decode_immediate2 immediate_value
    let s2 : Machine :=
      { s1 with cpu_registers :=
                  upd (upd s1.cpu_registers 1 (toU32 immediate1)) 2 (toU32 immediate2) }
    match process_instruction opcode operand_registers s2 with
    | .error e => .error e
    | .ok (s3, jump_flag) =>
      let s4 : Machine :=
        if jump_flag = 0 then
          { s3 with program_counter := (s3.program_counter + 1) % 4294967296 }
        else s3
      match handle_peripherals opcode operand_registers s4 with
      | .error e => .error e
      | .ok s5 => .ok (s5, opcode)

/-- Lines 812-825 of `execute_simulation_loop`: `reti` clears the ISR flag; with the
flag clear and an interrupt pending, `irqreturn` receives `program_counter - 1`, the
program counter receives `irqhandler`, and the flag is set. -/
def interrupt_phase (opcode : Nat) (s : Machine) : Machine :=
  let s1 : Machine := if opcode = RETI_OP then { s with isr_active_flag := 0 } else s
  if s1.isr_active_flag = 0 then
    if check_interrupts s1 ≠ 0 then
      let s2 : Machine :=
        { s1 with io_registers :=
                    upd s1.io_registers IRQ_RETURN (toU32 ((s1.program_counter : Int) - 1)) }
      { s2 with program_counter := s2.io_registers IRQ_HANDLER, isr_active_flag := 1 }
    else s1
  else s1

/-- Lines 827-834 of `execute_simulation_loop`: clock increment, `update_timer`,
and the reset of `monitorcmd`. -/
def end_of_cycle (s : Machine) : Machine :=
  let io1 := update_timer (increment_clock_cycle s.io_registers)
  { s with io_registers := if io1 MONITOR_CMD = 1 then upd io1 MONITOR_CMD 0 else io1 }

/-- One iteration of the `while` loop of `execute_simulation_loop`. -/
def loop_iteration (s : Machine) : Except Fault Machine :=
  match execute_and_peripherals s with
  | .error e => .error e
  | .ok (s1, opcode) => .ok (end_of_cycle (interrupt_phase opcode s1))

/-- The first `n` iterations of the loop body, one after the other. -/
def loop_iterations : Nat → Machine → Except Fault Machine
  | 0, s => .ok s
  | n + 1, s =>
    match loop_iterations n s with
    | .error e => .error e
    | .ok s1 => loop_iteration s1

/-- The first `n` successive calls of `handle_disk_operations`. -/
def disk_calls : Nat → Machine → Except Fault Machine
  | 0, s => .ok s
  | n + 1, s =>
    match disk_calls n s with
    | .error e => .error e
    | .ok s1 => handle_disk_operations s1

/-- Whether a call of `handle_disk_operations` entered at `s` takes one of its two
transfer branches (the tests of lines 313 and 318). -/
def disk_transfers_word (s : Machine) : Bool :=
  decide ((s.io_registers DISK_CMD = 1 ∧ s.disk_cycle_counter % 8 = 0) ∨
    (s.io_registers DISK_CMD = 2 ∧ s.disk_cycle_counter % 8 = 0))

/-- The transfer indices (`disk_index` at the moment of each word transfer) used by
the first `n` successive calls of `handle_disk_operations`, in order. -/
def disk_transfer_indices : Nat → Machine → List Nat
  | 0, _ => []
  | n + 1, s =>
    match disk_calls n s with
    | .error _ => disk_transfer_indices n s
    | .ok s1 =>
      if disk_transfers_word s1 then disk_transfer_indices n s ++ [(disk_start s1).disk_index]
      else disk_transfer_indices n s

/-- Lines 769-774 of `execute_simulation_loop`, before the `while`: `timermax` is
set to `0xFFFFFFFF` and the first line of the IRQ2 file is read. -/
def loop_entry (s : Machine) : Machine :=
  { s with
    io_registers := upd s.io_registers TIMER_MAX 0xFFFFFFFF,
    irq2_next_cycle := read_next_irq s.irq2_file.head?,
    irq2_file := s.irq2_file.tail }

/-- The state in which `execute_and_peripherals` leaves the machine (the state itself
when it faults). -/
def after_execute (s : Machine) : Machine :=
  match execute_and_peripherals s with
  | .ok (s1, _) => s1
  | .error _ => s

/-! ## Concrete states used in the examples -/

/-- Register fields `rd = 0, rs = 1, rt = 0, rm = 0`: `$zero, $imm1, $zero, $zero`. -/
def fields_zero_imm1 : Nat → Nat := fun i => if i = 1 then 1 else 0

/-- The zero-initialised machine with 5 in register 1. -/
def state_imm5 : Machine :=
  { Machine.init [] with cpu_registers := upd (fun _ => 0) 1 5 }

/-- What `add $zero, $imm1, $zero, $zero` leaves of `state_imm5`: the sum 5 is written
to register 0 and register 0 is then cleared. -/
def state_imm5_after : Machine :=
  { state_imm5 with cpu_registers := upd (upd state_imm5.cpu_registers 0 5) 0 0 }

/-- The machine at loop entry with an empty IRQ2 file and a zero instruction memory:
every instruction word is `add $zero, $zero, $zero, $zero, 0, 0`. -/
def state_reset : Machine := loop_entry (Machine.init [])

/-- At address 5 of the zero program, with IRQ0 enabled and raised and
`irqhandler = 0x12345`. -/
def state_irq_pending : Machine :=
  { state_reset with
    program_counter := 5,
    io_registers :=
      upd (upd (upd state_reset.io_registers IRQ0_ENABLE 1) IRQ0_STATUS 1) IRQ_HANDLER 0x12345 }

/-- Inside an ISR (`isr_active_flag = 1`) at address 0x40, the word there being
`reti` (`0x120000000000`), with `irqreturn = 5` and no interrupt enabled. -/
def state_reti : Machine :=
  { state_reset with
    instruction_memory := upd (fun _ => 0) 0x40 0x120000000000,
    program_counter := 0x40,
    isr_active_flag := 1,
    io_registers := upd state_reset.io_registers IRQ_RETURN 5 }

/-- Inside an ISR at address 0x40 of the zero program, with IRQ0 enabled and raised
again. -/
def state_in_isr : Machine :=
  { state_reset with
    program_counter := 0x40,
    isr_active_flag := 1,
    io_registers :=
      upd (upd (upd state_reset.io_registers IRQ0_ENABLE 1) IRQ0_STATUS 1) IRQ_HANDLER 0x80 }

/-- The zero program with the timer enabled: `timerenable = 1`, `timercurrent = 0`,
`timermax = 4`. -/
def state_timer : Machine :=
  { state_reset with
    io_registers := upd (upd state_reset.io_registers TIMER_ENABLE 1) TIMER_MAX 4 }

/-- A read of sector 0 into buffer address 0 (`diskcmd = 1`) seen by an idle disk;
disk word `i` holds `i + 1`, data memory is zero. -/
def state_disk_read : Machine :=
  { state_reset with
    disk_memory := fun i => i + 1,
    io_registers := upd state_reset.io_registers DISK_CMD 1 }

/-! ## The loop body in stages -/

/-- Lines 805-807 of `execute_simulation_loop`: `process_instruction`, then
`program_counter++` when it returned `jump_flag` 0. -/
def execute_and_advance (opcode : Nat) (registersUsed : Nat → Nat) (s : Machine) :
    Except Fault Machine :=
  match process_instruction opcode registersUsed s with
  | .error e => .error e
  | .ok (s3, jump_flag) =>
    if jump_flag = 0 then
      .ok { s3 with program_counter := (s3.program_counter + 1) % 4294967296 }
    else .ok s3

/-- The CPU registers once lines 794-799 have written the two sign-extended
immediates of the word `current_instruction` to registers 1 and 2. -/
def registers_with_immediates (current_instruction : Nat) (cpu_registers : Nat → Nat) :
    Nat → Nat :=
  upd (upd cpu_registers 1 (toU32 (decode_immediate1 (decode_instruction current_instruction).2)))
    2 (toU32 (decode_immediate2 (decode_instruction current_instruction).2))

/-- Lines 787-807 of `execute_simulation_loop` on a fetched word: decoding, the
immediates written to registers 1 and 2, execution and the sequential advance.
Returns the state, the opcode and the four register fields. -/
def decode_execute (current_instruction : Nat) (s : Machine) :
    Except Fault (Machine × Nat × (Nat → Nat)) :=
  let opcode := decode_opcode current_instruction
  let operand_registers := (decode_instruction current_instruction).1
  let s2 : Machine :=
    { s with cpu_registers := registers_with_immediates current_instruction s.cpu_registers }
  match execute_and_advance opcode operand_registers s2 with
  | .error e => .error e
  | .ok s4 => .ok (s4, opcode, operand_registers)

/-- Lines 779-807 of `execute_simulation_loop`: the iteration up to the point where
the peripherals run. -/
def before_peripherals (s : Machine) : Except Fault (Machine × Nat × (Nat → Nat)) :=
  match get_instruction (irq2_feed s) with
  | .error e => .error e
  | .ok (current_instruction, s1) => decode_execute current_instruction s1

/-- The state at the point where the peripherals run (the state itself when the
iteration faults before). -/
def state_before_peripherals (s : Machine) : Machine :=
  match before_peripherals s with
  | .ok (s4, _, _) => s4
  | .error _ => s

/-- The state a loop iteration ends in (the state itself when the iteration faults). -/
def after_iteration (s : Machine) : Machine :=
  match loop_iteration s with
  | .ok s1 => s1
  | .error _ => s

/-- The state `execute_and_advance` ends in (the state itself when it faults). -/
def after_instruction (opcode : Nat) (registersUsed : Nat → Nat) (s : Machine) : Machine :=
  match execute_and_advance opcode registersUsed s with
  | .ok s1 => s1
  | .error _ => s

/-! ## Further concrete states -/

/-- The four register fields `rd, rs, rt, rm` as the array `registersUsed`. -/
def fields (rd rs rt rm : Nat) : Nat → Nat :=
  fun i => if i = 0 then rd else if i = 1 then rs else if i = 2 then rt else rm

/-- The zero program with a pixel write pending: `monitorcmd = 1`, `monitoraddr = 3`,
`monitordata = 0x1AB`. -/
def state_monitor : Machine :=
  { state_reset with
    io_registers :=
      upd (upd (upd state_reset.io_registers MONITOR_CMD 1) MONITOR_ADDR 3) MONITOR_DATA 0x1AB }

/-- The zero-initialised machine with registers 1 and 2 holding `v1` and `v2` (the
immediates), register 7 (`$t0`) holding 9, `data[4]` = 100 and `io[13]` = 77. -/
def state_regs (v1 v2 : Nat) : Machine :=
  { Machine.init [] with
    cpu_registers := upd (upd (upd (fun _ => 0) 1 v1) 2 v2) 7 9,
    data_memory := upd (fun _ => 0) 4 100,
    io_registers := upd (fun _ => 0) 13 77,
    program_counter := 10 }

/-- Halted with the disk busy by the `halt` (`0x150000000000`) at address 4, the
program counter at 5, with IRQ0 enabled and raised and `irqhandler = 0x40`. -/
def state_stall_irq : Machine :=
  { state_reset with
    instruction_memory := upd (fun _ => 0) 4 0x150000000000,
    program_counter := 5,
    halt_flag := 1,
    disk_cycle_counter := 3,
    io_registers :=
      upd (upd (upd (upd (upd state_reset.io_registers DISK_CMD 3) DISK_STATUS 1)
        IRQ0_ENABLE 1) IRQ0_STATUS 1) IRQ_HANDLER 0x40 }

/-- Halted with the disk busy (a command 3, which moves no word, at cycle 3): the
word at address 0 is `halt` (`0x150000000000`) and the program counter is 1. -/
def state_stall : Machine :=
  { state_reset with
    instruction_memory := upd (fun _ => 0) 0 0x150000000000,
    program_counter := 1,
    halt_flag := 1,
    disk_cycle_counter := 3,
    io_registers := upd (upd state_reset.io_registers DISK_CMD 3) DISK_STATUS 1 }

/-! ## asm.c: strings and the C library -/

def MAX_LINE_LEN : Nat := 256
def MAX_INSTRUCTION_LINES : Nat := 4100

/-- The terminator of a C string; it is also what reading one cell past the last
character of a string yields. -/
def NUL : Char := Char.ofNat 0

/-- The function `isspace` of the C library in the "C" locale: space, `\t`, `\n`,
`\v`, `\f`, `\r`. -/
def isspace (c : Char) : Bool :=
  c = ' ' || c = '\t' || c = '\n' || c = Char.ofNat 11 || c = Char.ofNat 12 || c = '\r'

/-- The function `isdigit` of the C library. -/
def isdigit (c : Char) : Bool := 48 ≤ c.toNat && c.toNat ≤ 57

/-- The function `strchr` of the C library: the index of the first occurrence of
`ch`, `none` for the null pointer. -/
def strchr : List Char → Char → Option Nat
  | [], _ => none
  | c :: cs, ch => if c = ch then some 0 else (strchr cs ch).map (fun i => i + 1)

/-- The value of a character as a digit in bases up to 16; 16 when it is none. -/
def digit_of (c : Char) : Nat :=
  if 48 ≤ c.toNat ∧ c.toNat ≤ 57 then c.toNat - 48
  else if 97 ≤ c.toNat ∧ c.toNat ≤ 102 then c.toNat - 87
  else if 65 ≤ c.toNat ∧ c.toNat ≤ 70 then c.toNat - 55
  else 16

/-- The digits of base `base` at the head of a string: their value, continuing from
`acc`, and the unread rest. -/
def scan_digits (base : Nat) : List Char → Nat → Nat × List Char
  | [], acc => (acc, [])
  | c :: cs, acc =>
    if digit_of c < base then scan_digits base cs (acc * base + digit_of c) else (acc, c :: cs)

/-- The loop `while (isspace((unsigned char)*str)) str++;` at the head of `get_line`;
the C library conversions skip leading white space the same way. -/
def skip_spaces : List Char → List Char
  | [] => []
  | c :: cs => if isspace c then skip_spaces cs else c :: cs

/-- An optional sign at the head of a number: whether it is `-`, and the rest. -/
def scan_sign (str : List Char) : Bool × List Char :=
  match str with
  | c :: cs => if c = '-' then (true, cs) else if c = '+' then (false, cs) else (false, str)
  | [] => (false, str)

/-- The mathematical value `atoi` converts: white space, an optional sign, decimal
digits up to the first character that is none. -/
def atoi_value (str : List Char) : Int :=
  let signed := scan_sign (skip_spaces str)
  let v : Int := ((scan_digits 10 signed.2 0).1 : Nat)
  if signed.1 then -v else v

/-- The mathematical value `strtol(str, NULL, 16)` converts: white space, an optional
sign, an optional `0x` or `0X` that a hexadecimal digit follows, hexadecimal digits. -/
def strtol16_value (str : List Char) : Int :=
  let signed := scan_sign (skip_spaces str)
  let s := signed.2
  let digits :=
    if s.getD 0 NUL = '0' ∧ (s.getD 1 NUL = 'x' ∨ s.getD 1 NUL = 'X') ∧ digit_of (s.getD 2 NUL) < 16
    then s.drop 2 else s
  let v : Int := ((scan_digits 16 digits 0).1 : Nat)
  if signed.1 then -v else v

/-- The conversion `%i` of `sscanf`: white space, an optional sign, then a
hexadecimal number after `0x` or `0X`, an octal number after `0`, a decimal number
otherwise. `none` is a matching failure (no digit, or `0x` that no hexadecimal digit
follows). Returns the mathematical value and the unread rest. -/
def scan_i (str : List Char) : Option (Int × List Char) :=
  let signed := scan_sign (skip_spaces str)
  let s := signed.2
  let sign (v : Nat) : Int := if signed.1 then -(v : Int) else (v : Int)
  if s.getD 0 NUL = '0' ∧ (s.getD 1 NUL = 'x' ∨ s.getD 1 NUL = 'X') then
    if digit_of (s.getD 2 NUL) < 16 then
      some (sign (scan_digits 16 (s.drop 2) 0).1, (scan_digits 16 (s.drop 2) 0).2)
    else none
  else if s.getD 0 NUL = '0' then
    some (sign (scan_digits 8 s 0).1, (scan_digits 8 s 0).2)
  else if digit_of (s.getD 0 NUL) < 10 then
    some (sign (scan_digits 10 s 0).1, (scan_digits 10 s 0).2)
  else none

/-- The conversions `%s %s ...` of `sscanf`, at most `n` of them: each skips white
space and takes the characters up to the next white space; the list ends where the
input does. -/
def scan_strings : Nat → List Char → List (List Char)
  | 0, _ => []
  | n + 1, str =>
    if skip_spaces str = [] then []
    else (skip_spaces str).takeWhile (fun c => !isspace c) ::
      scan_strings n ((skip_spaces str).dropWhile (fun c => !isspace c))

/-! ## asm.c: `get_line` -/

/-- The loop `while (end_idx > 1 && isspace(str[end_idx - 1])) end_idx--;` of
`get_line`, entered with `end_idx`. -/
def trim_end_idx (str : List Char) : Nat → Nat
  | 0 => 0
  | n + 1 => if n + 1 > 1 ∧ isspace (str.getD n NUL) then trim_end_idx str n else n + 1

/-- The loop of `get_line` that replaces each `,` by a space. -/
def replace_commas : List Char → List Char
  | [] => []
  | c :: cs => (if c = ',' then ' ' else c) :: replace_commas cs

/-- The last loop of `get_line`: the characters written from the characters still to
read and `space_flag`. The write index never passes the read index, so the characters
read are those of the string as it was before the loop. -/
def collapse_spaces : List Char → Bool → List Char
  | [], _ => []
  | c :: cs, space_flag =>
    if isspace c then
      if !space_flag then ' ' :: collapse_spaces cs true
      else collapse_spaces cs space_flag
    else c :: collapse_spaces cs false

/-- The function `get_line` of asm.c on a line as `fgets` returns it (the characters
before the terminator). -/
def get_line (str : List Char) : List Char :=
  let str := skip_spaces str
  if str = [] then str
  else
    let str :=
      match strchr str '#' with
      | some hash_pos => str.take hash_pos
      | none => str
    let end_idx := trim_end_idx str str.length
    let str := str.take end_idx
    let str := replace_commas str
    collapse_spaces str false

/-! ## asm.c: labels, opcodes, registers, immediates -/

/-- The ways a run of asm.c ends without an image. The first six are the
diagnosed errors (`exit(EXIT_FAILURE)` after a message); the others leave the defined
behaviour of the program. -/
inductive AsmError where
  /-- Exit of `get_opcode`: "Invalid opcode". -/
  | invalidOpcode
  /-- Exit of `get_label_address`: "Undefined label". -/
  | undefinedLabel
  /-- Exit of `get_reg_code`: "Invalid register". -/
  | invalidRegister
  /-- Exit of `assemble`: "Invalid .word directive". -/
  | invalidWord
  /-- Exit of `assemble`: "Memory address already defined". -/
  | addressDefined
  /-- Exit of `assemble`: "Invalid instruciton format". -/
  | invalidFormat
  /-- A string is copied or scanned into a buffer too short for it, or a table is
  indexed outside its declared size. -/
  | bufferOverflow
  /-- A token buffer is read that `sscanf` did not fill, or a string is read past
  its terminator. -/
  | uninitialised
  /-- A number does not fit the integer type that receives it. -/
  | intOverflow
  deriving DecidableEq, Repr

/-- The type `Label` of asm.c. -/
structure Label where
  label : List Char
  address : Int
  deriving DecidableEq, Repr

/-- The function `addLabel` of asm.c on the used part of `label_list` (its length is
`label_list_size`): the table has `MAX_INSTRUCTION_LINES` entries and the field
`label` has `MAX_LINE_LEN` bytes, terminator included. -/
def addLabel (label : List Char) (address : Int) (label_list : List Label) :
    Except AsmError (List Label) :=
  if label_list.length < MAX_INSTRUCTION_LINES then
    if label.length < MAX_LINE_LEN then .ok (label_list ++ [{ label := label, address := address }])
    else .error AsmError.bufferOverflow
  else .error AsmError.bufferOverflow

/-- The function `get_opcode` of asm.c. -/
def get_opcode (opcode : List Char) : Except AsmError Int :=
  if opcode = "add".toList then .ok 0
  else if opcode = "sub".toList then .ok 1
  else if opcode = "mac".toList then .ok 2
  else if opcode = "and".toList then .ok 3
  else if opcode = "or".toList then .ok 4
  else if opcode = "xor".toList then .ok 5
  else if opcode = "sll".toList then .ok 6
  else if opcode = "sra".toList then .ok 7
  else if opcode = "srl".toList then .ok 8
  else if opcode = "beq".toList then .ok 9
  else if opcode = "bne".toList then .ok 10
  else if opcode = "blt".toList then .ok 11
  else if opcode = "bgt".toList then .ok 12
  else if opcode = "ble".toList then .ok 13
  else if opcode = "bge".toList then .ok 14
  else if opcode = "jal".toList then .ok 15
  else if opcode = "lw".toList then .ok 16
  else if opcode = "sw".toList then .ok 17
  else if opcode = "reti".toList then .ok 18
  else if opcode = "in".toList then .ok 19
  else if opcode = "out".toList then .ok 20
  else if opcode = "halt".toList then .ok 21
  else .error AsmError.invalidOpcode

/-- The function `get_label_address` of asm.c: the loop over `label_list` from
index 0. -/
def get_label_address : List Label → List Char → Except AsmError Int
  | [], _ => .error AsmError.undefinedLabel
  | entry :: rest, label_target =>
    if entry.label = label_target then .ok entry.address
    else get_label_address rest label_target

/-- The loop of `isNumber`, at index `i`. -/
def isNumber_loop : List Char → Nat → Bool
  | [], _ => true
  | c :: cs, i =>
    if i = 0 ∧ c = '-' then isNumber_loop cs (i + 1)
    else if !isdigit c then false
    else isNumber_loop cs (i + 1)

/-- The function `isNumber` of asm.c. -/
def isNumber (str : List Char) : Bool :=
  if str = [] then false else isNumber_loop str 0

/-- A value returned as `int`: outside the range of `int` the result of `atoi` is
undefined and that of the conversion from `long` depends on the platform. -/
def to_int (v : Int) : Except AsmError Int :=
  if -2147483648 ≤ v ∧ v < 2147483648 then .ok v else .error AsmError.intOverflow

/-- The function `get_immidiate_value` of asm.c. -/
def get_immidiate_value (label_list : List Label) (str : List Char) : Except AsmError Int :=
  if !isNumber str ∧ ¬ (str.getD 0 NUL = '0' ∧ (str.getD 1 NUL = 'X' ∨ str.getD 1 NUL = 'x')) then
    get_label_address label_list str
  else if str.getD 0 NUL = '0' ∧ (str.getD 1 NUL = 'X' ∨ str.getD 1 NUL = 'x') then
    to_int (strtol16_value str)
  else
    to_int (atoi_value str)

/-- The function `get_reg_code` of asm.c. The calls of `atoi` are on one of the
strings "0", "1", "2". -/
def get_reg_code (reg_str : List Char) : Except AsmError Int :=
  let register_code : Int := -1
  let register_code : Int :=
    if reg_str = "$zero".toList then 0
    else if reg_str = "$imm1".toList then 1
    else if reg_str = "$imm2".toList then 2
    else if reg_str = "$v0".toList then 3
    else if reg_str.getD 0 NUL = '$' then
      if reg_str.getD 1 NUL = 'a' then
        if reg_str.drop 2 = "0".toList ∨ reg_str.drop 2 = "1".toList ∨ reg_str.drop 2 = "2".toList
        then 4 + atoi_value (reg_str.drop 2) else register_code
      else if reg_str.getD 1 NUL = 't' then
        if reg_str.drop 2 = "0".toList ∨ reg_str.drop 2 = "1".toList ∨ reg_str.drop 2 = "2".toList
        then 7 + atoi_value (reg_str.drop 2) else register_code
      else if reg_str.getD 1 NUL = 's' then
        if reg_str.drop 2 = "0".toList ∨ reg_str.drop 2 = "1".toList ∨ reg_str.drop 2 = "2".toList
        then 10 + atoi_value (reg_str.drop 2) else register_code
      else register_code
    else register_code
  let register_code : Int :=
    if reg_str = "$gp".toList then 13
    else if reg_str = "$sp".toList then 14
    else if reg_str = "$ra".toList then 15
    else register_code
  if register_code ≠ -1 then .ok register_code else .error AsmError.invalidRegister

/-! ## asm.c: `assemble` -/

/-- The test `strncmp(standard_instruction_line, ".word", 5) == 0`. -/
def is_word_directive (standard_instruction_line : List Char) : Bool :=
  decide (standard_instruction_line.take 5 = ".word".toList)

/-- The body of the first `while` loop of `assemble` for one line read by `fgets`:
the label table and `pc` after it. `pc` is an `int`. -/
def first_pass_line (line : List Char) (label_list : List Label) (pc : Int) :
    Except AsmError (List Label × Int) :=
  let standard_instruction_line := get_line line
  if standard_instruction_line.getD 0 NUL = '#' ∨ standard_instruction_line.length = 0 then
    .ok (label_list, pc)
  else
    match strchr standard_instruction_line ':' with
    | some label_end_position =>
      match addLabel (standard_instruction_line.take label_end_position) pc label_list with
      | .error e => .error e
      | .ok label_list1 => .ok (label_list1, pc)
    | none =>
      if is_word_directive standard_instruction_line = false then
        if pc + 1 < 2147483648 then .ok (label_list, pc + 1) else .error AsmError.intOverflow
      else .ok (label_list, pc)

/-- The first `while` loop of `assemble` over the lines of the input file. -/
def first_pass : List (List Char) → List Label → Int → Except AsmError (List Label × Int)
  | [], label_list, pc => .ok (label_list, pc)
  | line :: rest, label_list, pc =>
    match first_pass_line line label_list pc with
    | .error e => .error e
    | .ok (label_list1, pc1) => first_pass rest label_list1 pc1

/-- Lines 389-400 of `assemble`: the word of a `.word` directive is placed.
`data_list` has `MAX_INSTRUCTION_LINES` cells. -/
def place_word (wordAddress : Int) (wordData : Nat) (data_list : Nat → Nat)
    (max_memory_address : Int) : Except AsmError ((Nat → Nat) × Int) :=
  if 0 ≤ wordAddress ∧ wordAddress < MAX_INSTRUCTION_LINES then
    if data_list wordAddress.toNat ≠ 0 then .error AsmError.addressDefined
    else
      .ok (upd data_list wordAddress.toNat wordData,
        if wordAddress > max_memory_address then wordAddress else max_memory_address)
  else .error AsmError.bufferOverflow

/-- Line 384 of `assemble`: `sscanf(standard_instruction_line + 6, "%i %i", ...)`.
The first number is received by an `int`, the second by a `uint32_t`, which takes the
bit pattern of a number in the range of `int` or of `uint32_t`. -/
def scan_word (standard_instruction_line : List Char) : Except AsmError (Int × Nat) :=
  if standard_instruction_line.length < 6 then .error AsmError.uninitialised
  else
    match scan_i (standard_instruction_line.drop 6) with
    | none => .error AsmError.invalidWord
    | some (wordAddress, rest) =>
      match scan_i rest with
      | none => .error AsmError.invalidWord
      | some (wordData, _) =>
        if -2147483648 ≤ wordAddress ∧ wordAddress < 2147483648 ∧
            -2147483648 ≤ wordData ∧ wordData < 4294967296 then
          .ok (wordAddress, toU32 wordData)
        else .error AsmError.intOverflow

/-- Lines 404-426 of `assemble`: an instruction line is split into seven tokens in
buffers of 20 bytes and encoded. `sscanf` returns a negative value only when the
line holds no token. -/
def encode_line (label_list : List Label) (standard_instruction_line : List Char) :
    Except AsmError Nat :=
  let tokens := scan_strings 7 standard_instruction_line
  if tokens = [] then .error AsmError.invalidFormat
  else if tokens.any (fun t => decide (20 ≤ t.length)) then .error AsmError.bufferOverflow
  else
    match tokens with
    | [opcode, rd, rs, rt, rm, imm1, imm2] =>
      match get_immidiate_value label_list imm1 with
      | .error e => .error e
      | .ok imm1_int =>
      match get_immidiate_value label_list imm2 with
      | .error e => .error e
      | .ok imm2_int =>
      match get_opcode opcode with
      | .error e => .error e
      | .ok opcode_code =>
      match get_reg_code rd with
      | .error e => .error e
      | .ok rd_code =>
      match get_reg_code rs with
      | .error e => .error e
      | .ok rs_code =>
      match get_reg_code rt with
      | .error e => .error e
      | .ok rt_code =>
      match get_reg_code rm with
      | .error e => .error e
      | .ok rm_code =>
        .ok (encodeInstruction opcode_code rd_code rs_code rt_code rm_code imm1_int imm2_int)
    | _ => .error AsmError.uninitialised

/-- The variables of the second pass of `assemble`: the words written to the
instruction file so far, `data_list`, `max_memory_address` and `pc`. -/
structure SecondPass where
  instructions : List Nat
  data_list : Nat → Nat
  max_memory_address : Int
  pc : Int

/-- The state before the second pass: nothing written, `data_list` zero-initialised,
`max_memory_address = 0`, `pc = 0`. -/
def SecondPass.init : SecondPass where
  instructions := []
  data_list := fun _ => 0
  max_memory_address := 0
  pc := 0

/-- The body of the second `while` loop of `assemble` for one line read by `fgets`. -/
def second_pass_line (label_list : List Label) (line : List Char) (st : SecondPass) :
    Except AsmError SecondPass :=
  let standard_instruction_line := get_line line
  if standard_instruction_line.getD 0 NUL = '#' ∨ standard_instruction_line.length = 0 then .ok st
  else
    match strchr standard_instruction_line ':' with
    | some _ => .ok st
    | none =>
      if is_word_directive standard_instruction_line then
        match scan_word standard_instruction_line with
        | .error e => .error e
        | .ok (wordAddress, wordData) =>
          match place_word wordAddress wordData st.data_list st.max_memory_address with
          | .error e => .error e
          | .ok (data_list1, max1) =>
            .ok { st with data_list := data_list1, max_memory_address := max1 }
      else
        match encode_line label_list standard_instruction_line with
        | .error e => .error e
        | .ok instruction =>
          if st.pc + 1 < 2147483648 then
            .ok { st with instructions := st.instructions ++ [instruction], pc := st.pc + 1 }
          else .error AsmError.intOverflow

/-- The second `while` loop of `assemble` over the lines of the input file. -/
def second_pass (label_list : List Label) : List (List Char) → SecondPass →
    Except AsmError SecondPass
  | [], st => .ok st
  | line :: rest, st =>
    match second_pass_line label_list line st with
    | .error e => .error e
    | .ok st1 => second_pass label_list rest st1

/-- Lines 437-440 of `assemble`: the words written to the data file, `data_list[i]`
for `i` from 0 to `max_memory_address` inclusive. -/
def data_image (data_list : Nat → Nat) (max_memory_address : Int) : List Nat :=
  (List.range (max_memory_address + 1).toNat).map data_list

/-- The function `assemble` of asm.c on the lines of the input file as `fgets`
returns them: the words of the instruction file and of the data file, one per line
of output. -/
def assemble (lines : List (List Char)) : Except AsmError (List Nat × List Nat) :=
  match first_pass lines [] 0 with
  | .error e => .error e
  | .ok (label_list, _) =>
    match second_pass label_list lines SecondPass.init with
    | .error e => .error e
    | .ok st => .ok (st.instructions, data_image st.data_list st.max_memory_address)

/-! ## sim.c: `write_monitor_data` -/

/-- The first loop of `write_monitor_data`: `n` remaining rounds at index `i`, `max`
becoming `i` where the cell is not zero. -/
def monitor_max_loop (monitor_buffer : Nat → Nat) : Nat → Nat → Nat → Nat
  | 0, _, max => max
  | n + 1, i, max =>
    monitor_max_loop monitor_buffer n (i + 1) (if monitor_buffer i ≠ 0 then i else max)

/-- The function `write_monitor_data` of sim.c: the bytes printed to the text file,
one per line, and the bytes written to the YUV file. `pixel_value` is the cell cast
to `uint8_t`. -/
def write_monitor_data (monitor_buffer : Nat → Nat) : List Nat × List Nat :=
  let max := monitor_max_loop monitor_buffer MONITOR_SIZE 0 0
  (if max ≠ 0 then (List.range (max + 1)).map (fun i => monitor_buffer i % 256) else [],
   (List.range MONITOR_SIZE).map (fun i => monitor_buffer i % 256))

/-! ## The normalizer as the specification words it -/

/-- First step of the specification: "strip any text from the first `#` onward". -/
def strip_comment (line : List Char) : List Char := line.takeWhile (fun c => c ≠ '#')

/-- Second step of the specification: "trim leading and trailing whitespace". -/
def trim_whitespace (line : List Char) : List Char :=
  (line.dropWhile isspace).rdropWhile isspace

/-- Third step of the specification: "replace every `,` with a single space". -/
def commas_to_spaces (line : List Char) : List Char :=
  line.map (fun c => if c = ',' then ' ' else c)

/-- Fourth step of the specification: "collapse runs of whitespace to one space". A
white-space character met here starts a maximal run; the run becomes one space. -/
def collapse_runs : List Char → List Char
  | [] => []
  | c :: cs =>
    if isspace c then ' ' :: collapse_runs (cs.dropWhile isspace)
    else c :: collapse_runs cs
termination_by line => line.length
decreasing_by
  all_goals simp_wf
  · have h := (List.dropWhile_sublist (l := cs) isspace).length_le
    omega

/-- The normalizer as the specification words it: the four steps in order. -/
def normalize_spec (line : List Char) : List Char :=
  collapse_runs (commas_to_spaces (trim_whitespace (strip_comment line)))

/-! ## Labels and instruction lines of a source -/

/-- A line defines a label when its normalized form holds a `:`. -/
def defines_label (line : List Char) : Bool := decide (':' ∈ get_line line)

/-- The symbol a label line defines: the normalized text before the first `:`. -/
def label_symbol (line : List Char) : List Char := (get_line line).takeWhile (fun c => c ≠ ':')

/-- A line counts as one instruction when its normalized form is not empty, holds no
`:` and does not begin with `.word`. -/
def counts_as_instruction (line : List Char) : Bool :=
  decide (get_line line ≠ []) && !defines_label line && !is_word_directive (get_line line)

/-- The number of instruction lines among `lines`. -/
def instruction_count (lines : List (List Char)) : Nat :=
  (lines.filter counts_as_instruction).length

/-- The label definitions of the lines `rest` of a source that follow the lines
`preceding`: each line that defines a label gives its symbol with the number of
instruction lines among all the lines before it. -/
def label_definitions_after : List (List Char) → List (List Char) → List Label
  | _, [] => []
  | preceding, line :: rest =>
    if defines_label line then
      { label := label_symbol line, address := (instruction_count preceding : Int) } ::
        label_definitions_after (preceding ++ [line]) rest
    else label_definitions_after (preceding ++ [line]) rest

/-- The label definitions of a source program. -/
def label_definitions (lines : List (List Char)) : List Label :=
  label_definitions_after [] lines

/-- A line is a label definition in the narrow sense when its normalized form ends
with `:`. -/
def ends_with_colon (line : List Char) : Bool := decide ((get_line line).getLast? = some ':')

/-- A line counts as one instruction in the narrow sense of a label definition: its
normalized form is not empty, does not end with `:` and does not begin with `.word`. -/
def counts_as_instruction_narrow (line : List Char) : Bool :=
  decide (get_line line ≠ []) && !ends_with_colon line && !is_word_directive (get_line line)

/-- A source whose first line carries a label and an instruction. -/
def program_inline_label : List (List Char) :=
  ["L: add $t0, $zero, $imm1, $zero, 5, 0\n".toList, "M:\n".toList]

/-! ## Example sources, register names, `.word` directives -/

/-- A source that defines the symbol `L` twice. -/
def program_duplicate_label : List (List Char) :=
  ["L:\n".toList, "L:\n".toList, "halt $zero, $zero, $zero, $zero, 0, 0\n".toList]

/-- A source with a loop: a label between instructions, referenced by a branch, and
defined a second time after the `halt`. -/
def program_loop : List (List Char) :=
  ["add $t0, $zero, $imm1, $zero, 3, 0\n".toList,
   "loop:\n".toList,
   "sub $t0, $t0, $imm1, $zero, 1, 0\n".toList,
   "bne $zero, $t0, $zero, $imm1, loop, 0\n".toList,
   "halt $zero, $zero, $zero, $zero, 0, 0\n".toList,
   "loop:\n".toList]

/-- The canonical register names in the order of their codes 0..15. -/
def register_names : List (List Char) :=
  ["$zero".toList, "$imm1".toList, "$imm2".toList, "$v0".toList, "$a0".toList, "$a1".toList,
   "$a2".toList, "$t0".toList, "$t1".toList, "$t2".toList, "$s0".toList, "$s1".toList,
   "$s2".toList, "$gp".toList, "$sp".toList, "$ra".toList]

/-- A line is a `.word` directive when its normalized form is not empty, holds no
`:` and begins with `.word`. -/
def is_word_line (line : List Char) : Bool :=
  decide (get_line line ≠ []) && !defines_label line && is_word_directive (get_line line)

/-- The `.word` directives of a source in order: the address and the value each one
names. -/
def word_directives (lines : List (List Char)) : List (Int × Nat) :=
  lines.filterMap (fun line =>
    if is_word_line line then
      match scan_word (get_line line) with
      | .ok w => some w
      | .error _ => none
    else none)

/-- The highest address named by a `.word` directive of the source, 0 when there is
none. -/
def highest_word_address (lines : List (List Char)) : Int :=
  (word_directives lines).foldl (fun m w => max m w.1) 0

/-- The data words the `.word` directives of the source place, in order, into a
zeroed memory. -/
def placed_words (lines : List (List Char)) : Nat → Nat :=
  (word_directives lines).foldl (fun d w => upd d w.1.toNat w.2) (fun _ => 0)

/-- The reset state with an empty IRQ2 file and the program whose first word is
`out $zero, $imm1, $zero, $imm2, 8, -2` (`0x140102008FFE`): it writes `0xFFFFFFFE` to
`clks`. -/
def state_clock_write : Machine :=
  { state_reset with instruction_memory := upd (fun _ => 0) 0 0x140102008FFE }

/-- A line that ends with a comma. -/
def line_trailing_comma : List Char := "halt $zero, $zero, $zero, $zero, 0, 0,".toList

/-- A line with white space, commas and a comment. -/
def line_add : List Char := "  add $t0, $zero, $imm1, $zero, 5, 0   # load 5\n".toList

/-- A source with one `.word` directive. -/
def program_word : List (List Char) := [".word 0x10 0xDEADBEEF\n".toList]

/-- A source with one instruction and no `.word` directive. -/
def program_halt : List (List Char) := ["halt $zero, $zero, $zero, $zero, 0, 0\n".toList]

/-! ## Further states and results for the examples -/

/-- The state in which the second pass leaves its variables (the initial state when
it fails). -/
def second_pass_result (label_list : List Label) (lines : List (List Char)) : SecondPass :=
  match second_pass label_list lines SecondPass.init with
  | .ok st => st
  | .error _ => SecondPass.init

/-- An interrupted program: at address 5 of a zero program with IRQ0 enabled and
raised and `irqhandler = 0x40`; the handler is `out $zero, $imm1, $zero, $zero, 3, 0`
(`0x140100003000`, clearing `irq0status`) followed by `reti` (`0x120000000000`). -/
def state_interrupted : Machine :=
  { state_reset with
    instruction_memory := upd (upd (fun _ => 0) 0x40 0x140100003000) 0x41 0x120000000000,
    program_counter := 5,
    io_registers :=
      upd (upd (upd state_reset.io_registers IRQ0_ENABLE 1) IRQ0_STATUS 1) IRQ_HANDLER 0x40 }

/-- Inside an ISR at address 0x40, the word there being `reti` (`0x120000000000`),
with `irqreturn = 0xFFF` and no interrupt enabled. -/
def state_reti_high : Machine :=
  { state_reset with
    instruction_memory := upd (fun _ => 0) 0x40 0x120000000000,
    program_counter := 0x40,
    isr_active_flag := 1,
    io_registers := upd state_reset.io_registers IRQ_RETURN 0xFFF }

/-- At the last address, 0xFFF, of the zero program, with no interrupt enabled. -/
def state_last_address : Machine :=
  { state_reset with program_counter := 0xFFF }

/-- The timer registers with `timerenable = 2`, `timercurrent = 0`, `timermax = 5`. -/
def state_timer_enable2 : Machine :=
  { state_reset with
    io_registers := upd (upd (upd state_reset.io_registers TIMER_ENABLE 2) TIMER_CURRENT 0)
      TIMER_MAX 5 }

/-! ## Arithmetic form of the bit operations -/

theorem or_eq_add_of_lt (a b i : Nat) (hb : b < 2 ^ i) : (a <<< i) ||| b = a * 2 ^ i + b := by
  rw [Nat.shiftLeft_eq, Nat.mul_comm a, Nat.mul_add_lt_is_or hb]

theorem and_mask8 (x : Nat) : x &&& 0xFF = x % 256 :=
  Nat.and_pow_two_sub_one_eq_mod x 8

theorem and_mask4 (x : Nat) : x &&& 0xF = x % 16 :=
  Nat.and_pow_two_sub_one_eq_mod x 4

theorem and_mask12 (x : Nat) : x &&& 0xFFF = x % 4096 :=
  Nat.and_pow_two_sub_one_eq_mod x 12

theorem and_mask24 (x : Nat) : x &&& 0xFFFFFF = x % 16777216 :=
  Nat.and_pow_two_sub_one_eq_mod x 24

theorem toU32_natCast (n : Nat) (h : n < 4294967296) : toU32 (n : Int) = n := by
  unfold toU32
  omega

theorem toU32_lt (x : Int) : toU32 x < 4294967296 := by
  unfold toU32
  omega

theorem shl4_or (a b : Nat) (ha : a < 2 ^ 60) (hb : b < 16) :
    ((a <<< 4) % 2 ^ 64) ||| b = a * 16 + b := by
  have hlt : a <<< 4 < 2 ^ 64 := by
    rw [Nat.shiftLeft_eq]
    norm_num at ha ⊢
    omega
  rw [Nat.mod_eq_of_lt hlt, or_eq_add_of_lt a b 4 (by norm_num; exact hb)]
  norm_num

theorem shl12_or (a b : Nat) (ha : a < 2 ^ 52) (hb : b < 4096) :
    ((a <<< (4 * 3)) % 2 ^ 64) ||| b = a * 4096 + b := by
  have hlt : a <<< (4 * 3) < 2 ^ 64 := by
    rw [Nat.shiftLeft_eq]
    norm_num at ha ⊢
    omega
  rw [Nat.mod_eq_of_lt hlt, or_eq_add_of_lt a b (4 * 3) (by norm_num; exact hb)]
  norm_num

/-- The packed word in arithmetic form. -/
theorem encodeInstruction_arith (opcode rd rs rt rm imm1 imm2 : Int) :
    encodeInstruction opcode rd rs rt rm imm1 imm2 =
      ((((((toU32 opcode % 256) * 16 + toU32 rd % 16) * 16 + toU32 rs % 16) * 16
        + toU32 rt % 16) * 16 + toU32 rm % 16) * 4096 + toU32 imm1 % 4096) * 4096
        + toU32 imm2 % 4096 := by
  unfold encodeInstruction
  simp only [and_mask8, and_mask4, and_mask12]
  have bo : toU32 opcode % 256 < 256 := Nat.mod_lt _ (by norm_num)
  have bd : toU32 rd % 16 < 16 := Nat.mod_lt _ (by norm_num)
  have bs : toU32 rs % 16 < 16 := Nat.mod_lt _ (by norm_num)
  have bt : toU32 rt % 16 < 16 := Nat.mod_lt _ (by norm_num)
  have bm : toU32 rm % 16 < 16 := Nat.mod_lt _ (by norm_num)
  have b1 : toU32 imm1 % 4096 < 4096 := Nat.mod_lt _ (by norm_num)
  have b2 : toU32 imm2 % 4096 < 4096 := Nat.mod_lt _ (by norm_num)
  generalize toU32 opcode % 256 = o at bo ⊢
  generalize toU32 rd % 16 = d at bd ⊢
  generalize toU32 rs % 16 = s at bs ⊢
  generalize toU32 rt % 16 = t at bt ⊢
  generalize toU32 rm % 16 = m at bm ⊢
  generalize toU32 imm1 % 4096 = i1 at b1 ⊢
  generalize toU32 imm2 % 4096 = i2 at b2 ⊢
  rw [shl4_or o d (by norm_num; omega) bd]
  rw [shl4_or (o * 16 + d) s (by norm_num; omega) bs]
  rw [shl4_or ((o * 16 + d) * 16 + s) t (by norm_num; omega) bt]
  rw [shl4_or (((o * 16 + d) * 16 + s) * 16 + t) m (by norm_num; omega) bm]
  rw [shl12_or ((((o * 16 + d) * 16 + s) * 16 + t) * 16 + m) i1 (by norm_num; omega) b1]
  rw [shl12_or (((((o * 16 + d) * 16 + s) * 16 + t) * 16 + m) * 4096 + i1) i2
    (by norm_num; omega) b2]

theorem and_shl_shr (w m k : Nat) : (w &&& (m <<< k)) >>> k = (w >>> k) &&& m := by
  apply Nat.eq_of_testBit_eq
  intro j
  simp [Nat.testBit_shiftRight, Nat.testBit_and, Nat.testBit_shiftLeft]

theorem field_extract (w k : Nat) : (w &&& (15 <<< k)) >>> k = w / 2 ^ k % 16 := by
  rw [and_shl_shr, Nat.shiftRight_eq_div_pow]
  exact Nat.and_pow_two_sub_one_eq_mod _ 4

theorem xor_2048_of_lt (u : Nat) (h : u < 2048) : u ^^^ 2048 = u + 2048 := by
  apply Nat.eq_of_testBit_eq
  intro j
  have e : (2048 : Nat) = 2 ^ 11 := by norm_num
  rw [Nat.testBit_xor, Nat.add_comm, e, Nat.testBit_two_pow]
  rcases Nat.lt_trichotomy j 11 with hj | hj | hj
  · rw [Nat.testBit_two_pow_add_gt hj]
    simp [Nat.ne_of_gt hj]
  · subst hj
    rw [Nat.testBit_two_pow_add_eq]
    have : u.testBit 11 = false := Nat.testBit_lt_two_pow (by omega)
    simp [this]
  · have h1 : u.testBit j = false :=
      Nat.testBit_lt_two_pow (lt_of_lt_of_le (by omega) (Nat.pow_le_pow_right (by norm_num) (le_of_lt hj)))
    have h2 : (2 ^ 11 + u).testBit j = false :=
      Nat.testBit_lt_two_pow (lt_of_lt_of_le (by omega : 2 ^ 11 + u < 2 ^ 12) (Nat.pow_le_pow_right (by norm_num) hj))
    simpa [h1, Nat.ne_of_lt hj] using h2

theorem xor_2048_of_ge (v : Nat) (h1 : 2048 ≤ v) (h2 : v < 4096) : v ^^^ 2048 = v - 2048 := by
  have hu : v - 2048 < 2048 := by omega
  have := xor_2048_of_lt (v - 2048) hu
  have hv : v - 2048 + 2048 = v := by omega
  rw [hv] at this
  rw [← this, Nat.xor_assoc, Nat.xor_self, Nat.xor_zero]
  conv_lhs => rw [← hv]
  omega

theorem sign_extend_12 (v : Nat) (h : v < 4096) :
    sign_extend (v : Int) 12 = if v < 2048 then (v : Int) else (v : Int) - 4096 := by
  unfold sign_extend
  show ((v ^^^ (1 <<< (12 - 1)) : Nat) : Int) - ((1 <<< (12 - 1) : Nat) : Int) = _
  have e : (1 <<< (12 - 1) : Nat) = 2048 := by decide
  rw [e]
  split
  · rename_i hlt
    rw [xor_2048_of_lt v hlt]; push_cast; omega
  · rename_i hge
    rw [xor_2048_of_ge v (by omega) h]; omega

theorem decode_instruction_fields (w : Nat) :
    (decode_instruction w).1 0 = w / 2 ^ 36 % 16 ∧ (decode_instruction w).1 1 = w / 2 ^ 32 % 16 ∧
    (decode_instruction w).1 2 = w / 2 ^ 28 % 16 ∧ (decode_instruction w).1 3 = w / 2 ^ 24 % 16 := by
  have f36 := field_extract w 36
  have f32 := field_extract w 32
  have f28 := field_extract w 28
  have f24 := field_extract w 24
  simp only [decode_instruction, decode_loop, upd]
  norm_num at f36 f32 f28 f24 ⊢
  exact ⟨f36, f32, f28, f24⟩

theorem imm_fields (w : Nat) :
    decode_immediate1 (decode_instruction w).2 =
      (if w / 4096 % 4096 < 2048 then ((w / 4096 % 4096 : Nat) : Int)
       else ((w / 4096 % 4096 : Nat) : Int) - 4096) ∧
    decode_immediate2 (decode_instruction w).2 =
      (if w % 4096 < 2048 then ((w % 4096 : Nat) : Int) else ((w % 4096 : Nat) : Int) - 4096) := by
  have e1 : ((w &&& 0xFFFFFF) &&& 0xFFF000) >>> 12 = w / 4096 % 4096 := by
    have h := and_shl_shr (w &&& 0xFFFFFF) 4095 12
    have m : (4095 <<< 12 : Nat) = 0xFFF000 := by decide
    rw [m] at h
    rw [h, and_mask12, and_mask24, Nat.shiftRight_eq_div_pow]
    norm_num
    omega
  have e2 : (w &&& 0xFFFFFF) &&& 0xFFF = w % 4096 := by
    rw [and_mask12, and_mask24]
    omega
  unfold decode_immediate1 decode_immediate2 decode_instruction
  simp only []
  rw [e1, e2, sign_extend_12 _ (Nat.mod_lt _ (by norm_num)),
    sign_extend_12 _ (Nat.mod_lt _ (by norm_num))]
  exact ⟨rfl, rfl⟩

theorem or_shl_eq_add (x y k q : Nat) (hx : x = 2 ^ k * q) (hy : y < 2 ^ k) : x ||| y = x + y := by
  subst hx
  exact (Nat.mul_add_lt_is_or hy q).symm

theorem flat_pack_arith (op rd rs rt rm i1 i2 : Nat) (hrd : rd ≤ 15) (hrs : rs ≤ 15)
    (hrt : rt ≤ 15) (hrm : rm ≤ 15) (h1 : i1 < 4096) (h2 : i2 < 4096) :
    (op <<< 40) ||| (rd <<< 36) ||| (rs <<< 32) ||| (rt <<< 28) ||| (rm <<< 24)
        ||| (i1 <<< 12) ||| i2 =
      (((((op * 16 + rd) * 16 + rs) * 16 + rt) * 16 + rm) * 4096 + i1) * 4096 + i2 := by
  simp only [Nat.shiftLeft_eq]
  norm_num
  have e1 : op * 1099511627776 ||| rd * 68719476736 = (op * 16 + rd) * 68719476736 := by
    rw [or_shl_eq_add _ _ 40 op (by norm_num; omega) (by norm_num; omega)]
    omega
  have e2 : (op * 16 + rd) * 68719476736 ||| rs * 4294967296
      = ((op * 16 + rd) * 16 + rs) * 4294967296 := by
    rw [or_shl_eq_add _ _ 36 (op * 16 + rd) (by norm_num; omega) (by norm_num; omega)]
    omega
  have e3 : ((op * 16 + rd) * 16 + rs) * 4294967296 ||| rt * 268435456
      = (((op * 16 + rd) * 16 + rs) * 16 + rt) * 268435456 := by
    rw [or_shl_eq_add _ _ 32 ((op * 16 + rd) * 16 + rs) (by norm_num; omega)
      (by norm_num; omega)]
    omega
  have e4 : (((op * 16 + rd) * 16 + rs) * 16 + rt) * 268435456 ||| rm * 16777216
      = ((((op * 16 + rd) * 16 + rs) * 16 + rt) * 16 + rm) * 16777216 := by
    rw [or_shl_eq_add _ _ 28 (((op * 16 + rd) * 16 + rs) * 16 + rt) (by norm_num; omega)
      (by norm_num; omega)]
    omega
  have e5 : ((((op * 16 + rd) * 16 + rs) * 16 + rt) * 16 + rm) * 16777216 ||| i1 * 4096
      = (((((op * 16 + rd) * 16 + rs) * 16 + rt) * 16 + rm) * 4096 + i1) * 4096 := by
    rw [or_shl_eq_add _ _ 24 ((((op * 16 + rd) * 16 + rs) * 16 + rt) * 16 + rm)
      (by norm_num; omega) (by norm_num; omega)]
    omega
  rw [e1, e2, e3, e4, e5]
  rw [or_shl_eq_add _ _ 12 ((((((op * 16 + rd) * 16 + rs) * 16 + rt) * 16 + rm) * 4096 + i1))
    (by norm_num; omega) (by norm_num; omega)]

/-! ## The instruction word: encoder against decoder -/

/-- C1: encode/decode round trip. For every opcode `op` in 0..21, register fields in
0..15 and immediates in -2048..2047, decoding the word of `encodeInstruction` the way
the simulator does (opcode `word >> 40`, the four fields of `decode_instruction`,
`sign_extend(., 12)` on the two halves of the low 24 bits) gives back exactly
`(op, rd, rs, rt, rm, imm1, imm2)`. -/
theorem encode_decode_round_trip (op rd rs rt rm : Nat) (imm1 imm2 : Int)
    (hop : op ≤ 21) (hrd : rd ≤ 15) (hrs : rs ≤ 15) (hrt : rt ≤ 15) (hrm : rm ≤ 15)
    (h1 : -2048 ≤ imm1 ∧ imm1 ≤ 2047) (h2 : -2048 ≤ imm2 ∧ imm2 ≤ 2047) :
    decode_opcode (encodeInstruction op rd rs rt rm imm1 imm2) = op ∧
    (decode_instruction (encodeInstruction op rd rs rt rm imm1 imm2)).1 0 = rd ∧
    (decode_instruction (encodeInstruction op rd rs rt rm imm1 imm2)).1 1 = rs ∧
    (decode_instruction (encodeInstruction op rd rs rt rm imm1 imm2)).1 2 = rt ∧
    (decode_instruction (encodeInstruction op rd rs rt rm imm1 imm2)).1 3 = rm ∧
    decode_immediate1 (decode_instruction (encodeInstruction op rd rs rt rm imm1 imm2)).2 = imm1 ∧
    decode_immediate2 (decode_instruction (encodeInstruction op rd rs rt rm imm1 imm2)).2 = imm2 := by
  have hw := encodeInstruction_arith op rd rs rt rm imm1 imm2
  rw [toU32_natCast op (by omega), toU32_natCast rd (by omega), toU32_natCast rs (by omega),
    toU32_natCast rt (by omega), toU32_natCast rm (by omega)] at hw
  have a1 : ((toU32 imm1 % 4096 : Nat) : Int) = if 0 ≤ imm1 then imm1 else imm1 + 4096 := by
    unfold toU32
    split <;> omega
  have a2 : ((toU32 imm2 % 4096 : Nat) : Int) = if 0 ≤ imm2 then imm2 else imm2 + 4096 := by
    unfold toU32
    split <;> omega
  have b1 : toU32 imm1 % 4096 < 4096 := Nat.mod_lt _ (by norm_num)
  have b2 : toU32 imm2 % 4096 < 4096 := Nat.mod_lt _ (by norm_num)
  generalize toU32 imm1 % 4096 = i1 at hw a1 b1
  generalize toU32 imm2 % 4096 = i2 at hw a2 b2
  generalize encodeInstruction op rd rs rt rm imm1 imm2 = w at hw ⊢
  obtain ⟨f0, f1, f2, f3⟩ := decode_instruction_fields w
  obtain ⟨g1, g2⟩ := imm_fields w
  rw [f0, f1, f2, f3, g1, g2]
  clear f0 f1 f2 f3 g1 g2
  unfold decode_opcode
  rw [Nat.shiftRight_eq_div_pow]
  have p40 : (2 : Nat) ^ 40 = 1099511627776 := by norm_num
  have p36 : (2 : Nat) ^ 36 = 68719476736 := by norm_num
  have p32 : (2 : Nat) ^ 32 = 4294967296 := by norm_num
  have p28 : (2 : Nat) ^ 28 = 268435456 := by norm_num
  have p24 : (2 : Nat) ^ 24 = 16777216 := by norm_num
  rw [p40, p36, p32, p28, p24]
  have q1 : w / 4096 % 4096 = i1 := by omega
  have q2 : w % 4096 = i2 := by omega
  rw [q1, q2]
  refine ⟨by omega, by omega, by omega, by omega, by omega, ?_, ?_⟩
  · split at a1 <;> split <;> omega
  · split at a2 <;> split <;> omega

/-- Witness of C1 at `halt`-opcode 21 with fields 15, 3, 4, 5 and immediates -1 and
2047 (the word `0x15F345FFF7FF`). -/
theorem encode_decode_round_trip_witness :
    ((21 : Nat) ≤ 21 ∧ (15 : Nat) ≤ 15 ∧ (3 : Nat) ≤ 15 ∧ (4 : Nat) ≤ 15 ∧ (5 : Nat) ≤ 15 ∧
      ((-2048 : Int) ≤ -1 ∧ (-1 : Int) ≤ 2047) ∧ ((-2048 : Int) ≤ 2047 ∧ (2047 : Int) ≤ 2047)) ∧
    (decode_opcode (encodeInstruction (21 : Nat) (15 : Nat) (3 : Nat) (4 : Nat) (5 : Nat)
        (-1) 2047) = 21 ∧
      (decode_instruction (encodeInstruction (21 : Nat) (15 : Nat) (3 : Nat) (4 : Nat)
        (5 : Nat) (-1) 2047)).1 0 = 15 ∧
      (decode_instruction (encodeInstruction (21 : Nat) (15 : Nat) (3 : Nat) (4 : Nat)
        (5 : Nat) (-1) 2047)).1 1 = 3 ∧
      (decode_instruction (encodeInstruction (21 : Nat) (15 : Nat) (3 : Nat) (4 : Nat)
        (5 : Nat) (-1) 2047)).1 2 = 4 ∧
      (decode_instruction (encodeInstruction (21 : Nat) (15 : Nat) (3 : Nat) (4 : Nat)
        (5 : Nat) (-1) 2047)).1 3 = 5 ∧
      decode_immediate1 (decode_instruction (encodeInstruction (21 : Nat) (15 : Nat) (3 : Nat)
        (4 : Nat) (5 : Nat) (-1) 2047)).2 = -1 ∧
      decode_immediate2 (decode_instruction (encodeInstruction (21 : Nat) (15 : Nat) (3 : Nat)
        (4 : Nat) (5 : Nat) (-1) 2047)).2 = 2047) :=
  ⟨by decide, encode_decode_round_trip 21 15 3 4 5 (-1) 2047 (by decide) (by decide)
    (by decide) (by decide) (by decide) (by decide) (by decide)⟩

/-- C2: bit-exact packing. For every `op` in 0..255, register fields in 0..15 and any
two `int` immediates (the bit pattern `toU32 imm` ranges over all 32-bit values; in or
out of the 12-bit range), `encodeInstruction` returns
`(op<<40)|(rd<<36)|(rs<<32)|(rt<<28)|(rm<<24)|((imm1&0xFFF)<<12)|(imm2&0xFFF)`, the
value is below `2^48`, and `imm & 0xFFF` is the residue of `imm` modulo 4096. -/
theorem encodeInstruction_bit_exact (op rd rs rt rm : Nat) (imm1 imm2 : Int)
    (hop : op ≤ 255) (hrd : rd ≤ 15) (hrs : rs ≤ 15) (hrt : rt ≤ 15) (hrm : rm ≤ 15) :
    encodeInstruction op rd rs rt rm imm1 imm2 =
      ((op <<< 40) ||| (rd <<< 36) ||| (rs <<< 32) ||| (rt <<< 28) ||| (rm <<< 24)
        ||| ((toU32 imm1 &&& 0xFFF) <<< 12) ||| (toU32 imm2 &&& 0xFFF)) ∧
    encodeInstruction op rd rs rt rm imm1 imm2 < 2 ^ 48 ∧
    ((toU32 imm1 &&& 0xFFF : Nat) : Int) = imm1 % 4096 ∧
    ((toU32 imm2 &&& 0xFFF : Nat) : Int) = imm2 % 4096 := by
  have hw := encodeInstruction_arith op rd rs rt rm imm1 imm2
  rw [toU32_natCast op (by omega), toU32_natCast rd (by omega), toU32_natCast rs (by omega),
    toU32_natCast rt (by omega), toU32_natCast rm (by omega)] at hw
  rw [Nat.mod_eq_of_lt (by omega : op < 256), Nat.mod_eq_of_lt (by omega : rd < 16),
    Nat.mod_eq_of_lt (by omega : rs < 16), Nat.mod_eq_of_lt (by omega : rt < 16),
    Nat.mod_eq_of_lt (by omega : rm < 16)] at hw
  have b1 : toU32 imm1 % 4096 < 4096 := Nat.mod_lt _ (by norm_num)
  have b2 : toU32 imm2 % 4096 < 4096 := Nat.mod_lt _ (by norm_num)
  have c1 : ((toU32 imm1 % 4096 : Nat) : Int) = imm1 % 4096 := by unfold toU32; omega
  have c2 : ((toU32 imm2 % 4096 : Nat) : Int) = imm2 % 4096 := by unfold toU32; omega
  rw [and_mask12, and_mask12, flat_pack_arith op rd rs rt rm _ _ hrd hrs hrt hrm b1 b2]
  refine ⟨hw, ?_, c1, c2⟩
  rw [hw]
  norm_num
  omega

/-- Witness of C2 at `op = 255`, fields 15, 0, 7, 9 and the out-of-range immediates
`-2147483648` and `2147483647`. -/
theorem encodeInstruction_bit_exact_witness :
    ((255 : Nat) ≤ 255 ∧ (15 : Nat) ≤ 15 ∧ (0 : Nat) ≤ 15 ∧ (7 : Nat) ≤ 15 ∧ (9 : Nat) ≤ 15) ∧
    (encodeInstruction (255 : Nat) (15 : Nat) (0 : Nat) (7 : Nat) (9 : Nat) (-2147483648)
        2147483647 =
      (((255 : Nat) <<< 40) ||| ((15 : Nat) <<< 36) ||| ((0 : Nat) <<< 32) ||| ((7 : Nat) <<< 28)
        ||| ((9 : Nat) <<< 24) ||| ((toU32 (-2147483648) &&& 0xFFF) <<< 12)
        ||| (toU32 2147483647 &&& 0xFFF)) ∧
      encodeInstruction (255 : Nat) (15 : Nat) (0 : Nat) (7 : Nat) (9 : Nat) (-2147483648)
        2147483647 < 2 ^ 48 ∧
      ((toU32 (-2147483648) &&& 0xFFF : Nat) : Int) = (-2147483648) % 4096 ∧
      ((toU32 2147483647 &&& 0xFFF : Nat) : Int) = 2147483647 % 4096) :=
  ⟨by decide, encodeInstruction_bit_exact 255 15 0 7 9 (-2147483648) 2147483647 (by decide)
    (by decide) (by decide) (by decide) (by decide)⟩

/-! ## Frame lemmas of the simulator -/

theorem upd_same (a : Nat → Nat) (i v : Nat) : upd a i v i = v := by
  simp [upd]

theorem upd_other (a : Nat → Nat) (i v j : Nat) (h : j ≠ i) : upd a i v j = a j := by
  simp [upd, h]

/-- What the `switch` leaves untouched, and what it does to the program counter. -/
theorem process_switch_frame (opcode : Nat) (registersUsed : Nat → Nat) (s s1 : Machine)
    (jump_flag : Nat) (h : process_switch opcode registersUsed s = .ok (s1, jump_flag)) :
    opcode ≤ 21 ∧ s1.isr_active_flag = s.isr_active_flag ∧
    s1.instruction_memory = s.instruction_memory ∧
    s1.disk_cycle_counter = s.disk_cycle_counter ∧ s1.disk_index = s.disk_index ∧
    ((jump_flag = 0 ∧ s1.program_counter = s.program_counter ∧ opcode ≠ 18) ∨
     (jump_flag = 1 ∧ s1.program_counter ≤ 0xFFF ∧ opcode ≠ 18) ∨
     (jump_flag = 0 ∧ s1.program_counter = s.io_registers IRQ_RETURN ∧ opcode = 18 ∧
        s1.io_registers = s.io_registers)) := by
  have hmask : ∀ x : Nat, x &&& 0xFFF ≤ 0xFFF := fun x => Nat.and_le_right
  unfold process_switch at h
  dsimp only at h
  split at h <;> (try split_ifs at h) <;> cases h <;> simp [hmask]

theorem process_instruction_frame (opcode : Nat) (registersUsed : Nat → Nat) (s s1 : Machine)
    (jump_flag : Nat) (h : process_instruction opcode registersUsed s = .ok (s1, jump_flag)) :
    s1.cpu_registers 0 = 0 ∧
    opcode ≤ 21 ∧ s1.isr_active_flag = s.isr_active_flag ∧
    s1.instruction_memory = s.instruction_memory ∧
    s1.disk_cycle_counter = s.disk_cycle_counter ∧ s1.disk_index = s.disk_index ∧
    ((jump_flag = 0 ∧ s1.program_counter = s.program_counter ∧ opcode ≠ 18) ∨
     (jump_flag = 1 ∧ s1.program_counter ≤ 0xFFF ∧ opcode ≠ 18) ∨
     (jump_flag = 0 ∧ s1.program_counter = s.io_registers IRQ_RETURN ∧ opcode = 18 ∧
        s1.io_registers = s.io_registers)) := by
  unfold process_instruction at h
  split at h
  · cases h
  · rename_i s2 jf hs
    cases h
    have := process_switch_frame opcode registersUsed s s2 jump_flag hs
    simpa [upd] using this

theorem disk_start_frame (s : Machine) :
    (disk_start s).program_counter = s.program_counter ∧
    (disk_start s).isr_active_flag = s.isr_active_flag ∧
    (disk_start s).disk_cycle_counter = s.disk_cycle_counter ∧
    (∀ k, k ≠ DISK_STATUS → (disk_start s).io_registers k = s.io_registers k) := by
  unfold disk_start
  split <;> simp [upd]
  intro k hk
  simp [hk]

theorem disk_transfer_frame (b n : Int) (s s1 : Machine) (h : disk_transfer b n s = .ok s1) :
    s1.program_counter = s.program_counter ∧ s1.isr_active_flag = s.isr_active_flag ∧
    s1.disk_cycle_counter = s.disk_cycle_counter ∧ s1.io_registers = s.io_registers := by
  unfold disk_transfer at h
  dsimp only at h
  split_ifs at h <;> cases h <;> simp

theorem disk_finish_frame (s : Machine) :
    (disk_finish s).program_counter = s.program_counter ∧
    (disk_finish s).isr_active_flag = s.isr_active_flag ∧
    (∀ k, k ≠ DISK_CMD → k ≠ DISK_STATUS → k ≠ IRQ1_STATUS →
      (disk_finish s).io_registers k = s.io_registers k) := by
  unfold disk_finish
  dsimp only
  split_ifs <;> simp [upd]
  all_goals
    intro k h1 h2 h3
    simp [h1, h2, h3]

theorem handle_disk_operations_frame (s s1 : Machine) (h : handle_disk_operations s = .ok s1) :
    s1.program_counter = s.program_counter ∧ s1.isr_active_flag = s.isr_active_flag ∧
    (∀ k, k ≠ DISK_CMD → k ≠ DISK_STATUS → k ≠ IRQ1_STATUS →
      s1.io_registers k = s.io_registers k) := by
  unfold handle_disk_operations at h
  dsimp only at h
  split at h
  · cases h
  · rename_i s2 hs
    cases h
    obtain ⟨a1, a2, _, a4⟩ := disk_start_frame s
    obtain ⟨b1, b2, _, b4⟩ := disk_transfer_frame _ _ _ _ hs
    obtain ⟨c1, c2, c3⟩ := disk_finish_frame s2
    refine ⟨by rw [c1, b1, a1], by rw [c2, b2, a2], ?_⟩
    intro k h1 h2 h3
    rw [c3 k h1 h2 h3, b4, a4 k h2]

theorem handle_timer_operations_frame (s : Machine) :
    (handle_timer_operations s).program_counter = s.program_counter ∧
    (handle_timer_operations s).isr_active_flag = s.isr_active_flag ∧
    (∀ k, k ≠ TIMER_CURRENT → k ≠ IRQ0_STATUS →
      (handle_timer_operations s).io_registers k = s.io_registers k) := by
  unfold handle_timer_operations
  split_ifs <;> simp [upd]
  all_goals
    intro k h1 h2
    simp [h1, h2]

theorem handle_monitor_operations_frame (s s1 : Machine)
    (h : handle_monitor_operations s = .ok s1) :
    s1.program_counter = s.program_counter ∧ s1.isr_active_flag = s.isr_active_flag ∧
    s1.io_registers = s.io_registers := by
  unfold handle_monitor_operations at h
  split_ifs at h <;> cases h <;> simp

theorem handle_peripherals_frame (opcode : Nat) (registers_used : Nat → Nat) (s s1 : Machine)
    (h : handle_peripherals opcode registers_used s = .ok s1) :
    s1.program_counter = s.program_counter ∧ s1.isr_active_flag = s.isr_active_flag ∧
    (∀ k, k ≠ DISK_CMD → k ≠ DISK_STATUS → k ≠ IRQ1_STATUS → k ≠ TIMER_CURRENT →
      k ≠ IRQ0_STATUS → s1.io_registers k = s.io_registers k) := by
  unfold handle_peripherals at h
  split at h
  · cases h
  · rename_i sd hd
    split at h
    · cases h
    · rename_i sm hm
      split at h
      · cases h
      · cases h
        obtain ⟨a1, a2, a3⟩ := handle_disk_operations_frame _ _ hd
        obtain ⟨b1, b2, b3⟩ := handle_timer_operations_frame sd
        obtain ⟨c1, c2, c3⟩ := handle_monitor_operations_frame _ _ hm
        refine ⟨by rw [c1, b1, a1], by rw [c2, b2, a2], ?_⟩
        intro k h1 h2 h3 h4 h5
        rw [c3, b3 k h4 h5, a3 k h1 h2 h3]

theorem irq2_feed_frame (s : Machine) :
    (irq2_feed s).program_counter = s.program_counter ∧
    (irq2_feed s).isr_active_flag = s.isr_active_flag ∧
    (irq2_feed s).halt_flag = s.halt_flag ∧
    (∀ k, k ≠ IRQ2_STATUS → (irq2_feed s).io_registers k = s.io_registers k) := by
  unfold irq2_feed
  split <;> simp [upd]
  intro k hk
  simp [hk]

theorem get_instruction_frame (s sf : Machine) (w : Nat) (h : get_instruction s = .ok (w, sf)) :
    sf.isr_active_flag = s.isr_active_flag ∧ sf.io_registers = s.io_registers ∧
    sf.program_counter < 4096 ∧
    ((sf.program_counter = s.program_counter ∧
        ¬ (s.io_registers DISK_STATUS = 1 ∧ s.halt_flag = 1)) ∨
     (sf.program_counter + 1 = s.program_counter ∧
        (s.io_registers DISK_STATUS = 1 ∧ s.halt_flag = 1))) := by
  unfold get_instruction at h
  dsimp only at h
  split_ifs at h with h1 h2 h3 h4 <;> cases h
  · refine ⟨rfl, rfl, ?_, Or.inr ⟨?_, h1⟩⟩
    · simpa [MEM_SIZE] using h3
    · simp only [MEM_SIZE, toU32] at h2 h3 ⊢
      omega
  · refine ⟨rfl, rfl, ?_, Or.inl ⟨rfl, h1⟩⟩
    simpa [MEM_SIZE] using h4

/-- The state after `execute_and_peripherals`: where the program counter can be, and
what is left of the ISR flag and of `irqreturn`. -/
theorem execute_and_peripherals_spec (s s1 : Machine) (opcode : Nat)
    (h : execute_and_peripherals s = .ok (s1, opcode)) :
    s1.isr_active_flag = s.isr_active_flag ∧
    ((opcode ≠ 18 ∧ s1.program_counter = s.program_counter + 1 ∧ s.program_counter < 4096 ∧
        ¬ (s.io_registers DISK_STATUS = 1 ∧ s.halt_flag = 1)) ∨
     (opcode ≠ 18 ∧ s1.program_counter = s.program_counter ∧ 1 ≤ s.program_counter ∧
        (s.io_registers DISK_STATUS = 1 ∧ s.halt_flag = 1)) ∨
     (opcode ≠ 18 ∧ s1.program_counter ≤ 0xFFF) ∨
     (opcode = 18 ∧ s1.program_counter = (s.io_registers IRQ_RETURN + 1) % 4294967296 ∧
        s1.io_registers IRQ_RETURN = s.io_registers IRQ_RETURN)) := by
  unfold execute_and_peripherals at h
  split at h
  · cases h
  · rename_i w sf hg
    dsimp only at h
    split at h
    · cases h
    · rename_i s3 jf hp
      split at h
      · cases h
      · rename_i s5 hper
        cases h
        obtain ⟨i1, i2, i3, i4⟩ := irq2_feed_frame s
        obtain ⟨g1, g2, g3, g4⟩ := get_instruction_frame _ _ _ hg
        obtain ⟨_, _, p3, _, _, _, p7⟩ := process_instruction_frame _ _ _ _ _ hp
        obtain ⟨q1, q2, q3⟩ := handle_peripherals_frame _ _ _ _ hper
        have i7 := i4 IRQ_RETURN (by decide)
        have i17 := i4 DISK_STATUS (by decide)
        have q7 := q3 IRQ_RETURN (by decide) (by decide) (by decide) (by decide) (by decide)
        rw [i1, i17, i3] at g4
        dsimp only at p3 p7
        refine ⟨by rw [q2]; split <;> simp [p3, g1, i2], ?_⟩
        rcases p7 with ⟨hj, hpc, hne⟩ | ⟨hj, hpc, hne⟩ | ⟨hj, hpc, he, hio⟩
        · simp only [hj, if_true] at q1 q7
          simp only [hpc] at q1
          have hlt : (sf.program_counter + 1) % 4294967296 = sf.program_counter + 1 := by omega
          rw [hlt] at q1
          rcases g4 with ⟨e, hn⟩ | ⟨e, hy⟩
          · exact Or.inl ⟨hne, by omega, by omega, hn⟩
          · exact Or.inr (Or.inl ⟨hne, by omega, by omega, hy⟩)
        · have : jf ≠ 0 := by omega
          simp only [this, if_false] at q1
          exact Or.inr (Or.inr (Or.inl ⟨hne, by omega⟩))
        · simp only [hj, if_true] at q1 q7
          simp only [hpc, g2] at q1
          refine Or.inr (Or.inr (Or.inr ⟨he, ?_, ?_⟩))
          · rw [q1, i7]
          · rw [q7]
            show s3.io_registers IRQ_RETURN = _
            rw [hio]
            show sf.io_registers IRQ_RETURN = _
            rw [g2, i7]

theorem check_interrupts_ne_zero_iff (s : Machine) :
    check_interrupts s ≠ 0 ↔
      ((s.io_registers IRQ0_ENABLE ≠ 0 ∧ s.io_registers IRQ0_STATUS ≠ 0) ∨
       (s.io_registers IRQ1_ENABLE ≠ 0 ∧ s.io_registers IRQ1_STATUS ≠ 0) ∨
       (s.io_registers IRQ2_ENABLE ≠ 0 ∧ s.io_registers IRQ2_STATUS ≠ 0)) := by
  unfold check_interrupts
  dsimp only
  split_ifs <;> simp_all

theorem end_of_cycle_frame (s : Machine) :
    (end_of_cycle s).program_counter = s.program_counter ∧
    (end_of_cycle s).isr_active_flag = s.isr_active_flag ∧
    (∀ k, k ≠ CLOCK_CYCLE → k ≠ TIMER_CURRENT → k ≠ IRQ0_STATUS → k ≠ MONITOR_CMD →
      (end_of_cycle s).io_registers k = s.io_registers k) := by
  refine ⟨rfl, rfl, ?_⟩
  intro k h1 h2 h3 h4
  unfold end_of_cycle update_timer increment_clock_cycle
  dsimp only
  split_ifs <;> simp [upd, h1, h2, h3, h4]

theorem interrupt_phase_no_entry (opcode : Nat) (s : Machine) (hop : opcode ≠ RETI_OP)
    (h : s.isr_active_flag ≠ 0 ∨ check_interrupts s = 0) : interrupt_phase opcode s = s := by
  unfold interrupt_phase
  simp only [hop, if_false]
  rcases h with h | h
  · simp [h]
  · simp [h]

theorem interrupt_phase_entry (opcode : Nat) (s : Machine)
    (hisr : opcode = RETI_OP ∨ s.isr_active_flag = 0) (h : check_interrupts s ≠ 0) :
    (interrupt_phase opcode s).io_registers IRQ_RETURN = toU32 ((s.program_counter : Int) - 1) ∧
    (interrupt_phase opcode s).program_counter = s.io_registers IRQ_HANDLER ∧
    (interrupt_phase opcode s).io_registers IRQ_HANDLER = s.io_registers IRQ_HANDLER ∧
    (interrupt_phase opcode s).isr_active_flag = 1 := by
  have hc : ∀ f : Nat, check_interrupts { s with isr_active_flag := f } = check_interrupts s :=
    fun _ => rfl
  unfold interrupt_phase
  by_cases hop : opcode = RETI_OP
  · simp [hop, hc, h, upd, IRQ_RETURN, IRQ_HANDLER]
  · have h0 : s.isr_active_flag = 0 := by
      rcases hisr with h1 | h1
      · exact absurd h1 hop
      · exact h1
    simp [hop, h0, h, upd, IRQ_RETURN, IRQ_HANDLER]

theorem interrupt_phase_reti (s : Machine) (h : check_interrupts s = 0) :
    interrupt_phase RETI_OP s = { s with isr_active_flag := 0 } := by
  have hc : check_interrupts { s with isr_active_flag := 0 } = check_interrupts s := rfl
  unfold interrupt_phase
  simp [hc, h]

theorem loop_iteration_eq (s s1 : Machine) (opcode : Nat)
    (h : execute_and_peripherals s = .ok (s1, opcode)) :
    loop_iteration s = .ok (end_of_cycle (interrupt_phase opcode s1)) := by
  unfold loop_iteration
  rw [h]

theorem process_instruction_known (opcode : Nat) (registersUsed : Nat → Nat) (s : Machine)
    (hop : opcode ≤ 21) :
    process_instruction opcode registersUsed s ≠ .error Fault.unknownOpcode := by
  intro h
  unfold process_instruction at h
  split at h
  · rename_i e he
    cases h
    unfold process_switch at he
    dsimp only at he
    split at he <;> (try split_ifs at he) <;> (try cases he)
    interval_cases opcode <;> simp_all
  · cases h

/-- C3: zero register invariant. For every machine state, every instruction with a
valid opcode (0..21) and any register fields, `process_instruction` does not take its
`exit` branch, and whenever it returns, CPU register 0 holds 0, also when the
instruction names register 0 as its destination. -/
theorem zero_register_invariant (opcode : Nat) (registersUsed : Nat → Nat) (s : Machine)
    (hop : opcode ≤ 21) :
    process_instruction opcode registersUsed s ≠ .error Fault.unknownOpcode ∧
    ∀ (s1 : Machine) (jump_flag : Nat),
      process_instruction opcode registersUsed s = .ok (s1, jump_flag) →
      s1.cpu_registers 0 = 0 :=
  ⟨process_instruction_known opcode registersUsed s hop,
    fun s1 jump_flag h => (process_instruction_frame opcode registersUsed s s1 jump_flag h).1⟩

/-- Witness of C3: `add $zero, $imm1, $zero, $zero` with 5 in `$imm1` returns, and
register 0 is 0 afterwards although the sum 5 was written to it. -/
theorem zero_register_invariant_witness :
    ((0 : Nat) ≤ 21 ∧
      process_instruction 0 fields_zero_imm1 state_imm5 = .ok (state_imm5_after, 0)) ∧
    state_imm5_after.cpu_registers 0 = 0 :=
  ⟨⟨by decide, rfl⟩,
    (zero_register_invariant 0 fields_zero_imm1 state_imm5 (by decide)).2
      state_imm5_after 0 rfl⟩

/-! ## The program counter and the interrupt controller -/

/-- Counterexample to C4 as stated: three iterations that start with the program
counter inside 0..0xFFF and end outside. An interrupt entry from address 5 with
`irqhandler = 0x12345` ends at `0x12345`; a `reti` at address 0x40 with
`irqreturn = 0xFFF` ends at `0x1000`; and an `add` at address `0xFFF` ends at
`0x1000`. -/
theorem pc_bound_counterexample :
    (state_irq_pending.program_counter ≤ 0xFFF ∧
      (loop_iteration state_irq_pending).toOption.map Machine.program_counter
        = some 0x12345) ∧
    (state_reti_high.program_counter ≤ 0xFFF ∧
      (loop_iteration state_reti_high).toOption.map Machine.program_counter = some 0x1000) ∧
    (state_last_address.program_counter ≤ 0xFFF ∧
      (loop_iteration state_last_address).toOption.map Machine.program_counter
        = some 0x1000) ∧
    ¬ (0x12345 ≤ 0xFFF) ∧ ¬ (0x1000 ≤ 0xFFF) := by
  decide

/-- C4 (amended): starting from a program counter in 0..0xFFF, a loop iteration whose
instruction and peripherals return completes with the program counter in 0..0xFFF,
on every path (stall, sequential advance, jump, `reti`, interrupt entry), provided
that it starts below 0xFFF or is a stall iteration (halted with the disk busy), that
`irqreturn` is below 0xFFF when the instruction is `reti`, and that `irqhandler` is in
0..0xFFF when the iteration ends with an interrupt entry (the instruction is `reti` or
the ISR flag is clear, and an interrupt is pending after the peripherals ran). -/
theorem pc_bound_amended (s s1 : Machine) (opcode : Nat)
    (hpc : s.program_counter ≤ 0xFFF)
    (hexec : execute_and_peripherals s = .ok (s1, opcode))
    (hseq : s.program_counter < 0xFFF ∨ (s.io_registers DISK_STATUS = 1 ∧ s.halt_flag = 1))
    (hreturn : opcode = RETI_OP → s.io_registers IRQ_RETURN < 0xFFF)
    (hhandler : opcode = RETI_OP ∨ s1.isr_active_flag = 0 → check_interrupts s1 ≠ 0 →
      s1.io_registers IRQ_HANDLER ≤ 0xFFF) :
    ∃ s2, loop_iteration s = .ok s2 ∧ s2.program_counter ≤ 0xFFF := by
  refine ⟨_, loop_iteration_eq s s1 opcode hexec, ?_⟩
  rw [(end_of_cycle_frame _).1]
  have hnext : s1.program_counter ≤ 0xFFF := by
    obtain ⟨_, hcase⟩ := execute_and_peripherals_spec s s1 opcode hexec
    rcases hcase with ⟨_, e, _, hn⟩ | ⟨_, e, _, _⟩ | ⟨_, e⟩ | ⟨e, e1, _⟩
    · rcases hseq with h | h
      · omega
      · exact absurd h hn
    · omega
    · exact e
    · have := hreturn e
      omega
  by_cases hent : (opcode = RETI_OP ∨ s1.isr_active_flag = 0) ∧ check_interrupts s1 ≠ 0
  · rw [(interrupt_phase_entry opcode s1 hent.1 hent.2).2.1]
    exact hhandler hent.1 hent.2
  · by_cases hop : opcode = RETI_OP
    · have hc : check_interrupts s1 = 0 := by
        by_contra hne
        exact hent ⟨Or.inl hop, hne⟩
      rw [hop, interrupt_phase_reti s1 hc]
      exact hnext
    · have hno : s1.isr_active_flag ≠ 0 ∨ check_interrupts s1 = 0 := by
        by_cases hc : check_interrupts s1 = 0
        · exact Or.inr hc
        · exact Or.inl (fun h0 => hent ⟨Or.inr h0, hc⟩)
      rw [interrupt_phase_no_entry opcode s1 hop hno]
      exact hnext

/-- Witness of C4 (amended): an iteration that ends with an interrupt entry, from
address 5 with IRQ0 enabled and raised and `irqhandler = 0x40`; it ends at 0x40. -/
theorem pc_bound_amended_witness :
    (state_interrupted.program_counter ≤ 0xFFF ∧
      execute_and_peripherals state_interrupted = .ok (after_execute state_interrupted, 0) ∧
      state_interrupted.program_counter < 0xFFF ∧
      (after_execute state_interrupted).isr_active_flag = 0 ∧
      check_interrupts (after_execute state_interrupted) ≠ 0 ∧
      (after_execute state_interrupted).io_registers IRQ_HANDLER ≤ 0xFFF) ∧
    (loop_iteration state_interrupted).toOption.map Machine.program_counter = some 0x40 ∧
    ∃ s2, loop_iteration state_interrupted = .ok s2 ∧ s2.program_counter ≤ 0xFFF :=
  ⟨⟨by decide, rfl, by decide, by decide, by decide, by decide⟩, by decide,
    pc_bound_amended state_interrupted (after_execute state_interrupted) 0 (by decide) rfl
      (Or.inl (by decide)) (fun h => absurd h (by decide)) (fun _ _ => by decide)⟩

/-- Counterexample to C5 as stated: at address 5 a non-jumping `add` is executed with
the ISR flag clear and IRQ0 pending; PC-next is 6, but `irqreturn` ends up as 5. -/
theorem interrupt_entry_counterexample :
    state_irq_pending.isr_active_flag = 0 ∧
    check_interrupts (after_execute state_irq_pending) ≠ 0 ∧
    (execute_and_peripherals state_irq_pending).toOption.map
      (fun r => r.1.program_counter) = some 6 ∧
    (loop_iteration state_irq_pending).toOption.map
      (fun s => s.io_registers IRQ_RETURN) = some 5 ∧
    (5 : Nat) ≠ 6 := by
  decide

/-- C5 (amended): when the ISR flag is clear and some `irq_i` has enable and status
both non-zero after the peripherals ran, the loop iteration ends with `irqreturn`
equal to PC-next minus 1 (modulo 2^32; `s1.program_counter` is PC-next, the program
counter after execution and sequential advance), the program counter equal to
`irqhandler`, and the ISR flag set. -/
theorem interrupt_entry_amended (s s1 : Machine) (opcode : Nat)
    (hisr : s.isr_active_flag = 0)
    (hexec : execute_and_peripherals s = .ok (s1, opcode))
    (hpend : (s1.io_registers IRQ0_ENABLE ≠ 0 ∧ s1.io_registers IRQ0_STATUS ≠ 0) ∨
      (s1.io_registers IRQ1_ENABLE ≠ 0 ∧ s1.io_registers IRQ1_STATUS ≠ 0) ∨
      (s1.io_registers IRQ2_ENABLE ≠ 0 ∧ s1.io_registers IRQ2_STATUS ≠ 0)) :
    ∃ s2, loop_iteration s = .ok s2 ∧
      s2.io_registers IRQ_RETURN = toU32 ((s1.program_counter : Int) - 1) ∧
      s2.program_counter = s2.io_registers IRQ_HANDLER ∧
      s2.isr_active_flag = 1 := by
  refine ⟨_, loop_iteration_eq s s1 opcode hexec, ?_⟩
  have h1 : s1.isr_active_flag = 0 := by
    rw [(execute_and_peripherals_spec s s1 opcode hexec).1, hisr]
  obtain ⟨e1, e2, e3, e4⟩ := interrupt_phase_entry opcode s1 (Or.inr h1)
    ((check_interrupts_ne_zero_iff s1).2 hpend)
  obtain ⟨f1, f2, f3⟩ := end_of_cycle_frame (interrupt_phase opcode s1)
  refine ⟨?_, ?_, ?_⟩
  · rw [f3 IRQ_RETURN (by decide) (by decide) (by decide) (by decide), e1]
  · rw [f1, f3 IRQ_HANDLER (by decide) (by decide) (by decide) (by decide), e2, e3]
  · rw [f2, e4]

/-- Witness of C5 (amended): the state of the counterexample. -/
theorem interrupt_entry_amended_witness :
    (state_irq_pending.isr_active_flag = 0 ∧
      execute_and_peripherals state_irq_pending = .ok (after_execute state_irq_pending, 0) ∧
      (((after_execute state_irq_pending).io_registers IRQ0_ENABLE ≠ 0 ∧
          (after_execute state_irq_pending).io_registers IRQ0_STATUS ≠ 0) ∨
        ((after_execute state_irq_pending).io_registers IRQ1_ENABLE ≠ 0 ∧
          (after_execute state_irq_pending).io_registers IRQ1_STATUS ≠ 0) ∨
        ((after_execute state_irq_pending).io_registers IRQ2_ENABLE ≠ 0 ∧
          (after_execute state_irq_pending).io_registers IRQ2_STATUS ≠ 0))) ∧
    ∃ s2, loop_iteration state_irq_pending = .ok s2 ∧
      s2.io_registers IRQ_RETURN =
        toU32 (((after_execute state_irq_pending).program_counter : Int) - 1) ∧
      s2.program_counter = s2.io_registers IRQ_HANDLER ∧
      s2.isr_active_flag = 1 :=
  ⟨⟨rfl, rfl, Or.inl (by decide)⟩,
    interrupt_entry_amended state_irq_pending (after_execute state_irq_pending) 0 rfl rfl
      (Or.inl (by decide))⟩

/-- Counterexample to C6 as stated: `reti` executed with `irqreturn = 5` and nothing
pending leaves `irqreturn = 5` but the program counter at 6. -/
theorem reti_counterexample :
    (execute_and_peripherals state_reti).toOption.map (fun r => r.2) = some RETI_OP ∧
    check_interrupts (after_execute state_reti) = 0 ∧
    (loop_iteration state_reti).toOption.map (fun s => s.io_registers IRQ_RETURN) = some 5 ∧
    (loop_iteration state_reti).toOption.map Machine.program_counter = some 6 ∧
    (6 : Nat) ≠ 5 := by
  decide

/-- C6 (amended): a loop iteration that executes `reti` while no enabled interrupt is
pending leaves the program counter equal to `irqreturn + 1` (modulo 2^32), does not
change `irqreturn`, and leaves the ISR flag clear. -/
theorem reti_amended (s s1 : Machine)
    (hexec : execute_and_peripherals s = .ok (s1, RETI_OP))
    (hnone : check_interrupts s1 = 0) :
    ∃ s2, loop_iteration s = .ok s2 ∧
      s2.program_counter = (s2.io_registers IRQ_RETURN + 1) % 4294967296 ∧
      s2.io_registers IRQ_RETURN = s.io_registers IRQ_RETURN ∧
      s2.isr_active_flag = 0 := by
  refine ⟨_, loop_iteration_eq s s1 RETI_OP hexec, ?_⟩
  rw [interrupt_phase_reti s1 hnone]
  obtain ⟨f1, f2, f3⟩ := end_of_cycle_frame { s1 with isr_active_flag := 0 }
  have f7 := f3 IRQ_RETURN (by decide) (by decide) (by decide) (by decide)
  obtain ⟨_, hcase⟩ := execute_and_peripherals_spec s s1 RETI_OP hexec
  have h18 : RETI_OP = 18 := rfl
  rcases hcase with ⟨e, _⟩ | ⟨e, _⟩ | ⟨e, _⟩ | ⟨_, e1, e2⟩
  · exact absurd h18 e
  · exact absurd h18 e
  · exact absurd h18 e
  · refine ⟨?_, ?_, ?_⟩
    · rw [f1, f7]
      show s1.program_counter = (s1.io_registers IRQ_RETURN + 1) % 4294967296
      rw [e1, e2]
    · rw [f7]
      exact e2
    · rw [f2]

/-- Witness of C6 (amended): the state of the counterexample. -/
theorem reti_amended_witness :
    (execute_and_peripherals state_reti = .ok (after_execute state_reti, RETI_OP) ∧
      check_interrupts (after_execute state_reti) = 0) ∧
    ∃ s2, loop_iteration state_reti = .ok s2 ∧
      s2.program_counter = (s2.io_registers IRQ_RETURN + 1) % 4294967296 ∧
      s2.io_registers IRQ_RETURN = state_reti.io_registers IRQ_RETURN ∧
      s2.isr_active_flag = 0 :=
  ⟨⟨rfl, by decide⟩, reti_amended state_reti (after_execute state_reti) rfl (by decide)⟩

/-- C7: interrupt nesting. When the ISR flag is set and the instruction is not
`reti`, the controller step of the iteration is the identity on the state after the
peripherals: `irqreturn` and the program counter keep the values execution left, and
the ISR flag stays as it was, whatever the enable and status registers hold. -/
theorem no_nested_interrupt (s s1 : Machine) (opcode : Nat)
    (hisr : s.isr_active_flag ≠ 0)
    (hexec : execute_and_peripherals s = .ok (s1, opcode))
    (hop : opcode ≠ RETI_OP) :
    interrupt_phase opcode s1 = s1 ∧
    ∃ s2, loop_iteration s = .ok s2 ∧
      s2.isr_active_flag = s.isr_active_flag ∧
      s2.program_counter = s1.program_counter ∧
      s2.io_registers IRQ_RETURN = s1.io_registers IRQ_RETURN := by
  have h1 : s1.isr_active_flag ≠ 0 := by
    rw [(execute_and_peripherals_spec s s1 opcode hexec).1]
    exact hisr
  have hno := interrupt_phase_no_entry opcode s1 hop (Or.inl h1)
  refine ⟨hno, _, loop_iteration_eq s s1 opcode hexec, ?_⟩
  rw [hno]
  obtain ⟨f1, f2, f3⟩ := end_of_cycle_frame s1
  exact ⟨by rw [f2, (execute_and_peripherals_spec s s1 opcode hexec).1], f1,
    f3 IRQ_RETURN (by decide) (by decide) (by decide) (by decide)⟩

/-- Witness of C7: inside an ISR with IRQ0 enabled and raised again, an `add` does
not lead to an entry. -/
theorem no_nested_interrupt_witness :
    (state_in_isr.isr_active_flag ≠ 0 ∧
      execute_and_peripherals state_in_isr = .ok (after_execute state_in_isr, 0) ∧
      0 ≠ RETI_OP) ∧
    (interrupt_phase 0 (after_execute state_in_isr) = after_execute state_in_isr ∧
      ∃ s2, loop_iteration state_in_isr = .ok s2 ∧
        s2.isr_active_flag = state_in_isr.isr_active_flag ∧
        s2.program_counter = (after_execute state_in_isr).program_counter ∧
        s2.io_registers IRQ_RETURN = (after_execute state_in_isr).io_registers IRQ_RETURN) :=
  ⟨⟨by decide, rfl, by decide⟩,
    no_nested_interrupt state_in_isr (after_execute state_in_isr) 0 (by decide) rfl
      (by decide)⟩

/-! ## The disk controller -/

/-- One call of `handle_disk_operations` before the completing one: a command is
present and the cycle counter is below 1024. -/
theorem handle_disk_step (s s1 : Machine) (h : handle_disk_operations s = .ok s1)
    (hc : s.io_registers DISK_CMD ≠ 0) (hk : s.disk_cycle_counter < 1024) :
    s1.disk_cycle_counter = s.disk_cycle_counter + 1 ∧
    s1.io_registers DISK_CMD = s.io_registers DISK_CMD ∧
    s1.io_registers IRQ1_STATUS = s.io_registers IRQ1_STATUS ∧
    s1.io_registers DISK_SECTOR = s.io_registers DISK_SECTOR ∧
    s1.io_registers DISK_BUFFER = s.io_registers DISK_BUFFER ∧
    s1.io_registers DISK_STATUS = (if s.disk_cycle_counter = 0 then 1
      else s.io_registers DISK_STATUS) ∧
    (disk_start s).disk_index = (if s.disk_cycle_counter = 0 then 0 else s.disk_index) ∧
    s1.disk_index = (disk_start s).disk_index + (if disk_transfers_word s then 1 else 0) ∧
    (s.io_registers DISK_CMD = 1 → s1.disk_memory = s.disk_memory) := by
  unfold handle_disk_operations at h
  dsimp only at h
  split at h
  · cases h
  · rename_i s2 hs
    cases h
    have hst : disk_start s =
        if s.disk_cycle_counter = 0 then
          { s with io_registers := upd s.io_registers DISK_STATUS 1, disk_index := 0 }
        else s := by
      unfold disk_start
      simp [hc]
    unfold disk_transfer at hs
    unfold disk_finish disk_transfers_word
    dsimp only at hs ⊢
    by_cases h0 : s.disk_cycle_counter = 0
    · rw [hst] at hs ⊢
      simp only [h0, if_true] at hs ⊢
      split_ifs at hs <;> cases hs <;>
        simp_all [upd, DISK_CMD, DISK_STATUS, IRQ1_STATUS, DISK_SECTOR, DISK_BUFFER]
    · rw [hst] at hs ⊢
      simp only [h0, if_false] at hs ⊢
      have hne : s.disk_cycle_counter ≠ 1024 := by omega
      split_ifs at hs <;> cases hs <;>
        simp_all [upd, DISK_CMD, DISK_STATUS, IRQ1_STATUS, DISK_SECTOR, DISK_BUFFER]

/-- The completing call of `handle_disk_operations`: the cycle counter is 1024. -/
theorem handle_disk_final (s s1 : Machine) (h : handle_disk_operations s = .ok s1)
    (hk : s.disk_cycle_counter = 1024) :
    s1.disk_cycle_counter = 0 ∧ s1.disk_index = 0 ∧
    s1.io_registers DISK_CMD = 0 ∧ s1.io_registers DISK_STATUS = 0 ∧
    s1.io_registers IRQ1_STATUS = 1 ∧
    (disk_start s).disk_index = s.disk_index ∧
    (s.io_registers DISK_CMD = 1 →
      s1.data_memory
          (toI32 (s.io_registers DISK_BUFFER) + (s.disk_index : Int)).toNat =
        s.disk_memory
          (toI32 (s.io_registers DISK_SECTOR) * 128 + (s.disk_index : Int)).toNat) := by
  unfold handle_disk_operations at h
  dsimp only at h
  split at h
  · cases h
  · rename_i s2 hs
    cases h
    have hst : disk_start s = s := by
      unfold disk_start
      simp [hk]
    rw [hst] at hs ⊢
    unfold disk_transfer at hs
    unfold disk_finish
    dsimp only at hs ⊢
    split_ifs at hs <;> cases hs <;>
      simp_all [upd, DISK_CMD, DISK_STATUS, IRQ1_STATUS, DISK_SECTOR, DISK_BUFFER]

/-- A call of `handle_disk_operations` returns when the command is not a transfer, or
when the two indices of the transfer are inside their arrays or equal to their size. -/
theorem handle_disk_returns (s : Machine)
    (h : (s.io_registers DISK_CMD ≠ 1 ∧ s.io_registers DISK_CMD ≠ 2) ∨
      (0 ≤ toI32 (s.io_registers DISK_BUFFER) + ((disk_start s).disk_index : Int) ∧
        toI32 (s.io_registers DISK_BUFFER) + ((disk_start s).disk_index : Int) ≤ 4096 ∧
        0 ≤ toI32 (s.io_registers DISK_SECTOR) * 128 + ((disk_start s).disk_index : Int) ∧
        toI32 (s.io_registers DISK_SECTOR) * 128 + ((disk_start s).disk_index : Int)
          ≤ 16384)) :
    ∃ s1, handle_disk_operations s = .ok s1 := by
  have hcmd : (disk_start s).io_registers DISK_CMD = s.io_registers DISK_CMD := by
    unfold disk_start
    split <;> simp [upd, DISK_CMD, DISK_STATUS]
  unfold handle_disk_operations
  dsimp only
  unfold disk_transfer
  dsimp only
  rw [hcmd]
  rcases h with ⟨h1, h2⟩ | ⟨h1, h2, h3, h4⟩
  · simp [h1, h2]
  · have hb : (0 ≤ toI32 (s.io_registers DISK_BUFFER) + ((disk_start s).disk_index : Int) ∧
        toI32 (s.io_registers DISK_BUFFER) + ((disk_start s).disk_index : Int) ≤ (MEM_SIZE : Int) ∧
        0 ≤ toI32 (s.io_registers DISK_SECTOR) * 128 + ((disk_start s).disk_index : Int) ∧
        toI32 (s.io_registers DISK_SECTOR) * 128 + ((disk_start s).disk_index : Int)
          ≤ (DISK_SIZE : Int)) := ⟨h1, by simpa [MEM_SIZE] using h2, h3,
            by simpa [DISK_SIZE] using h4⟩
    simp only [hb, and_self, if_true]
    split_ifs <;> exact ⟨_, rfl⟩

theorem disk_calls_succ (k : Nat) (s : Machine) :
    disk_calls (k + 1) s =
      match disk_calls k s with
      | .error e => .error e
      | .ok s1 => handle_disk_operations s1 := rfl

theorem disk_transfer_indices_succ (k : Nat) (s : Machine) :
    disk_transfer_indices (k + 1) s =
      match disk_calls k s with
      | .error _ => disk_transfer_indices k s
      | .ok s1 =>
        if disk_transfers_word s1 then
          disk_transfer_indices k s ++ [(disk_start s1).disk_index]
        else disk_transfer_indices k s := rfl

theorem disk_transfers_word_iff (s : Machine) :
    disk_transfers_word s = true ↔
      ((s.io_registers DISK_CMD = 1 ∨ s.io_registers DISK_CMD = 2) ∧
        s.disk_cycle_counter % 8 = 0) := by
  unfold disk_transfers_word
  simp only [decide_eq_true_eq]
  tauto

/-- The state after the first `k ≤ 1024` calls of `handle_disk_operations` on a command
seen with the cycle counter at 0. -/
theorem disk_calls_invariant (s : Machine) (hc : s.io_registers DISK_CMD ≠ 0)
    (h0 : s.disk_cycle_counter = 0) :
    ∀ k, k ≤ 1024 → ∀ sk, disk_calls k s = .ok sk →
      sk.disk_cycle_counter = k ∧
      sk.io_registers DISK_CMD = s.io_registers DISK_CMD ∧
      sk.io_registers IRQ1_STATUS = s.io_registers IRQ1_STATUS ∧
      sk.io_registers DISK_SECTOR = s.io_registers DISK_SECTOR ∧
      sk.io_registers DISK_BUFFER = s.io_registers DISK_BUFFER ∧
      (1 ≤ k → sk.io_registers DISK_STATUS = 1) ∧
      (disk_start sk).disk_index =
        (if s.io_registers DISK_CMD = 1 ∨ s.io_registers DISK_CMD = 2 then (k + 7) / 8
         else 0) ∧
      disk_transfer_indices k s =
        (if s.io_registers DISK_CMD = 1 ∨ s.io_registers DISK_CMD = 2
         then List.range ((k + 7) / 8) else []) ∧
      (s.io_registers DISK_CMD = 1 → sk.disk_memory = s.disk_memory) := by
  intro k
  induction k with
  | zero =>
    intro _ sk hk
    have e : sk = s := by
      simp only [disk_calls, Except.ok.injEq] at hk
      exact hk.symm
    subst e
    refine ⟨h0, rfl, rfl, rfl, rfl, by omega, ?_, ?_, fun _ => rfl⟩
    · unfold disk_start
      simp [hc, h0]
    · simp [disk_transfer_indices]
  | succ k ih =>
    intro hk sk' hsk'
    rw [disk_calls_succ] at hsk'
    split at hsk'
    · cases hsk'
    · rename_i sk hsk
      obtain ⟨i1, i2, i3, i4, i5, i6, i7, i8, i9⟩ := ih (by omega) sk hsk
      obtain ⟨j1, j2, j3, j4, j5, j6, j7, j8, j9⟩ :=
        handle_disk_step sk sk' hsk' (by rw [i2]; exact hc) (by omega)
      have hidx : sk'.disk_index =
          (if s.io_registers DISK_CMD = 1 ∨ s.io_registers DISK_CMD = 2 then (k + 1 + 7) / 8
           else 0) := by
        rw [j8, i7]
        by_cases hrw : s.io_registers DISK_CMD = 1 ∨ s.io_registers DISK_CMD = 2
        · simp only [hrw, if_true]
          by_cases hm : k % 8 = 0
          · have : disk_transfers_word sk = true :=
              (disk_transfers_word_iff sk).2 ⟨by rw [i2]; exact hrw, by rw [i1]; exact hm⟩
            simp only [this, if_true]
            omega
          · have : ¬ disk_transfers_word sk = true := by
              rw [disk_transfers_word_iff, i1]
              exact fun h => hm h.2
            rw [Bool.not_eq_true] at this
            simp only [this, Bool.false_eq_true, if_false]
            omega
        · have : ¬ disk_transfers_word sk = true := by
            rw [disk_transfers_word_iff, i2]
            exact fun h => hrw h.1
          rw [Bool.not_eq_true] at this
          simp only [hrw, this, Bool.false_eq_true, if_false]
      have hst : (disk_start sk').disk_index = sk'.disk_index := by
        unfold disk_start
        have : sk'.disk_cycle_counter ≠ 0 := by omega
        simp [this]
      refine ⟨by omega, by rw [j2, i2], by rw [j3, i3], by rw [j4, i4], by rw [j5, i5], ?_,
        by rw [hst, hidx], ?_, ?_⟩
      · intro _
        rw [j6]
        by_cases hk0 : sk.disk_cycle_counter = 0
        · simp [hk0]
        · simp only [hk0, if_false]
          exact i6 (by omega)
      · simp only [disk_transfer_indices, hsk]
        rw [i8, i7]
        by_cases hrw : s.io_registers DISK_CMD = 1 ∨ s.io_registers DISK_CMD = 2
        · simp only [hrw, if_true]
          by_cases hm : k % 8 = 0
          · have : disk_transfers_word sk = true :=
              (disk_transfers_word_iff sk).2 ⟨by rw [i2]; exact hrw, by rw [i1]; exact hm⟩
            simp only [this, if_true]
            have e : (k + 1 + 7) / 8 = (k + 7) / 8 + 1 := by omega
            rw [e, List.range_succ]
          · have : ¬ disk_transfers_word sk = true := by
              rw [disk_transfers_word_iff, i1]
              exact fun h => hm h.2
            simp only [this]
            have e : (k + 1 + 7) / 8 = (k + 7) / 8 := by omega
            rw [e]
            simp
        · have : ¬ disk_transfers_word sk = true := by
            rw [disk_transfers_word_iff, i2]
            exact fun h => hrw h.1
          simp [hrw, this]
      · intro h1
        rw [j9 (by rw [i2]; exact h1), i9 h1]

/-- The first 1025 calls all return when the command moves no word, or the sector is
one of the 128 sectors of the disk and the 128 words of the buffer lie in data
memory. -/
theorem disk_calls_returns (s : Machine) (hc : s.io_registers DISK_CMD ≠ 0)
    (h0 : s.disk_cycle_counter = 0)
    (hb : (s.io_registers DISK_CMD ≠ 1 ∧ s.io_registers DISK_CMD ≠ 2) ∨
      (0 ≤ toI32 (s.io_registers DISK_BUFFER) ∧
        toI32 (s.io_registers DISK_BUFFER) + 128 ≤ 4096 ∧
        0 ≤ toI32 (s.io_registers DISK_SECTOR) ∧
        toI32 (s.io_registers DISK_SECTOR) * 128 + 128 ≤ 16384)) :
    ∀ k, k ≤ 1025 → ∃ sk, disk_calls k s = .ok sk := by
  intro k
  induction k with
  | zero => exact fun _ => ⟨s, rfl⟩
  | succ k ih =>
    intro hk
    obtain ⟨sk, hsk⟩ := ih (by omega)
    obtain ⟨_, i2, _, i4, i5, _, i7, _, _⟩ := disk_calls_invariant s hc h0 k (by omega) sk hsk
    have hr : ∃ s1, handle_disk_operations sk = .ok s1 := by
      apply handle_disk_returns
      rw [i2, i4, i5, i7]
      rcases hb with h | ⟨b1, b2, b3, b4⟩
      · exact Or.inl h
      · right
        have hle : (k + 7) / 8 ≤ 128 := by omega
        split_ifs
        · push_cast
          omega
        · push_cast
          omega
    obtain ⟨s1, hs1⟩ := hr
    exact ⟨s1, by rw [disk_calls_succ, hsk]; exact hs1⟩

/-- The transfer indices of a whole read or write command: the 1025 calls up to and
including the completing one use the indices 0, 1, ..., 128. -/
theorem disk_transfer_indices_full (s s1 : Machine)
    (hcmd : s.io_registers DISK_CMD = 1 ∨ s.io_registers DISK_CMD = 2)
    (h0 : s.disk_cycle_counter = 0) (h : disk_calls 1025 s = .ok s1) :
    disk_transfer_indices 1025 s = List.range 129 := by
  have hc : s.io_registers DISK_CMD ≠ 0 := by omega
  rw [disk_calls_succ] at h
  split at h
  · cases h
  · rename_i sk hsk
    obtain ⟨i1, i2, _, _, _, _, i7, i8, _⟩ := disk_calls_invariant s hc h0 1024 (by omega) sk hsk
    have hw : disk_transfers_word sk = true :=
      (disk_transfers_word_iff sk).2 ⟨by rw [i2]; exact hcmd, by rw [i1]⟩
    rw [disk_transfer_indices_succ]
    simp only [hsk, hw, if_true]
    rw [i8, i7]
    simp only [hcmd, if_true]
    have e : (1024 + 7) / 8 = 128 := by norm_num
    rw [e, ← List.range_succ]

/-- C9 (code evaluated at the failing input): a read of sector 0 into buffer 0 seen by
an idle disk. The 1025 calls up to and including the completing one all return, and
they perform 129 word transfers, with the indices 0, 1, ..., 128: one transfer more
than 128, the last with index 128. -/
theorem disk_word_count_129 :
    state_disk_read.io_registers DISK_CMD = 1 ∧ state_disk_read.disk_cycle_counter = 0 ∧
    (∃ s1, disk_calls 1025 state_disk_read = .ok s1 ∧
      s1.io_registers DISK_CMD = 0 ∧ s1.io_registers IRQ1_STATUS = 1) ∧
    disk_transfer_indices 1025 state_disk_read = List.range 129 ∧
    (List.range 129).length = 129 ∧ 128 ∈ List.range 129 := by
  have hc : state_disk_read.io_registers DISK_CMD ≠ 0 := by decide
  have h0 : state_disk_read.disk_cycle_counter = 0 := rfl
  obtain ⟨s1, hs1⟩ := disk_calls_returns state_disk_read hc h0 (Or.inr (by decide)) 1025
    (by omega)
  have hidx := disk_transfer_indices_full state_disk_read s1 (Or.inl (by decide)) h0 hs1
  refine ⟨by decide, rfl, ⟨s1, hs1, ?_⟩, hidx, by simp, by simp⟩
  rw [disk_calls_succ] at hs1
  split at hs1
  · cases hs1
  · rename_i sk hsk
    obtain ⟨i1, _⟩ := disk_calls_invariant state_disk_read hc h0 1024 (by omega) sk hsk
    obtain ⟨_, _, f3, _, f5, _⟩ := handle_disk_final sk s1 hs1 i1
    exact ⟨f3, f5⟩

/-- The two timer steps of one loop iteration: with the timer enabled and at least two
counts away from `timermax`, `handle_timer_operations` followed by `update_timer`
advances `timercurrent` by 2. -/
theorem timer_two_steps (s : Machine) (he : s.io_registers TIMER_ENABLE = 1)
    (hlt : s.io_registers TIMER_CURRENT + 2 ≤ s.io_registers TIMER_MAX)
    (hmax : s.io_registers TIMER_MAX < 4294967296) :
    update_timer (increment_clock_cycle (handle_timer_operations s).io_registers)
      TIMER_CURRENT = s.io_registers TIMER_CURRENT + 2 := by
  simp only [TIMER_ENABLE, TIMER_CURRENT, TIMER_MAX] at he hlt hmax
  have h1 : s.io_registers 12 ≠ s.io_registers 13 := by omega
  have h2 : (s.io_registers 12 + 1) % 4294967296 = s.io_registers 12 + 1 := by omega
  have h3 : (s.io_registers 12 + 1 + 1) % 4294967296 = s.io_registers 12 + 2 := by omega
  have h4 : s.io_registers 12 + 1 ≠ s.io_registers 13 := by omega
  have e11 : ∀ v, upd s.io_registers 12 v 11 = 1 := fun v => by simp [upd, he]
  have e13 : ∀ v, upd s.io_registers 12 v 13 = s.io_registers 13 := fun v => by simp [upd]
  have e12 : ∀ v, upd s.io_registers 12 v 12 = v := fun v => by simp [upd]
  unfold update_timer increment_clock_cycle handle_timer_operations
  simp only [TIMER_ENABLE, TIMER_CURRENT, TIMER_MAX, CLOCK_CYCLE, IRQ0_STATUS]
  simp only [he, h1, if_true, if_false]
  have u11 : ∀ (a : Nat → Nat) v, upd a 8 v 11 = a 11 := fun a v => by simp [upd]
  have u12 : ∀ (a : Nat → Nat) v, upd a 8 v 12 = a 12 := fun a v => by simp [upd]
  have u13 : ∀ (a : Nat → Nat) v, upd a 8 v 13 = a 13 := fun a v => by simp [upd]
  simp only [u11, u12, u13, e11, e12, e13, h2, h4]
  simp only [ne_eq, one_ne_zero, not_false_eq_true, if_true, if_false]
  rw [upd]
  simp only [if_true]
  exact h3

/-- C8 (code evaluated at the failing input): with `timerenable = 1`,
`timercurrent = 0` and `timermax = 4`, running instructions that do not touch the
timer registers, `timercurrent` is 2 after one loop iteration and 4 after two, and
the third iteration already wraps it and raises `irq0status`: every iteration steps
the timer twice. -/
theorem timer_steps_twice_per_iteration :
    state_timer.io_registers TIMER_ENABLE = 1 ∧
    state_timer.io_registers TIMER_CURRENT = 0 ∧
    state_timer.io_registers TIMER_MAX = 4 ∧
    (loop_iterations 1 state_timer).toOption.map
      (fun s => (s.io_registers TIMER_CURRENT, s.io_registers IRQ0_STATUS)) = some (2, 0) ∧
    (loop_iterations 2 state_timer).toOption.map
      (fun s => (s.io_registers TIMER_CURRENT, s.io_registers IRQ0_STATUS)) = some (4, 0) ∧
    (loop_iterations 3 state_timer).toOption.map
      (fun s => (s.io_registers TIMER_CURRENT, s.io_registers IRQ0_STATUS)) = some (1, 1) := by
  decide

/-! ## The loop body in stages: decomposition and frame lemmas -/

theorem execute_and_peripherals_stages (s : Machine) :
    execute_and_peripherals s =
      match before_peripherals s with
      | .error e => .error e
      | .ok (s4, opcode, operand_registers) =>
        match handle_peripherals opcode operand_registers s4 with
        | .error e => .error e
        | .ok s5 => .ok (s5, opcode) := by
  unfold execute_and_peripherals before_peripherals decode_execute execute_and_advance
    registers_with_immediates
  cases hg : get_instruction (irq2_feed s) with
  | error e => rfl
  | ok r =>
    obtain ⟨w, s1⟩ := r
    dsimp only
    generalize process_instruction _ _ _ = r
    rcases r with e | ⟨s3, jf⟩
    · rfl
    · dsimp only
      by_cases hj : jf = 0 <;> simp [hj]

theorem toU32_cast (x : Int) : ((toU32 x : Nat) : Int) = x % 4294967296 := by
  unfold toU32
  omega

/-- The six ALU instructions on the state `process_instruction` receives. -/
theorem alu_step (op : Nat) (f : Nat → Nat) (s : Machine) (hop : op ≤ 5) (hd : f 0 ≠ 0) :
    ∃ s1, execute_and_advance op f s = .ok s1 ∧
      (op = 0 → s1.cpu_registers (f 0) =
        (s.cpu_registers (f 1) + s.cpu_registers (f 2) + s.cpu_registers (f 3)) % 4294967296) ∧
      (op = 1 → (s1.cpu_registers (f 0) : Int) =
        ((s.cpu_registers (f 1) : Int) - s.cpu_registers (f 2) - s.cpu_registers (f 3))
          % 4294967296) ∧
      (op = 2 → s1.cpu_registers (f 0) =
        (s.cpu_registers (f 1) * s.cpu_registers (f 2) + s.cpu_registers (f 3)) % 4294967296) ∧
      (op = 3 → s1.cpu_registers (f 0) =
        s.cpu_registers (f 1) &&& s.cpu_registers (f 2) &&& s.cpu_registers (f 3)) ∧
      (op = 4 → s1.cpu_registers (f 0) =
        s.cpu_registers (f 1) ||| s.cpu_registers (f 2) ||| s.cpu_registers (f 3)) ∧
      (op = 5 → s1.cpu_registers (f 0) =
        s.cpu_registers (f 1) ^^^ s.cpu_registers (f 2) ^^^ s.cpu_registers (f 3)) ∧
      s1.program_counter = (s.program_counter + 1) % 4294967296 ∧
      (∀ k, k ≠ f 0 → k ≠ 0 → s1.cpu_registers k = s.cpu_registers k) ∧
      s1.cpu_registers 0 = 0 ∧
      s1.data_memory = s.data_memory ∧ s1.io_registers = s.io_registers := by
  interval_cases op <;> refine ⟨_, rfl, ?_⟩ <;> simp [upd, hd, toU32_cast] <;>
    (intro k h1 h2; simp [h1, h2])

/-- What one executed instruction (with the sequential advance) leaves untouched. -/
theorem execute_and_advance_frame (op : Nat) (f : Nat → Nat) (s s4 : Machine)
    (h : execute_and_advance op f s = .ok s4) :
    op ≤ 21 ∧
    s4.isr_active_flag = s.isr_active_flag ∧
    s4.disk_cycle_counter = s.disk_cycle_counter ∧ s4.disk_index = s.disk_index ∧
    s4.instruction_memory = s.instruction_memory ∧ s4.disk_memory = s.disk_memory ∧
    s4.monitor_buffer = s.monitor_buffer ∧
    s4.irq2_next_cycle = s.irq2_next_cycle ∧ s4.irq2_file = s.irq2_file ∧
    (op ≠ 20 → s4.io_registers = s.io_registers) ∧
    (op ≠ 17 → s4.data_memory = s.data_memory) ∧
    (op ≠ 21 → s4.halt_flag = s.halt_flag) ∧
    (op < 9 ∨ (15 < op ∧ op ≠ 18) →
      s4.program_counter = (s.program_counter + 1) % 4294967296) := by
  unfold execute_and_advance process_instruction at h
  split at h
  · cases h
  · rename_i s3 jf hp
    split at hp
    · cases hp
    · rename_i s2 jf2 hs
      cases hp
      unfold process_switch at hs
      dsimp only at hs
      split at hs <;> (try split_ifs at hs) <;> cases hs <;> simp at h <;> cases h <;> simp

theorem before_peripherals_spec (s s4 : Machine) (op : Nat) (f : Nat → Nat)
    (h : before_peripherals s = .ok (s4, op, f)) :
    ∃ w sf, get_instruction (irq2_feed s) = .ok (w, sf) ∧ op = decode_opcode w ∧
      f = (decode_instruction w).1 ∧
      execute_and_advance op f
        { sf with cpu_registers := registers_with_immediates w sf.cpu_registers } = .ok s4 := by
  unfold before_peripherals at h
  split at h
  · cases h
  · rename_i w sf hg
    unfold decode_execute at h
    dsimp only at h
    split at h
    · cases h
    · rename_i s4b hx
      cases h
      exact ⟨w, sf, hg, rfl, rfl, hx⟩

theorem loop_iteration_stages (s s4 : Machine) (op : Nat) (f : Nat → Nat)
    (h : before_peripherals s = .ok (s4, op, f)) :
    loop_iteration s =
      match handle_peripherals op f s4 with
      | .error e => .error e
      | .ok s5 => .ok (end_of_cycle (interrupt_phase op s5)) := by
  unfold loop_iteration
  rw [execute_and_peripherals_stages, h]
  dsimp only
  cases handle_peripherals op f s4 <;> rfl

theorem execute_and_peripherals_of_stages (s s4 s5 : Machine) (op : Nat) (f : Nat → Nat)
    (h : before_peripherals s = .ok (s4, op, f))
    (hp : handle_peripherals op f s4 = .ok s5) :
    execute_and_peripherals s = .ok (s5, op) := by
  rw [execute_and_peripherals_stages, h]
  dsimp only
  rw [hp]

theorem stages_of_execute_and_peripherals (s s5 : Machine) (op : Nat)
    (h : execute_and_peripherals s = .ok (s5, op)) :
    ∃ s4 f, before_peripherals s = .ok (s4, op, f) ∧ handle_peripherals op f s4 = .ok s5 := by
  rw [execute_and_peripherals_stages] at h
  split at h
  · cases h
  · rename_i s4 op2 f hb
    split at h
    · cases h
    · rename_i s5b hp
      cases h
      exact ⟨s4, f, hb, hp⟩

/-- The rest of `handle_disk_operations`: everything outside the disk registers, the
two memories and the two disk counters is untouched, and `irq1status` is kept or set
to 1. -/
theorem handle_disk_operations_rest (s s1 : Machine) (h : handle_disk_operations s = .ok s1) :
    s1.halt_flag = s.halt_flag ∧ s1.cpu_registers = s.cpu_registers ∧
    s1.monitor_buffer = s.monitor_buffer ∧ s1.instruction_memory = s.instruction_memory ∧
    s1.irq2_next_cycle = s.irq2_next_cycle ∧ s1.irq2_file = s.irq2_file ∧
    (s1.io_registers IRQ1_STATUS = s.io_registers IRQ1_STATUS ∨
      s1.io_registers IRQ1_STATUS = 1) := by
  unfold handle_disk_operations at h
  dsimp only at h
  split at h
  · cases h
  · rename_i s2 hs
    cases h
    unfold disk_transfer disk_start at hs
    unfold disk_finish
    dsimp only at hs ⊢
    split_ifs at hs <;> cases hs <;> split_ifs <;>
      simp [upd, DISK_CMD, DISK_STATUS, IRQ1_STATUS]

/-- The state after `handle_peripherals` in terms of the state after its first step,
`handle_disk_operations`. -/
theorem handle_peripherals_spec (op : Nat) (f : Nat → Nat) (s s5 : Machine)
    (h : handle_peripherals op f s = .ok s5) :
    ∃ sd, handle_disk_operations s = .ok sd ∧
      s5.disk_cycle_counter = sd.disk_cycle_counter ∧ s5.disk_index = sd.disk_index ∧
      s5.data_memory = sd.data_memory ∧ s5.disk_memory = sd.disk_memory ∧
      s5.halt_flag = s.halt_flag ∧ s5.cpu_registers = s.cpu_registers ∧
      (∀ k, k ≠ TIMER_CURRENT → k ≠ IRQ0_STATUS → s5.io_registers k = sd.io_registers k) ∧
      (s5.io_registers IRQ0_STATUS = s.io_registers IRQ0_STATUS ∨
        s5.io_registers IRQ0_STATUS = 1) ∧
      (s.io_registers MONITOR_CMD = 1 →
        s.io_registers MONITOR_ADDR < 65536 ∧
        s5.monitor_buffer =
          upd s.monitor_buffer (s.io_registers MONITOR_ADDR) (s.io_registers MONITOR_DATA)) ∧
      (s.io_registers MONITOR_CMD ≠ 1 → s5.monitor_buffer = s.monitor_buffer) := by
  unfold handle_peripherals at h
  split at h
  · cases h
  · rename_i sd hd
    split at h
    · cases h
    · rename_i sm hm
      split at h
      · cases h
      · cases h
        obtain ⟨a1, a2, a3⟩ := handle_disk_operations_frame _ _ hd
        obtain ⟨r1, r2, r3, r4, r5, r6, r7⟩ := handle_disk_operations_rest _ _ hd
        have t3 : (handle_timer_operations sd).io_registers IRQ0_STATUS =
            sd.io_registers IRQ0_STATUS ∨
            (handle_timer_operations sd).io_registers IRQ0_STATUS = 1 := by
          unfold handle_timer_operations
          split_ifs <;> simp [upd, IRQ0_STATUS, TIMER_CURRENT]
        have tk : ∀ k, k ≠ TIMER_CURRENT → k ≠ IRQ0_STATUS →
            (handle_timer_operations sd).io_registers k = sd.io_registers k :=
          (handle_timer_operations_frame sd).2.2
        have tm : (handle_timer_operations sd).monitor_buffer = sd.monitor_buffer ∧
            (handle_timer_operations sd).disk_cycle_counter = sd.disk_cycle_counter ∧
            (handle_timer_operations sd).disk_index = sd.disk_index ∧
            (handle_timer_operations sd).data_memory = sd.data_memory ∧
            (handle_timer_operations sd).disk_memory = sd.disk_memory ∧
            (handle_timer_operations sd).halt_flag = sd.halt_flag ∧
            (handle_timer_operations sd).cpu_registers = sd.cpu_registers := by
          unfold handle_timer_operations
          split_ifs <;> simp
        obtain ⟨m1, m2, m3, m4, m5, m6, m7⟩ := tm
        have i20 := a3 MONITOR_ADDR (by decide) (by decide) (by decide)
        have i21 := a3 MONITOR_DATA (by decide) (by decide) (by decide)
        have i22 := a3 MONITOR_CMD (by decide) (by decide) (by decide)
        have i3 := a3 IRQ0_STATUS (by decide) (by decide) (by decide)
        have j20 := tk MONITOR_ADDR (by decide) (by decide)
        have j21 := tk MONITOR_DATA (by decide) (by decide)
        have j22 := tk MONITOR_CMD (by decide) (by decide)
        unfold handle_monitor_operations at hm
        rw [j20, j21, j22, i20, i21, i22, m1, r3] at hm
        refine ⟨sd, hd, ?_⟩
        split_ifs at hm with c1 c2 <;> cases hm
        · refine ⟨m2, m3, m4, m5, by rw [m6, r1], by rw [m7, r2], tk, ?_, ?_, ?_⟩
          · rw [← i3]; exact t3
          · intro _
            exact ⟨by simpa [MONITOR_SIZE] using c2, rfl⟩
          · intro hne
            exact absurd c1 hne
        · refine ⟨m2, m3, m4, m5, by rw [m6, r1], by rw [m7, r2], tk, ?_, ?_, ?_⟩
          · rw [← i3]; exact t3
          · intro heq
            exact absurd heq c1
          · intro _
            rw [m1, r3]

theorem interrupt_phase_frame (op : Nat) (s : Machine) :
    (interrupt_phase op s).monitor_buffer = s.monitor_buffer ∧
    (interrupt_phase op s).disk_cycle_counter = s.disk_cycle_counter ∧
    (interrupt_phase op s).disk_index = s.disk_index ∧
    (interrupt_phase op s).halt_flag = s.halt_flag ∧
    (interrupt_phase op s).cpu_registers = s.cpu_registers ∧
    (∀ k, k ≠ IRQ_RETURN → (interrupt_phase op s).io_registers k = s.io_registers k) := by
  unfold interrupt_phase
  dsimp only
  split_ifs <;> simp [upd]
  all_goals
    intro k hk
    simp [hk]

theorem end_of_cycle_rest (s : Machine) :
    (end_of_cycle s).monitor_buffer = s.monitor_buffer ∧
    (end_of_cycle s).disk_cycle_counter = s.disk_cycle_counter ∧
    (end_of_cycle s).disk_index = s.disk_index ∧
    (end_of_cycle s).halt_flag = s.halt_flag ∧
    (end_of_cycle s).cpu_registers = s.cpu_registers ∧
    (end_of_cycle s).io_registers CLOCK_CYCLE =
      (if s.io_registers CLOCK_CYCLE = 0xFFFFFFFF then 0
       else (s.io_registers CLOCK_CYCLE + 1) % 4294967296) ∧
    (end_of_cycle s).io_registers MONITOR_CMD =
      (if s.io_registers MONITOR_CMD = 1 then 0 else s.io_registers MONITOR_CMD) ∧
    ((end_of_cycle s).io_registers IRQ0_STATUS = s.io_registers IRQ0_STATUS ∨
      (end_of_cycle s).io_registers IRQ0_STATUS = 1) := by
  refine ⟨rfl, rfl, rfl, rfl, rfl, ?_, ?_, ?_⟩
  · unfold end_of_cycle update_timer increment_clock_cycle
    dsimp only
    split_ifs <;> simp_all [upd, CLOCK_CYCLE, TIMER_ENABLE, TIMER_CURRENT, TIMER_MAX,
      IRQ0_STATUS, MONITOR_CMD]
  · unfold end_of_cycle update_timer increment_clock_cycle
    dsimp only
    split_ifs <;> simp_all [upd, CLOCK_CYCLE, TIMER_ENABLE, TIMER_CURRENT, TIMER_MAX,
      IRQ0_STATUS, MONITOR_CMD]
  · unfold end_of_cycle update_timer increment_clock_cycle
    dsimp only
    split_ifs <;> simp_all [upd, CLOCK_CYCLE, TIMER_ENABLE, TIMER_CURRENT, TIMER_MAX,
      IRQ0_STATUS, MONITOR_CMD]

theorem irq2_feed_rest (s : Machine) :
    (irq2_feed s).monitor_buffer = s.monitor_buffer ∧
    (irq2_feed s).disk_cycle_counter = s.disk_cycle_counter ∧
    (irq2_feed s).disk_index = s.disk_index ∧
    (irq2_feed s).cpu_registers = s.cpu_registers ∧
    (irq2_feed s).instruction_memory = s.instruction_memory ∧
    ((irq2_feed s).io_registers IRQ2_STATUS = s.io_registers IRQ2_STATUS ∨
      (irq2_feed s).io_registers IRQ2_STATUS = 1) := by
  unfold irq2_feed
  split <;> simp [upd]

theorem get_instruction_rest (s sf : Machine) (w : Nat) (h : get_instruction s = .ok (w, sf)) :
    sf.monitor_buffer = s.monitor_buffer ∧ sf.disk_cycle_counter = s.disk_cycle_counter ∧
    sf.disk_index = s.disk_index ∧ sf.cpu_registers = s.cpu_registers ∧
    sf.halt_flag = s.halt_flag ∧ sf.instruction_memory = s.instruction_memory ∧
    w = s.instruction_memory sf.program_counter := by
  unfold get_instruction at h
  dsimp only at h
  split_ifs at h <;> cases h <;> simp

/-- From the start of an iteration to the point where the peripherals run. -/
theorem before_peripherals_frame (s s4 : Machine) (op : Nat) (f : Nat → Nat)
    (h : before_peripherals s = .ok (s4, op, f)) :
    s4.monitor_buffer = s.monitor_buffer ∧
    s4.disk_cycle_counter = s.disk_cycle_counter ∧ s4.disk_index = s.disk_index ∧
    s4.isr_active_flag = s.isr_active_flag ∧
    (op ≠ 21 → s4.halt_flag = s.halt_flag) ∧
    (op ≠ 20 → ∀ k, k ≠ IRQ2_STATUS → s4.io_registers k = s.io_registers k) ∧
    (op ≠ 20 → (s4.io_registers IRQ2_STATUS = s.io_registers IRQ2_STATUS ∨
      s4.io_registers IRQ2_STATUS = 1)) ∧
    (s.io_registers DISK_STATUS = 1 ∧ s.halt_flag = 1 → (op < 9 ∨ (15 < op ∧ op ≠ 18)) →
      s4.program_counter = s.program_counter) := by
  obtain ⟨w, sf, hg, _, _, hx⟩ := before_peripherals_spec s s4 op f h
  obtain ⟨_, x2, x3, x4, _, _, x7, _, _, x10, _, x12, x13⟩ :=
    execute_and_advance_frame op f _ s4 hx
  obtain ⟨g1, g2, g3, g4⟩ := get_instruction_frame _ _ _ hg
  obtain ⟨r1, r2, r3, _, r5, _, _⟩ := get_instruction_rest _ _ _ hg
  obtain ⟨i1, i2, i3, i4⟩ := irq2_feed_frame s
  obtain ⟨j1, j2, j3, _, _, j6⟩ := irq2_feed_rest s
  dsimp only at x2 x3 x4 x7 x10 x12 x13
  refine ⟨by rw [x7, r1, j1], by rw [x3, r2, j2], by rw [x4, r3, j3], by rw [x2, g1, i2],
    fun h21 => by rw [x12 h21, r5, i3], ?_, ?_, ?_⟩
  · intro h20 k hk
    rw [x10 h20, g2, i4 k hk]
  · intro h20
    rw [x10 h20, g2]
    exact j6
  · intro hst hop
    rw [x13 hop]
    have i17 := i4 DISK_STATUS (by decide)
    rw [i17, i3, i1] at g4
    rcases g4 with ⟨_, hn⟩ | ⟨e, _⟩
    · exact absurd hst hn
    · omega

/-! ## The disk controller: the result of a read -/

/-- Counterexample to C12 as stated: with `monitorcmd = 1`, `monitoraddr = 3` and
`monitordata = 0x1AB` at the point the peripherals run, the iteration leaves
`monitor[3] = 0x1AB`, not `0x1AB & 0xFF = 0xAB`. -/
theorem monitor_write_counterexample :
    (before_peripherals state_monitor).toOption.map
      (fun r => (r.1.io_registers MONITOR_CMD, r.1.io_registers MONITOR_ADDR,
        r.1.io_registers MONITOR_DATA)) = some (1, 3, 0x1AB) ∧
    (loop_iteration state_monitor).toOption.map (fun s => s.monitor_buffer 3) = some 0x1AB ∧
    (0x1AB : Nat) ≠ 0x1AB &&& 0xFF := by
  decide

/-- C12 (amended): when `monitorcmd = 1` at the point the peripherals run and the
iteration completes, `monitoraddr` is inside the buffer, `monitor[monitoraddr]` holds
the whole 32-bit `monitordata` after the iteration, every other monitor cell is as it
was before the iteration, and `monitorcmd` is 0. -/
theorem monitor_write_amended (s s4 s1 : Machine) (op : Nat) (f : Nat → Nat)
    (hb : before_peripherals s = .ok (s4, op, f))
    (hcmd : s4.io_registers MONITOR_CMD = 1)
    (hloop : loop_iteration s = .ok s1) :
    s4.io_registers MONITOR_ADDR < 65536 ∧
    s1.monitor_buffer (s4.io_registers MONITOR_ADDR) = s4.io_registers MONITOR_DATA ∧
    (∀ j, j ≠ s4.io_registers MONITOR_ADDR → s1.monitor_buffer j = s.monitor_buffer j) ∧
    s1.io_registers MONITOR_CMD = 0 := by
  rw [loop_iteration_stages s s4 op f hb] at hloop
  split at hloop
  · cases hloop
  · rename_i s5 hp
    cases hloop
    obtain ⟨sd, hd, _, _, _, _, _, _, p8, _, p10, _⟩ := handle_peripherals_spec op f s4 s5 hp
    obtain ⟨hA, hm⟩ := p10 hcmd
    obtain ⟨_, _, d3⟩ := handle_disk_operations_frame _ _ hd
    have h22 : s5.io_registers MONITOR_CMD = 1 := by
      rw [p8 MONITOR_CMD (by decide) (by decide),
        d3 MONITOR_CMD (by decide) (by decide) (by decide), hcmd]
    obtain ⟨e1, _, _, _, _, _, e7, _⟩ := end_of_cycle_rest (interrupt_phase op s5)
    obtain ⟨i1, _, _, _, _, i6⟩ := interrupt_phase_frame op s5
    obtain ⟨b1, _⟩ := before_peripherals_frame s s4 op f hb
    refine ⟨hA, ?_, ?_, ?_⟩
    · rw [e1, i1, hm, upd_same]
    · intro j hj
      rw [e1, i1, hm, upd_other _ _ _ _ hj, b1]
    · rw [e7, i6 MONITOR_CMD (by decide), h22]
      simp

/-- Witness of C12 (amended): the state of the counterexample. -/
theorem monitor_write_amended_witness :
    (before_peripherals state_monitor =
        .ok (state_before_peripherals state_monitor, 0, (decode_instruction 0).1) ∧
      (state_before_peripherals state_monitor).io_registers MONITOR_CMD = 1 ∧
      loop_iteration state_monitor = .ok (after_iteration state_monitor)) ∧
    ((state_before_peripherals state_monitor).io_registers MONITOR_ADDR < 65536 ∧
      (after_iteration state_monitor).monitor_buffer
          ((state_before_peripherals state_monitor).io_registers MONITOR_ADDR) =
        (state_before_peripherals state_monitor).io_registers MONITOR_DATA ∧
      (∀ j, j ≠ (state_before_peripherals state_monitor).io_registers MONITOR_ADDR →
        (after_iteration state_monitor).monitor_buffer j = state_monitor.monitor_buffer j) ∧
      (after_iteration state_monitor).io_registers MONITOR_CMD = 0) :=
  ⟨⟨rfl, by decide, rfl⟩,
    monitor_write_amended state_monitor (state_before_peripherals state_monitor)
      (after_iteration state_monitor) 0 (decode_instruction 0).1 rfl (by decide) rfl⟩

/-! ## Instruction semantics -/

theorem process_instruction_unknown (op : Nat) (f : Nat → Nat) (s : Machine) (h : 21 < op) :
    process_instruction op f s = .error Fault.unknownOpcode := by
  unfold process_instruction process_switch
  dsimp only
  split
  · rename_i e he
    split at he <;> first | omega | (cases he; rfl)
  · rename_i s1 jf he
    split at he <;> first | omega | cases he

/-- Counterexample to C13 as stated: `lw $t0, $imm1, $zero, $zero` with the immediate
-1 in `$imm1` has a valid opcode, 16, and the address `0xFFFFFFFF`; it indexes
`data_memory` outside its 4096 cells and does not return. -/
theorem execution_errors_counterexample :
    (16 : Nat) ≤ 21 ∧
    ((state_regs 4294967295 0).cpu_registers (fields 7 1 0 0 1)
      + (state_regs 4294967295 0).cpu_registers (fields 7 1 0 0 2)) % 4294967296
      = 4294967295 ∧
    process_instruction 16 (fields 7 1 0 0) (state_regs 4294967295 0) =
      .error Fault.outOfBounds :=
  ⟨by decide, by decide, rfl⟩

/-- C13 (amended): `process_instruction` takes its `exit` branch exactly when the
opcode is outside 0..21; and for an opcode in 0..21 it returns whenever a load or
store (16, 17) has `rs + rt` (modulo 2^32) in 0..4095 and an I/O access (19, 20) has
`rs + rt` (modulo 2^32) in 0..22. -/
theorem execution_errors (op : Nat) (f : Nat → Nat) (s : Machine) :
    (process_instruction op f s = .error Fault.unknownOpcode ↔ 21 < op) ∧
    (op ≤ 21 →
      (op = 16 ∨ op = 17 →
        (s.cpu_registers (f 1) + s.cpu_registers (f 2)) % 4294967296 < 4096) →
      (op = 19 ∨ op = 20 →
        (s.cpu_registers (f 1) + s.cpu_registers (f 2)) % 4294967296 < 23) →
      ∃ r, process_instruction op f s = .ok r) := by
  by_cases h : op ≤ 21
  · refine ⟨?_, fun _ => ?_⟩
    · constructor
      · intro he
        exact absurd he (process_instruction_known op f s h)
      · intro h21
        omega
    · intro hm hio
      interval_cases op <;>
        simp [process_instruction, process_switch, MEM_SIZE, NUM_IO_REGS, MONITOR_CMD] <;>
        (try split_ifs) <;> simp_all
  · refine ⟨⟨fun _ => by omega, fun h21 => process_instruction_unknown op f s h21⟩, fun h2 => ?_⟩
    exact absurd h2 h

/-- Witness of C13 (amended): `lw $t0, $imm1, $zero, $zero` with the address 4 in
`$imm1` returns, and an opcode 22 takes the `exit` branch. -/
theorem execution_errors_witness :
    ((16 : Nat) ≤ 21 ∧
      ((state_regs 4 0).cpu_registers (fields 7 1 0 0 1)
        + (state_regs 4 0).cpu_registers (fields 7 1 0 0 2)) % 4294967296 < 4096) ∧
    (∃ r, process_instruction 16 (fields 7 1 0 0) (state_regs 4 0) = .ok r) ∧
    process_instruction 22 (fields 7 1 0 0) (state_regs 4 0) = .error Fault.unknownOpcode :=
  ⟨⟨by decide, by decide⟩,
    (execution_errors 16 (fields 7 1 0 0) (state_regs 4 0)).2 (by decide)
      (fun _ => by decide) (fun h => absurd h (by decide)),
    (execution_errors 22 (fields 7 1 0 0) (state_regs 4 0)).1.2 (by decide)⟩

/-- C14: ALU arithmetic wraps modulo 2^32. For a fetched word with opcode 0..5 and
`rd` in 1..15, decoding and executing it returns; `rd` ends up as `(rs+rt+rm) mod 2^32`,
`(rs-rt-rm) mod 2^32`, `(rs*rt+rm) mod 2^32`, `rs&rt&rm`, `rs|rt|rm`, `rs^rt^rm`
respectively, where `rs`, `rt`, `rm` are read from the registers at the start of
execution, registers 1 and 2 holding the sign-extended immediates; the program counter
advances by 1 (modulo 2^32); every register other than `rd` and register 0 is
unchanged, register 0 is 0, and so no register other than `rd` changes when register 0
was 0. -/
theorem alu_wraps (w : Nat) (s : Machine)
    (hop : decode_opcode w ≤ 5) (hrd : 1 ≤ (decode_instruction w).1 0) :
    ∃ s1, decode_execute w s = .ok (s1, decode_opcode w, (decode_instruction w).1) ∧
      (decode_opcode w = 0 →
          s1.cpu_registers ((decode_instruction w).1 0) =
            (registers_with_immediates w s.cpu_registers ((decode_instruction w).1 1)
              + registers_with_immediates w s.cpu_registers ((decode_instruction w).1 2)
              + registers_with_immediates w s.cpu_registers ((decode_instruction w).1 3))
              % 4294967296) ∧
      (decode_opcode w = 1 →
          (s1.cpu_registers ((decode_instruction w).1 0) : Int) =
            ((registers_with_immediates w s.cpu_registers ((decode_instruction w).1 1) : Int)
              - registers_with_immediates w s.cpu_registers ((decode_instruction w).1 2)
              - registers_with_immediates w s.cpu_registers ((decode_instruction w).1 3))
              % 4294967296) ∧
      (decode_opcode w = 2 →
          s1.cpu_registers ((decode_instruction w).1 0) =
            (registers_with_immediates w s.cpu_registers ((decode_instruction w).1 1)
              * registers_with_immediates w s.cpu_registers ((decode_instruction w).1 2)
              + registers_with_immediates w s.cpu_registers ((decode_instruction w).1 3))
              % 4294967296) ∧
      (decode_opcode w = 3 →
          s1.cpu_registers ((decode_instruction w).1 0) =
            registers_with_immediates w s.cpu_registers ((decode_instruction w).1 1)
              &&& registers_with_immediates w s.cpu_registers ((decode_instruction w).1 2)
              &&& registers_with_immediates w s.cpu_registers ((decode_instruction w).1 3)) ∧
      (decode_opcode w = 4 →
          s1.cpu_registers ((decode_instruction w).1 0) =
            registers_with_immediates w s.cpu_registers ((decode_instruction w).1 1)
              ||| registers_with_immediates w s.cpu_registers ((decode_instruction w).1 2)
              ||| registers_with_immediates w s.cpu_registers ((decode_instruction w).1 3)) ∧
      (decode_opcode w = 5 →
          s1.cpu_registers ((decode_instruction w).1 0) =
            registers_with_immediates w s.cpu_registers ((decode_instruction w).1 1)
              ^^^ registers_with_immediates w s.cpu_registers ((decode_instruction w).1 2)
              ^^^ registers_with_immediates w s.cpu_registers ((decode_instruction w).1 3)) ∧
      registers_with_immediates w s.cpu_registers 1 =
        toU32 (decode_immediate1 (decode_instruction w).2) ∧
      registers_with_immediates w s.cpu_registers 2 =
        toU32 (decode_immediate2 (decode_instruction w).2) ∧
      s1.program_counter = (s.program_counter + 1) % 4294967296 ∧
      (∀ k, k ≠ (decode_instruction w).1 0 → k ≠ 0 →
        s1.cpu_registers k = registers_with_immediates w s.cpu_registers k) ∧
      s1.cpu_registers 0 = 0 ∧
      (s.cpu_registers 0 = 0 → ∀ k, k ≠ (decode_instruction w).1 0 →
        s1.cpu_registers k = registers_with_immediates w s.cpu_registers k) := by
  have hd : (decode_instruction w).1 0 ≠ 0 := by omega
  obtain ⟨s1, h, a0, a1, a2, a3, a4, a5, hpc, hk, h0, _, _⟩ :=
    alu_step (decode_opcode w) (decode_instruction w).1
      { s with cpu_registers := registers_with_immediates w s.cpu_registers } hop hd
  have hr0 : registers_with_immediates w s.cpu_registers 0 = s.cpu_registers 0 := by
    simp [registers_with_immediates, upd]
  refine ⟨s1, ?_, a0, a1, a2, a3, a4, a5, ?_, ?_, hpc, hk, h0, ?_⟩
  · unfold decode_execute
    dsimp only
    rw [h]
  · simp [registers_with_immediates, upd]
  · simp [registers_with_immediates, upd]
  · intro hz k hne
    by_cases hk0 : k = 0
    · subst hk0
      rw [h0, hr0, hz]
    · exact hk k hne hk0

/-- Witness of C14: `add $t0, $imm1, $imm2, $zero, -1, 2` (the word `0x007120FFF002`)
leaves `$t0 = (0xFFFFFFFF + 2) mod 2^32 = 1`. -/
theorem alu_wraps_witness :
    (decode_opcode 0x007120FFF002 ≤ 5 ∧ 1 ≤ (decode_instruction 0x007120FFF002).1 0) ∧
    ∃ s1, decode_execute 0x007120FFF002 (state_regs 0 0) =
        .ok (s1, decode_opcode 0x007120FFF002, (decode_instruction 0x007120FFF002).1) ∧
      s1.cpu_registers 7 = 1 ∧ s1.program_counter = 11 :=
  ⟨by decide,
    (alu_wraps 0x007120FFF002 (state_regs 0 0) (by decide) (by decide)).elim
      fun s1 h => ⟨s1, h.1, (h.2.1 (by decide)).trans (by decide),
        h.2.2.2.2.2.2.2.2.2.1.trans (by decide)⟩⟩

/-- C16: conditional branches. For opcodes 9..14 the instruction returns; the new
program counter is `rm & 0xFFF` exactly when the comparison of `rs` and `rt` holds
(`==`, `!=`, and `<`, `>`, `<=`, `>=` on the values read as signed 32-bit integers)
and `PC + 1` otherwise; no CPU register other than register 0 is written, and
register 0 is 0. -/
theorem conditional_branches (op : Nat) (f : Nat → Nat) (s : Machine)
    (h9 : 9 ≤ op) (h14 : op ≤ 14) :
    ∃ s1, execute_and_advance op f s = .ok s1 ∧
      (op = 9 → s1.program_counter =
        if s.cpu_registers (f 1) = s.cpu_registers (f 2)
        then s.cpu_registers (f 3) &&& 0xFFF else (s.program_counter + 1) % 4294967296) ∧
      (op = 10 → s1.program_counter =
        if s.cpu_registers (f 1) ≠ s.cpu_registers (f 2)
        then s.cpu_registers (f 3) &&& 0xFFF else (s.program_counter + 1) % 4294967296) ∧
      (op = 11 → s1.program_counter =
        if toI32 (s.cpu_registers (f 1)) < toI32 (s.cpu_registers (f 2))
        then s.cpu_registers (f 3) &&& 0xFFF else (s.program_counter + 1) % 4294967296) ∧
      (op = 12 → s1.program_counter =
        if toI32 (s.cpu_registers (f 1)) > toI32 (s.cpu_registers (f 2))
        then s.cpu_registers (f 3) &&& 0xFFF else (s.program_counter + 1) % 4294967296) ∧
      (op = 13 → s1.program_counter =
        if toI32 (s.cpu_registers (f 1)) ≤ toI32 (s.cpu_registers (f 2))
        then s.cpu_registers (f 3) &&& 0xFFF else (s.program_counter + 1) % 4294967296) ∧
      (op = 14 → s1.program_counter =
        if toI32 (s.cpu_registers (f 1)) ≥ toI32 (s.cpu_registers (f 2))
        then s.cpu_registers (f 3) &&& 0xFFF else (s.program_counter + 1) % 4294967296) ∧
      (∀ k, k ≠ 0 → s1.cpu_registers k = s.cpu_registers k) ∧
      s1.cpu_registers 0 = 0 := by
  interval_cases op <;>
    simp [execute_and_advance, process_instruction, process_switch] <;>
    split_ifs <;> simp [upd] <;> (intro k hk; simp [hk])

/-- Witness of C16: `blt` with `rs = 0x80000000` and `rt = 0` is taken, since
`0x80000000` is negative as a signed value; the target is `rm = 9`. -/
theorem conditional_branches_witness :
    ((9 : Nat) ≤ 11 ∧ (11 : Nat) ≤ 14) ∧
    toI32 0x80000000 < toI32 0 ∧
    ∃ s1, execute_and_advance 11 (fields 0 1 2 7) (state_regs 0x80000000 0) = .ok s1 ∧
      s1.program_counter = 9 :=
  ⟨by decide, by decide,
    (conditional_branches 11 (fields 0 1 2 7) (state_regs 0x80000000 0) (by decide)
      (by decide)).elim
      fun s1 h => ⟨s1, h.1, (h.2.2.2.1 rfl).trans (by decide)⟩⟩

/-- C17: load and store. When `a = rs + rt` (modulo 2^32) is in 0..4095, `lw` with
`rd` other than 0 leaves `rd = (data[a] + rm) mod 2^32` and data memory unchanged;
`sw` leaves `data[a] = (rm + rd) mod 2^32`, every other data word unchanged, and
every CPU register other than 0 unchanged. -/
theorem load_store (f : Nat → Nat) (s : Machine)
    (ha : (s.cpu_registers (f 1) + s.cpu_registers (f 2)) % 4294967296 < 4096) :
    (f 0 ≠ 0 → ∃ s1, process_instruction 16 f s = .ok (s1, 0) ∧
      s1.cpu_registers (f 0) =
        (s.data_memory ((s.cpu_registers (f 1) + s.cpu_registers (f 2)) % 4294967296)
          + s.cpu_registers (f 3)) % 4294967296 ∧
      s1.data_memory = s.data_memory) ∧
    (∃ s1, process_instruction 17 f s = .ok (s1, 0) ∧
      s1.data_memory ((s.cpu_registers (f 1) + s.cpu_registers (f 2)) % 4294967296) =
        (s.cpu_registers (f 3) + s.cpu_registers (f 0)) % 4294967296 ∧
      (∀ j, j ≠ (s.cpu_registers (f 1) + s.cpu_registers (f 2)) % 4294967296 →
        s1.data_memory j = s.data_memory j) ∧
      (∀ k, k ≠ 0 → s1.cpu_registers k = s.cpu_registers k) ∧
      s1.cpu_registers 0 = 0) := by
  have ha2 : (s.cpu_registers (f 1) + s.cpu_registers (f 2)) % 4294967296 < MEM_SIZE := ha
  refine ⟨fun hd => ?_, ?_⟩
  · simp [process_instruction, process_switch, ha2, upd, hd]
  · simp only [process_instruction, process_switch, ha2, if_true]
    refine ⟨_, rfl, ?_⟩
    simp_all [upd]

/-- Witness of C17: `rs = 5`, `rt = 0xFFFFFFFF` (the immediate -1), so `a = 4` after
wrap-around; `data[4] = 100`, `rm = rd = $t0 = 9`. -/
theorem load_store_witness :
    ((state_regs 5 4294967295).cpu_registers (fields 7 1 2 7 1)
        + (state_regs 5 4294967295).cpu_registers (fields 7 1 2 7 2)) % 4294967296 < 4096 ∧
    (∃ s1, process_instruction 16 (fields 7 1 2 7) (state_regs 5 4294967295) = .ok (s1, 0) ∧
      s1.cpu_registers 7 = 109) ∧
    (∃ s1, process_instruction 17 (fields 7 1 2 7) (state_regs 5 4294967295) = .ok (s1, 0) ∧
      s1.data_memory 4 = 18) :=
  ⟨by decide,
    ((load_store (fields 7 1 2 7) (state_regs 5 4294967295) (by decide)).1 (by decide)).elim
      fun s1 h => ⟨s1, h.1, h.2.1.trans (by decide)⟩,
    ((load_store (fields 7 1 2 7) (state_regs 5 4294967295) (by decide)).2).elim
      fun s1 h => ⟨s1, h.1, h.2.1.trans (by decide)⟩⟩

/-- C18: I/O access. When `k = rs + rt` (modulo 2^32) is in 0..22, `in` with `rd`
other than 0 leaves `rd = io[k]`, or 0 when `k = 22` (`monitorcmd`), and changes no
I/O register; `out` leaves `io[k]` equal to `rm` and every other I/O register
unchanged. -/
theorem io_access (f : Nat → Nat) (s : Machine)
    (hk : (s.cpu_registers (f 1) + s.cpu_registers (f 2)) % 4294967296 < 23) :
    (f 0 ≠ 0 → ∃ s1, process_instruction 19 f s = .ok (s1, 0) ∧
      s1.cpu_registers (f 0) =
        (if (s.cpu_registers (f 1) + s.cpu_registers (f 2)) % 4294967296 = 22 then 0
         else s.io_registers ((s.cpu_registers (f 1) + s.cpu_registers (f 2)) % 4294967296)) ∧
      s1.io_registers = s.io_registers) ∧
    (∃ s1, process_instruction 20 f s = .ok (s1, 0) ∧
      s1.io_registers ((s.cpu_registers (f 1) + s.cpu_registers (f 2)) % 4294967296) =
        s.cpu_registers (f 3) ∧
      (∀ j, j ≠ (s.cpu_registers (f 1) + s.cpu_registers (f 2)) % 4294967296 →
        s1.io_registers j = s.io_registers j)) := by
  have hk2 : (s.cpu_registers (f 1) + s.cpu_registers (f 2)) % 4294967296 < NUM_IO_REGS := hk
  refine ⟨fun hd => ?_, ?_⟩
  · by_cases h22 : (s.cpu_registers (f 1) + s.cpu_registers (f 2)) % 4294967296 = 22
    · simp [process_instruction, process_switch, MONITOR_CMD, h22, upd, hd]
    · simp [process_instruction, process_switch, MONITOR_CMD, h22, hk2, upd, hd]
  · simp only [process_instruction, process_switch, hk2, if_true]
    refine ⟨_, rfl, ?_⟩
    simp_all [upd]

/-- Witness of C18: `k = 13` (`timermax`), `io[13] = 77`, `rm = $t0 = 9`. -/
theorem io_access_witness :
    ((state_regs 13 0).cpu_registers (fields 7 1 2 7 1)
        + (state_regs 13 0).cpu_registers (fields 7 1 2 7 2)) % 4294967296 < 23 ∧
    (∃ s1, process_instruction 19 (fields 7 1 2 7) (state_regs 13 0) = .ok (s1, 0) ∧
      s1.cpu_registers 7 = 77) ∧
    (∃ s1, process_instruction 20 (fields 7 1 2 7) (state_regs 13 0) = .ok (s1, 0) ∧
      s1.io_registers 13 = 9) :=
  ⟨by decide,
    ((io_access (fields 7 1 2 7) (state_regs 13 0) (by decide)).1 (by decide)).elim
      fun s1 h => ⟨s1, h.1, h.2.1.trans (by decide)⟩,
    ((io_access (fields 7 1 2 7) (state_regs 13 0) (by decide)).2).elim
      fun s1 h => ⟨s1, h.1, h.2.1.trans (by decide)⟩⟩

/-! ## Status bits and the stall -/

/-- C19: the interrupt controller never clears status bits. For every instruction other
than `out`, each of `irq0status`, `irq1status`, `irq2status` that is non-zero before a
loop iteration is non-zero after it, with or without an interrupt entry in that
iteration. -/
theorem irq_status_kept (s s1 : Machine) (op : Nat)
    (hexec : execute_and_peripherals s = .ok (s1, op)) (hop : op ≠ 20) :
    ∃ s2, loop_iteration s = .ok s2 ∧
      (s.io_registers IRQ0_STATUS ≠ 0 → s2.io_registers IRQ0_STATUS ≠ 0) ∧
      (s.io_registers IRQ1_STATUS ≠ 0 → s2.io_registers IRQ1_STATUS ≠ 0) ∧
      (s.io_registers IRQ2_STATUS ≠ 0 → s2.io_registers IRQ2_STATUS ≠ 0) := by
  refine ⟨_, loop_iteration_eq s s1 op hexec, ?_⟩
  obtain ⟨s4, f, hb, hp⟩ := stages_of_execute_and_peripherals s s1 op hexec
  obtain ⟨_, _, _, _, _, b6, b7, _⟩ := before_peripherals_frame s s4 op f hb
  obtain ⟨sd, hd, _, _, _, _, _, _, p8, p9, _, _⟩ := handle_peripherals_spec op f s4 s1 hp
  obtain ⟨_, _, d3⟩ := handle_disk_operations_frame _ _ hd
  obtain ⟨_, _, _, _, _, _, r7⟩ := handle_disk_operations_rest _ _ hd
  obtain ⟨_, _, _, _, _, _, _, e8⟩ := end_of_cycle_rest (interrupt_phase op s1)
  obtain ⟨_, _, e3⟩ := end_of_cycle_frame (interrupt_phase op s1)
  obtain ⟨_, _, _, _, _, i6⟩ := interrupt_phase_frame op s1
  have a3 : s4.io_registers IRQ0_STATUS = s.io_registers IRQ0_STATUS :=
    b6 hop IRQ0_STATUS (by decide)
  have a4 : s4.io_registers IRQ1_STATUS = s.io_registers IRQ1_STATUS :=
    b6 hop IRQ1_STATUS (by decide)
  have a5 := b7 hop
  have c4 : s1.io_registers IRQ1_STATUS = sd.io_registers IRQ1_STATUS :=
    p8 IRQ1_STATUS (by decide) (by decide)
  have c5 : s1.io_registers IRQ2_STATUS = s4.io_registers IRQ2_STATUS := by
    rw [p8 IRQ2_STATUS (by decide) (by decide),
      d3 IRQ2_STATUS (by decide) (by decide) (by decide)]
  have f3 := i6 IRQ0_STATUS (by decide)
  have f4 := i6 IRQ1_STATUS (by decide)
  have f5 := i6 IRQ2_STATUS (by decide)
  have g4 := e3 IRQ1_STATUS (by decide) (by decide) (by decide) (by decide)
  have g5 := e3 IRQ2_STATUS (by decide) (by decide) (by decide) (by decide)
  refine ⟨?_, ?_, ?_⟩
  · intro h0
    rw [f3] at e8
    rw [a3] at p9
    rcases e8 with e | e
    · rw [e]
      rcases p9 with q | q
      · rw [q]; exact h0
      · rw [q]; decide
    · rw [e]; decide
  · intro h0
    rw [g4, f4, c4]
    rw [a4] at r7
    rcases r7 with q | q
    · rw [q]; exact h0
    · rw [q]; decide
  · intro h0
    rw [g5, f5, c5]
    rcases a5 with q | q
    · rw [q]; exact h0
    · rw [q]; decide

/-- Witness of C19: an iteration with IRQ0 raised that ends with an interrupt entry. -/
theorem irq_status_kept_witness :
    (execute_and_peripherals state_irq_pending = .ok (after_execute state_irq_pending, 0) ∧
      (0 : Nat) ≠ 20) ∧
    ∃ s2, loop_iteration state_irq_pending = .ok s2 ∧
      (state_irq_pending.io_registers IRQ0_STATUS ≠ 0 → s2.io_registers IRQ0_STATUS ≠ 0) ∧
      (state_irq_pending.io_registers IRQ1_STATUS ≠ 0 → s2.io_registers IRQ1_STATUS ≠ 0) ∧
      (state_irq_pending.io_registers IRQ2_STATUS ≠ 0 → s2.io_registers IRQ2_STATUS ≠ 0) :=
  ⟨⟨rfl, by decide⟩,
    irq_status_kept state_irq_pending (after_execute state_irq_pending) 0 rfl (by decide)⟩

/-- Counterexample to C20 as stated: halted by the `halt` at address 4 with the disk
busy, program counter 5, and IRQ0 enabled and raised. The stall iteration ends with an
interrupt entry: the program counter is `irqhandler = 0x40`, not 5. -/
theorem stall_counterexample :
    state_stall_irq.halt_flag = 1 ∧ state_stall_irq.io_registers DISK_STATUS = 1 ∧
    state_stall_irq.program_counter = 5 ∧
    (execute_and_peripherals state_stall_irq).toOption.map (fun r => r.2) = some HALT_OP ∧
    (loop_iteration state_stall_irq).toOption.map Machine.program_counter = some 0x40 ∧
    (0x40 : Nat) ≠ 5 := by
  decide

/-- C20 (amended): with the halt flag set and `diskstatus = 1`, a loop iteration that
completes, whose re-fetched instruction (the one at PC - 1) is not a branch, `jal` or
`reti`, and that performs no interrupt entry, leaves the program counter where it
was. If that instruction is not `out` either, the clock cycle counter increases by one
(wrapping at 2^32) and the disk state machine advances: the cycle counter of a pending
command below 1024 increases by one with `diskstatus` still 1, and at 1024 the command
completes (`diskcmd = 0`, `diskstatus = 0`, `irq1status = 1`, counter 0). -/
theorem stall_amended (s s1 : Machine) (op : Nat)
    (hhalt : s.halt_flag = 1) (hbusy : s.io_registers DISK_STATUS = 1)
    (hexec : execute_and_peripherals s = .ok (s1, op))
    (hop : op < 9 ∨ (15 < op ∧ op ≠ 18))
    (hno : s1.isr_active_flag ≠ 0 ∨ check_interrupts s1 = 0) :
    ∃ s2, loop_iteration s = .ok s2 ∧
      s2.program_counter = s.program_counter ∧
      (op ≠ 20 →
        s2.io_registers CLOCK_CYCLE =
          (if s.io_registers CLOCK_CYCLE = 0xFFFFFFFF then 0
           else (s.io_registers CLOCK_CYCLE + 1) % 4294967296) ∧
        (s.io_registers DISK_CMD ≠ 0 → s.disk_cycle_counter < 1024 →
          s2.disk_cycle_counter = s.disk_cycle_counter + 1 ∧
          s2.io_registers DISK_STATUS = 1) ∧
        (s.disk_cycle_counter = 1024 →
          s2.disk_cycle_counter = 0 ∧ s2.io_registers DISK_CMD = 0 ∧
          s2.io_registers DISK_STATUS = 0 ∧ s2.io_registers IRQ1_STATUS = 1)) := by
  refine ⟨_, loop_iteration_eq s s1 op hexec, ?_⟩
  have h18 : op ≠ RETI_OP := by
    have : RETI_OP = 18 := rfl
    omega
  rw [interrupt_phase_no_entry op s1 h18 hno]
  obtain ⟨s4, f, hb, hp⟩ := stages_of_execute_and_peripherals s s1 op hexec
  obtain ⟨_, b2, _, _, _, b6, _, b8⟩ := before_peripherals_frame s s4 op f hb
  obtain ⟨q1, _, q3⟩ := handle_peripherals_frame _ _ _ _ hp
  obtain ⟨sd, hd, p2, _, _, _, _, _, p8, _, _, _⟩ := handle_peripherals_spec op f s4 s1 hp
  obtain ⟨e1, _, e3⟩ := end_of_cycle_frame s1
  obtain ⟨_, r2, _, _, _, r6, _, _⟩ := end_of_cycle_rest s1
  refine ⟨by rw [e1, q1, b8 ⟨hbusy, hhalt⟩ hop], ?_⟩
  intro h20
  have c8 : s1.io_registers CLOCK_CYCLE = s.io_registers CLOCK_CYCLE := by
    rw [q3 CLOCK_CYCLE (by decide) (by decide) (by decide) (by decide) (by decide),
      b6 h20 CLOCK_CYCLE (by decide)]
  have c14 : s4.io_registers DISK_CMD = s.io_registers DISK_CMD := b6 h20 DISK_CMD (by decide)
  have c17 : s4.io_registers DISK_STATUS = s.io_registers DISK_STATUS :=
    b6 h20 DISK_STATUS (by decide)
  have k14 : (end_of_cycle s1).io_registers DISK_CMD = sd.io_registers DISK_CMD := by
    rw [e3 DISK_CMD (by decide) (by decide) (by decide) (by decide),
      p8 DISK_CMD (by decide) (by decide)]
  have k17 : (end_of_cycle s1).io_registers DISK_STATUS = sd.io_registers DISK_STATUS := by
    rw [e3 DISK_STATUS (by decide) (by decide) (by decide) (by decide),
      p8 DISK_STATUS (by decide) (by decide)]
  have k4 : (end_of_cycle s1).io_registers IRQ1_STATUS = sd.io_registers IRQ1_STATUS := by
    rw [e3 IRQ1_STATUS (by decide) (by decide) (by decide) (by decide),
      p8 IRQ1_STATUS (by decide) (by decide)]
  refine ⟨by rw [r6, c8], ?_, ?_⟩
  · intro hc hk
    obtain ⟨d1, _, _, _, _, d6, _⟩ :=
      handle_disk_step s4 sd hd (by rw [c14]; exact hc) (by rw [b2]; exact hk)
    refine ⟨by rw [r2, p2, d1, b2], ?_⟩
    rw [k17, d6, c17, hbusy]
    simp
  · intro hk
    obtain ⟨d1, _, d3, d4, d5, _⟩ := handle_disk_final s4 sd hd (by rw [b2]; exact hk)
    exact ⟨by rw [r2, p2, d1], by rw [k14, d3], by rw [k17, d4], by rw [k4, d5]⟩

/-- Witness of C20 (amended): halted by the `halt` at address 0 with a disk command at
cycle 3. -/
theorem stall_amended_witness :
    (state_stall.halt_flag = 1 ∧ state_stall.io_registers DISK_STATUS = 1 ∧
      execute_and_peripherals state_stall = .ok (after_execute state_stall, 21) ∧
      ((21 : Nat) < 9 ∨ (15 < (21 : Nat) ∧ (21 : Nat) ≠ 18)) ∧
      ((after_execute state_stall).isr_active_flag ≠ 0 ∨
        check_interrupts (after_execute state_stall) = 0)) ∧
    ∃ s2, loop_iteration state_stall = .ok s2 ∧
      s2.program_counter = state_stall.program_counter ∧
      ((21 : Nat) ≠ 20 →
        s2.io_registers CLOCK_CYCLE =
          (if state_stall.io_registers CLOCK_CYCLE = 0xFFFFFFFF then 0
           else (state_stall.io_registers CLOCK_CYCLE + 1) % 4294967296) ∧
        (state_stall.io_registers DISK_CMD ≠ 0 → state_stall.disk_cycle_counter < 1024 →
          s2.disk_cycle_counter = state_stall.disk_cycle_counter + 1 ∧
          s2.io_registers DISK_STATUS = 1) ∧
        (state_stall.disk_cycle_counter = 1024 →
          s2.disk_cycle_counter = 0 ∧ s2.io_registers DISK_CMD = 0 ∧
          s2.io_registers DISK_STATUS = 0 ∧ s2.io_registers IRQ1_STATUS = 1)) :=
  ⟨⟨rfl, by decide, rfl, by decide, Or.inr (by decide)⟩,
    stall_amended state_stall (after_execute state_stall) 21 rfl (by decide) rfl (by decide)
      (Or.inr (by decide))⟩

/-! ## The normalizer `get_line` -/

theorem skip_spaces_eq (s : List Char) : skip_spaces s = s.dropWhile isspace := by
  induction s with
  | nil => rfl
  | cons c cs ih =>
    by_cases h : isspace c = true
    · simp [skip_spaces, List.dropWhile, h, ih]
    · simp [skip_spaces, List.dropWhile, h]

theorem take_strchr (s : List Char) (ch : Char) :
    (match strchr s ch with
      | some i => s.take i
      | none => s) = s.takeWhile (fun c => c ≠ ch) := by
  induction s with
  | nil => rfl
  | cons c cs ih =>
    by_cases h : c = ch
    · simp [strchr, h]
    · simp only [strchr, h, if_false]
      cases hs : strchr cs ch with
      | none => rw [hs] at ih; simp at ih; simp [List.takeWhile, h]; exact ih
      | some i => rw [hs] at ih; simp at ih; simp [List.takeWhile, h]; exact ih

theorem replace_commas_eq (s : List Char) : replace_commas s = commas_to_spaces s := by
  induction s with
  | nil => rfl
  | cons c cs ih => simp [replace_commas, commas_to_spaces, ih] 

theorem isspace_hash : isspace '#' = false := by decide

theorem dropWhile_takeWhile_hash (s : List Char) :
    (s.takeWhile (fun c => c ≠ '#')).dropWhile isspace =
      (s.dropWhile isspace).takeWhile (fun c => c ≠ '#') := by
  induction s with
  | nil => rfl
  | cons c cs ih =>
    by_cases hs : isspace c = true
    · have hc : c ≠ '#' := by
        intro h
        rw [h, isspace_hash] at hs
        exact Bool.noConfusion hs
      simp [List.takeWhile, List.dropWhile, hs, hc]
      simpa using ih
    · by_cases hc : c = '#'
      · simp [List.takeWhile, List.dropWhile, hs, hc]
      · simp [List.takeWhile, List.dropWhile, hs, hc]

theorem take_trim_end_idx (s : List Char) (hs : ∀ c, s.head? = some c → isspace c = false)
    (n : Nat) (hn : n ≤ s.length) :
    s.take (trim_end_idx s n) = (s.take n).rdropWhile isspace := by
  induction n with
  | zero => simp [trim_end_idx]
  | succ n ih =>
    have hlt : n < s.length := hn
    have htake : s.take (n + 1) = s.take n ++ [s.getD n NUL] := by
      rw [List.take_succ, List.getD_eq_getElem?_getD, List.getElem?_eq_getElem hlt]
      rfl
    rw [htake, List.rdropWhile_concat]
    unfold trim_end_idx
    by_cases hsp : isspace (s.getD n NUL) = true
    · by_cases h0 : n = 0
      · subst h0
        exfalso
        cases s with
        | nil => simp at hlt
        | cons a t =>
          have := hs a rfl
          simp at hsp
          rw [this] at hsp
          exact Bool.noConfusion hsp
      · have h1 : n + 1 > 1 := by omega
        simp only [h1, hsp, and_self, if_true]
        exact ih (by omega)
    · simp only [hsp, and_false, if_false]
      simp [htake]

theorem collapse_spaces_of_not_space (c : Char) (cs : List Char) (flag : Bool)
    (h : isspace c = false) : collapse_spaces (c :: cs) flag = c :: collapse_spaces cs false := by
  simp [collapse_spaces, h]

theorem collapse_spaces_flag (s : List Char) :
    collapse_spaces s true = collapse_spaces (s.dropWhile isspace) false := by
  induction s with
  | nil => rfl
  | cons c cs ih =>
    by_cases h : isspace c = true
    · simp [collapse_spaces, h, ih]
    · simp [collapse_spaces, h]

theorem collapse_spaces_eq : ∀ (n : Nat) (s : List Char), s.length ≤ n →
    collapse_spaces s false = collapse_runs s := by
  intro n
  induction n with
  | zero =>
    intro s hs
    have : s = [] := List.length_eq_zero.mp (Nat.le_zero.mp hs)
    subst this
    simp [collapse_spaces, collapse_runs]
  | succ n ih =>
    intro s hs
    cases s with
    | nil => simp [collapse_spaces, collapse_runs]
    | cons c cs =>
      rw [collapse_runs]
      by_cases h : isspace c = true
      · have hl : (cs.dropWhile isspace).length ≤ n := by
          have := (List.dropWhile_sublist (l := cs) isspace).length_le
          simp at hs
          omega
        simp [collapse_spaces, h, collapse_spaces_flag, ih _ hl]
      · have hl : cs.length ≤ n := by simpa using hs
        simp [collapse_spaces, h, ih _ hl]

theorem get_line_cut (str : List Char) :
    get_line str =
      if str.dropWhile isspace = [] then []
      else collapse_spaces (replace_commas
        (((str.dropWhile isspace).takeWhile (fun c => c ≠ '#')).take
          (trim_end_idx ((str.dropWhile isspace).takeWhile (fun c => c ≠ '#'))
            ((str.dropWhile isspace).takeWhile (fun c => c ≠ '#')).length))) false := by
  unfold get_line
  simp only [skip_spaces_eq]
  by_cases he : str.dropWhile isspace = []
  · simp [he]
  · simp only [he, if_false]
    have h := take_strchr (str.dropWhile isspace) '#'
    cases hsc : strchr (str.dropWhile isspace) '#' with
    | none => rw [hsc] at h; simp only at h ⊢; rw [← h]
    | some i => rw [hsc] at h; simp only at h ⊢; rw [← h]

/-- The code of `get_line` computes the four steps of the specification. -/
theorem get_line_normal_form (str : List Char) : get_line str = normalize_spec str := by
  rw [get_line_cut]
  unfold normalize_spec trim_whitespace strip_comment
  rw [dropWhile_takeWhile_hash]
  by_cases he : str.dropWhile isspace = []
  · simp [he, commas_to_spaces, collapse_runs]
  · simp only [he, if_false]
    rw [collapse_spaces_eq _ _ (le_refl _), replace_commas_eq]
    have hhead : ∀ c, ((str.dropWhile isspace).takeWhile (fun c => c ≠ '#')).head? = some c →
        isspace c = false := by
      intro c hc
      cases hd : str.dropWhile isspace with
      | nil => exact absurd hd he
      | cons a t =>
        have ha : isspace a = false := by
          have := List.head?_dropWhile_not isspace str
          rw [hd] at this
          simpa using this
        rw [hd] at hc
        by_cases hh : a = '#'
        · simp [List.takeWhile, hh] at hc
        · simp [List.takeWhile, hh] at hc
          rw [← hc]; exact ha
    rw [take_trim_end_idx _ hhead _ (le_refl _), List.take_length]

theorem collapse_spaces_space_false (a : Char) (t : List Char) (h : isspace a = true) :
    collapse_spaces (a :: t) false = ' ' :: collapse_spaces t true := by
  simp [collapse_spaces, h]

theorem collapse_spaces_space_true (a : Char) (t : List Char) (h : isspace a = true) :
    collapse_spaces (a :: t) true = collapse_spaces t true := by
  simp [collapse_spaces, h]

theorem getLast_cons_of_some (x c : Char) (l : List Char) (h : l.getLast? = some c) :
    (x :: l).getLast? = some c := by
  cases l with
  | nil => simp at h
  | cons y ys => simpa [List.getLast?_cons_cons] using h

theorem collapse_spaces_last (l : List Char) : ∀ (flag : Bool) (c : Char),
    l.getLast? = some c → isspace c = false → (collapse_spaces l flag).getLast? = some c := by
  induction l with
  | nil => intro flag c h; simp at h
  | cons a t ih =>
    intro flag c h hc
    cases t with
    | nil =>
      simp at h
      subst h
      simp [collapse_spaces, hc]
    | cons b r =>
      have h2 : (b :: r).getLast? = some c := by simpa [List.getLast?_cons_cons] using h
      by_cases ha : isspace a = true
      · cases flag with
        | true => rw [collapse_spaces_space_true _ _ ha]; exact ih true c h2 hc
        | false =>
          rw [collapse_spaces_space_false _ _ ha]
          exact getLast_cons_of_some _ _ _ (ih true c h2 hc)
      · rw [collapse_spaces_of_not_space _ _ _ (by simpa using ha)]
        exact getLast_cons_of_some _ _ _ (ih false c h2 hc)

theorem isspace_comma : isspace ',' = false := by decide

theorem trim_whitespace_head (s : List Char) (c : Char)
    (h : (trim_whitespace s).head? = some c) : isspace c = false := by
  unfold trim_whitespace at h
  have hp : (s.dropWhile isspace).rdropWhile isspace <+: s.dropWhile isspace :=
    List.rdropWhile_prefix isspace _
  obtain ⟨r, hr⟩ := hp
  cases ht : (s.dropWhile isspace).rdropWhile isspace with
  | nil => rw [ht] at h; simp at h
  | cons a t =>
    rw [ht] at h hr
    simp at h
    subst h
    have := List.head?_dropWhile_not isspace s
    rw [← hr] at this
    simpa using this

theorem trim_whitespace_last (s : List Char) (c : Char)
    (h : (trim_whitespace s).getLast? = some c) : isspace c = false := by
  unfold trim_whitespace at h
  have hne : (s.dropWhile isspace).rdropWhile isspace ≠ [] := by
    intro h0; rw [h0] at h; simp at h
  have := List.rdropWhile_last_not isspace (s.dropWhile isspace) hne
  rw [List.getLast?_eq_getLast _ hne] at h
  simp at h
  rw [h] at this
  simpa using this

theorem get_line_ends (str : List Char)
    (hfirst : (trim_whitespace (strip_comment str)).head? ≠ some ',')
    (hlast : (trim_whitespace (strip_comment str)).getLast? ≠ some ',') :
    (∀ c, (get_line str).head? = some c → isspace c = false) ∧
    (∀ c, (get_line str).getLast? = some c → isspace c = false) := by
  rw [get_line_normal_form]
  unfold normalize_spec
  generalize ht : trim_whitespace (strip_comment str) = t at hfirst hlast
  have h1 := trim_whitespace_head (strip_comment str)
  have h2 := trim_whitespace_last (strip_comment str)
  rw [ht] at h1 h2
  constructor
  · intro c hc
    cases t with
    | nil => simp [commas_to_spaces, collapse_runs] at hc
    | cons a r =>
      have ha := h1 a rfl
      have hne : a ≠ ',' := by simpa using hfirst
      simp [commas_to_spaces, hne] at hc
      rw [collapse_runs] at hc
      simp [ha] at hc
      rw [← hc]; exact ha
  · intro c hc
    rw [← collapse_spaces_eq _ _ (le_refl _)] at hc
    cases hl : t.getLast? with
    | none =>
      have : t = [] := by simpa using hl
      subst this
      simp [commas_to_spaces, collapse_spaces] at hc
    | some d =>
      have hd := h2 d hl
      have hne : d ≠ ',' := by
        intro h; rw [hl, h] at hlast; exact hlast rfl
      have hm : (commas_to_spaces t).getLast? = some d := by
        unfold commas_to_spaces
        rw [List.getLast?_map, hl]
        simp [hne]
      rw [collapse_spaces_last _ false d hm hd] at hc
      simp at hc
      rw [← hc]; exact hd

/-! ## The first pass: label addresses -/

theorem strchr_none_iff (s : List Char) (ch : Char) : strchr s ch = none ↔ ch ∉ s := by
  induction s with
  | nil => simp [strchr]
  | cons c cs ih =>
    by_cases h : c = ch
    · simp [strchr, h]
    · have h2 : ¬ ch = c := fun e => h e.symm
      simp [strchr, h, h2, ih]

theorem mem_collapse_runs : ∀ (n : Nat) (s : List Char), s.length ≤ n → ∀ c ∈ collapse_runs s,
    c ∈ s ∨ c = ' ' := by
  intro n s hs c hc
  rw [← collapse_spaces_eq n s hs] at hc
  clear hs
  generalize false = flag at hc
  induction s generalizing flag with
  | nil => simp [collapse_spaces] at hc
  | cons a t ih =>
    by_cases ha : isspace a = true
    · cases flag with
      | true =>
        rw [collapse_spaces_space_true _ _ ha] at hc
        rcases ih _ hc with h | h
        · exact Or.inl (List.mem_cons_of_mem _ h)
        · exact Or.inr h
      | false =>
        rw [collapse_spaces_space_false _ _ ha] at hc
        rcases List.mem_cons.mp hc with h | h
        · exact Or.inr h
        · rcases ih _ h with h | h
          · exact Or.inl (List.mem_cons_of_mem _ h)
          · exact Or.inr h
    · rw [collapse_spaces_of_not_space _ _ _ (by simpa using ha)] at hc
      rcases List.mem_cons.mp hc with h | h
      · exact Or.inl (by simp [h])
      · rcases ih _ h with h | h
        · exact Or.inl (List.mem_cons_of_mem _ h)
        · exact Or.inr h

/-- The normalized line holds no `#`. -/
theorem hash_not_mem_get_line (str : List Char) : '#' ∉ get_line str := by
  rw [get_line_normal_form]
  unfold normalize_spec
  intro h
  rcases mem_collapse_runs _ _ (le_refl _) _ h with h | h
  · unfold commas_to_spaces at h
    rw [List.mem_map] at h
    obtain ⟨a, ha, hac⟩ := h
    by_cases hc : a = ','
    · simp [hc] at hac
    · simp [hc] at hac
      subst hac
      unfold trim_whitespace strip_comment at ha
      have h1 := (List.rdropWhile_prefix isspace _).subset ha
      have h2 := List.dropWhile_subset isspace h1
      have h3 := List.mem_takeWhile_imp h2
      simp at h3
  · exact absurd h (by decide)

theorem first_pass_line_spec (line : List Char) (label_list : List Label) (pc : Int) :
    first_pass_line line label_list pc =
      if defines_label line then
        match addLabel (label_symbol line) pc label_list with
        | .error e => .error e
        | .ok label_list1 => .ok (label_list1, pc)
      else if counts_as_instruction line then
        if pc + 1 < 2147483648 then .ok (label_list, pc + 1) else .error AsmError.intOverflow
      else .ok (label_list, pc) := by
  unfold first_pass_line defines_label counts_as_instruction defines_label label_symbol
  dsimp only
  have hh := hash_not_mem_get_line line
  generalize get_line line = s at hh
  cases s with
  | nil => simp [strchr]
  | cons a t =>
    have ha : a ≠ '#' := by
      intro h; apply hh; simp [h]
    have h := take_strchr (a :: t) ':'
    cases hs : strchr (a :: t) ':' with
    | none =>
      have hm := (strchr_none_iff _ _).mp hs
      simp only [List.getD_cons_zero, ha, List.length_cons, Nat.succ_ne_zero, or_self, if_false,
        hm, decide_False, Bool.false_eq_true, ne_eq, reduceCtorEq, not_false_eq_true,
        decide_True, Bool.not_false, Bool.true_and, Bool.not_eq_true']
    | some i =>
      have hm : ':' ∈ a :: t := by
        by_contra hc
        rw [(strchr_none_iff _ _).mpr hc] at hs
        exact Option.noConfusion hs
      rw [hs] at h
      simp only at h
      simp only [List.getD_cons_zero, ha, List.length_cons, Nat.succ_ne_zero, or_self, if_false,
        hm, decide_True, if_true, h]

theorem instruction_count_append (a b : List (List Char)) :
    instruction_count (a ++ b) = instruction_count a + instruction_count b := by
  simp [instruction_count]

theorem instruction_count_singleton (line : List Char) :
    instruction_count [line] = if counts_as_instruction line then 1 else 0 := by
  by_cases h : counts_as_instruction line = true <;> simp [instruction_count, h]

theorem not_counts_of_defines (line : List Char) (h : defines_label line = true) :
    counts_as_instruction line = false := by
  simp [counts_as_instruction, h]

/-- Pass 1 returns, with the label definitions of the source and its number of
instruction lines, when the label table and the label buffers are large enough. -/
theorem first_pass_spec (rest : List (List Char)) :
    ∀ (pre : List (List Char)) (label_list : List Label),
      label_list.length + (rest.filter defines_label).length ≤ MAX_INSTRUCTION_LINES →
      (∀ l ∈ rest, defines_label l = true → (label_symbol l).length < MAX_LINE_LEN) →
      instruction_count (pre ++ rest) < 2147483648 →
      first_pass rest label_list (instruction_count pre : Int) =
        .ok (label_list ++ label_definitions_after pre rest,
          (instruction_count (pre ++ rest) : Int)) := by
  induction rest with
  | nil => intro pre label_list _ _ _; simp [first_pass, label_definitions_after]
  | cons line rest ih =>
    intro pre label_list hlen hsym hpc
    have hpc2 : instruction_count ((pre ++ [line]) ++ rest) < 2147483648 := by
      simpa using hpc
    have hsym2 : ∀ l ∈ rest, defines_label l = true → (label_symbol l).length < MAX_LINE_LEN :=
      fun l hl => hsym l (List.mem_cons_of_mem _ hl)
    have happ : pre ++ line :: rest = (pre ++ [line]) ++ rest := by simp
    rw [first_pass, first_pass_line_spec]
    by_cases hd : defines_label line = true
    · have hlen1 : label_list.length < MAX_INSTRUCTION_LINES := by
        simp [List.filter, hd] at hlen; omega
      have hs := hsym line (List.mem_cons_self _ _) hd
      have hlen2 : (label_list ++ [Label.mk (label_symbol line)
          (instruction_count pre : Int)]).length +
          (rest.filter defines_label).length ≤ MAX_INSTRUCTION_LINES := by
        simp [List.filter, hd] at hlen; simp; omega
      have hc : instruction_count (pre ++ [line]) = instruction_count pre := by
        simp [instruction_count_append, instruction_count_singleton, not_counts_of_defines _ hd]
      have := ih (pre ++ [line]) _ hlen2 hsym2 hpc2
      rw [hc] at this
      simp only [hd, if_true, addLabel, hlen1, hs, label_definitions_after]
      rw [this, happ]
      simp
    · have hlen2 : label_list.length + (rest.filter defines_label).length ≤
          MAX_INSTRUCTION_LINES := by
        simp [List.filter, hd] at hlen; exact hlen
      simp only [hd, label_definitions_after, Bool.false_eq_true, if_false]
      by_cases hi : counts_as_instruction line = true
      · have hc : instruction_count (pre ++ [line]) = instruction_count pre + 1 := by
          simp [instruction_count_append, instruction_count_singleton, hi]
        have hlt : (instruction_count pre : Int) + 1 < 2147483648 := by
          have : instruction_count pre + 1 ≤ instruction_count ((pre ++ [line]) ++ rest) := by
            rw [instruction_count_append, hc]; omega
          omega
        have := ih (pre ++ [line]) label_list hlen2 hsym2 hpc2
        rw [hc] at this
        push_cast at this
        simp only [hi, if_true, hlt]
        rw [this, happ]
      · have hc : instruction_count (pre ++ [line]) = instruction_count pre := by
          simp [instruction_count_append, instruction_count_singleton, hi]
        have := ih (pre ++ [line]) label_list hlen2 hsym2 hpc2
        rw [hc] at this
        simp only [hi, Bool.false_eq_true, if_false]
        rw [this, happ]

theorem label_definitions_after_append (a : List (List Char)) :
    ∀ (pre b : List (List Char)),
      label_definitions_after pre (a ++ b) =
        label_definitions_after pre a ++ label_definitions_after (pre ++ a) b := by
  induction a with
  | nil => intro pre b; simp [label_definitions_after]
  | cons x a ih =>
    intro pre b
    have h := ih (pre ++ [x]) b
    simp only [List.append_assoc, List.singleton_append] at h
    by_cases hd : defines_label x = true
    · simp [label_definitions_after, hd, h]
    · simp [label_definitions_after, hd, h]

theorem label_of_definition (a : List (List Char)) :
    ∀ (pre : List (List Char)) (e : Label), e ∈ label_definitions_after pre a →
      ∃ l ∈ a, defines_label l = true ∧ e.label = label_symbol l := by
  induction a with
  | nil => intro pre e h; simp [label_definitions_after] at h
  | cons x a ih =>
    intro pre e h
    by_cases hd : defines_label x = true
    · simp only [label_definitions_after, hd, if_true, List.mem_cons] at h
      rcases h with h | h
      · exact ⟨x, List.mem_cons_self _ _, hd, by rw [h]⟩
      · obtain ⟨l, hl, h1, h2⟩ := ih _ e h
        exact ⟨l, List.mem_cons_of_mem _ hl, h1, h2⟩
    · simp only [label_definitions_after, hd, Bool.false_eq_true, if_false] at h
      obtain ⟨l, hl, h1, h2⟩ := ih _ e h
      exact ⟨l, List.mem_cons_of_mem _ hl, h1, h2⟩

theorem get_label_address_append (l1 l2 : List Label) (t : List Char)
    (h : ∀ e ∈ l1, e.label ≠ t) :
    get_label_address (l1 ++ l2) t = get_label_address l2 t := by
  induction l1 with
  | nil => rfl
  | cons e l1 ih =>
    have he := h e (List.mem_cons_self _ _)
    simp only [List.cons_append, get_label_address, he, if_false]
    exact ih (fun e2 h2 => h e2 (List.mem_cons_of_mem _ h2))

/-- A symbol resolves to the address of its first definition, whatever follows. -/
theorem first_definition_wins (pre post : List (List Char)) (line : List Char)
    (hdef : defines_label line = true)
    (hfirst : ∀ l ∈ pre, defines_label l = true → label_symbol l ≠ label_symbol line) :
    get_label_address (label_definitions (pre ++ line :: post)) (label_symbol line) =
      .ok (instruction_count pre : Int) := by
  unfold label_definitions
  rw [label_definitions_after_append, get_label_address_append]
  · simp [label_definitions_after, hdef, get_label_address]
  · intro e he
    obtain ⟨l, hl, h1, h2⟩ := label_of_definition _ _ e he
    rw [h2]
    exact hfirst l hl h1

/-! ## Registers, immediates and `.word` directives -/

theorem eq_of_getD_drop (s : List Char) (x : Char) (t : List Char) (hx : x ≠ NUL)
    (h0 : s.getD 0 NUL = '$') (h1 : s.getD 1 NUL = x) (h2 : s.drop 2 = t) :
    s = '$' :: x :: t := by
  cases s with
  | nil => exact absurd h0 (by decide)
  | cons a r =>
    cases r with
    | nil => simp at h1; exact absurd h1.symm hx
    | cons b q =>
      simp at h0 h1 h2
      subst h0 h1 h2
      rfl

theorem get_reg_code_of_not_mem (reg_str : List Char) (h : reg_str ∉ register_names) :
    get_reg_code reg_str = .error AsmError.invalidRegister := by
  simp only [register_names, List.mem_cons, List.mem_nil_iff, or_false, not_or] at h
  obtain ⟨h0, h1, h2, h3, h4, h5, h6, h7, h8, h9, h10, h11, h12, h13, h14, h15⟩ := h
  have ha : ∀ t, reg_str.getD 0 NUL = '$' → reg_str.getD 1 NUL = 'a' → reg_str.drop 2 = t →
      reg_str = '$' :: 'a' :: t := fun t => eq_of_getD_drop _ _ _ (by decide)
  have ht : ∀ t, reg_str.getD 0 NUL = '$' → reg_str.getD 1 NUL = 't' → reg_str.drop 2 = t →
      reg_str = '$' :: 't' :: t := fun t => eq_of_getD_drop _ _ _ (by decide)
  have hs : ∀ t, reg_str.getD 0 NUL = '$' → reg_str.getD 1 NUL = 's' → reg_str.drop 2 = t →
      reg_str = '$' :: 's' :: t := fun t => eq_of_getD_drop _ _ _ (by decide)
  unfold get_reg_code
  simp only [h0, h1, h2, h3, h13, h14, h15, if_false]
  by_cases c0 : reg_str.getD 0 NUL = '$'
  · by_cases ca : reg_str.getD 1 NUL = 'a'
    · have e0 : ¬ reg_str.drop 2 = "0".toList := fun e => h4 (ha _ c0 ca e)
      have e1 : ¬ reg_str.drop 2 = "1".toList := fun e => h5 (ha _ c0 ca e)
      have e2 : ¬ reg_str.drop 2 = "2".toList := fun e => h6 (ha _ c0 ca e)
      simp only [c0, ca, e0, e1, e2, or_self, if_true, if_false]
      simp
    · by_cases ct : reg_str.getD 1 NUL = 't'
      · have e0 : ¬ reg_str.drop 2 = "0".toList := fun e => h7 (ht _ c0 ct e)
        have e1 : ¬ reg_str.drop 2 = "1".toList := fun e => h8 (ht _ c0 ct e)
        have e2 : ¬ reg_str.drop 2 = "2".toList := fun e => h9 (ht _ c0 ct e)
        simp only [c0, ca, ct, e0, e1, e2, or_self, if_true, if_false]
        simp
      · by_cases cs : reg_str.getD 1 NUL = 's'
        · have e0 : ¬ reg_str.drop 2 = "0".toList := fun e => h10 (hs _ c0 cs e)
          have e1 : ¬ reg_str.drop 2 = "1".toList := fun e => h11 (hs _ c0 cs e)
          have e2 : ¬ reg_str.drop 2 = "2".toList := fun e => h12 (hs _ c0 cs e)
          simp only [c0, ca, ct, cs, e0, e1, e2, or_self, if_true, if_false]
          simp
        · simp only [c0, ca, ct, cs, if_true, if_false]
          simp
  · simp only [c0, if_false]
    simp

theorem get_reg_code_spec (reg_str : List Char) :
    get_reg_code reg_str =
      if reg_str ∈ register_names then .ok (register_names.indexOf reg_str : Int)
      else .error AsmError.invalidRegister := by
  by_cases h : reg_str ∈ register_names
  · rw [if_pos h]
    simp only [register_names, List.mem_cons, List.mem_nil_iff, or_false] at h
    rcases h with h | h | h | h | h | h | h | h | h | h | h | h | h | h | h | h <;> subst h <;> rfl
  · rw [if_neg h]
    exact get_reg_code_of_not_mem reg_str h

theorem get_label_address_error_iff (label_list : List Label) (t : List Char) :
    get_label_address label_list t = .error AsmError.undefinedLabel ↔
      ∀ e ∈ label_list, e.label ≠ t := by
  induction label_list with
  | nil => simp [get_label_address]
  | cons e l ih =>
    by_cases h : e.label = t
    · simp [get_label_address, h]
    · simp [get_label_address, h, ih]

theorem second_pass_line_word (label_list : List Label) (line : List Char) (st : SecondPass)
    (hne : get_line line ≠ []) (hcolon : ':' ∉ get_line line)
    (hword : is_word_directive (get_line line) = true) :
    second_pass_line label_list line st =
      match scan_word (get_line line) with
      | .error e => .error e
      | .ok (wordAddress, wordData) =>
        match place_word wordAddress wordData st.data_list st.max_memory_address with
        | .error e => .error e
        | .ok (data_list1, max1) =>
          .ok { st with data_list := data_list1, max_memory_address := max1 } := by
  unfold second_pass_line
  dsimp only
  have hh := hash_not_mem_get_line line
  have hs := (strchr_none_iff _ _).mpr hcolon
  generalize get_line line = s at hh hne hs hword
  cases s with
  | nil => exact absurd rfl hne
  | cons a t =>
    have ha : a ≠ '#' := by
      intro h; apply hh; simp [h]
    simp only [List.getD_cons_zero, ha, List.length_cons, Nat.succ_ne_zero, or_self, if_false,
      hs, hword, if_true]

/-- Placing the word of a `.word` directive at an address in 0..4095. -/
theorem word_placement_spec (label_list : List Label) (line : List Char) (st : SecondPass)
    (A : Int) (V : Nat)
    (hne : get_line line ≠ []) (hcolon : ':' ∉ get_line line)
    (hword : is_word_directive (get_line line) = true)
    (hscan : scan_word (get_line line) = .ok (A, V))
    (hA : 0 ≤ A ∧ A ≤ 4095) :
    ((∃ e, second_pass_line label_list line st = .error e) ↔ st.data_list A.toNat ≠ 0) ∧
    (st.data_list A.toNat ≠ 0 →
      second_pass_line label_list line st = .error AsmError.addressDefined) ∧
    (st.data_list A.toNat = 0 →
      ∃ st1, second_pass_line label_list line st = .ok st1 ∧
        st1.data_list A.toNat = V ∧ (∀ j, j ≠ A.toNat → st1.data_list j = st.data_list j) ∧
        st1.max_memory_address = max st.max_memory_address A ∧
        st1.instructions = st.instructions ∧ st1.pc = st.pc) := by
  have hr : 0 ≤ A ∧ A < (MAX_INSTRUCTION_LINES : Int) := by
    simp only [MAX_INSTRUCTION_LINES]; omega
  rw [second_pass_line_word _ _ _ hne hcolon hword, hscan]
  simp only [place_word, hr, and_self, if_true]
  by_cases h0 : st.data_list A.toNat = 0
  · simp only [h0, ne_eq, not_true_eq_false, if_false]
    refine ⟨by simp, by simp, fun _ => ⟨_, rfl, ?_, ?_, ?_, rfl, rfl⟩⟩
    · simp [upd]
    · intro j hj; simp [upd, hj]
    · by_cases hm : A > st.max_memory_address
      · simp [hm]; omega
      · simp [hm]; omega
  · simp [h0]

/-! ## The data image -/

theorem second_pass_line_other (label_list : List Label) (line : List Char) (st st1 : SecondPass)
    (hw : is_word_line line = false)
    (h : second_pass_line label_list line st = .ok st1) :
    st1.data_list = st.data_list ∧ st1.max_memory_address = st.max_memory_address := by
  unfold second_pass_line at h
  dsimp only at h
  unfold is_word_line defines_label at hw
  by_cases h1 : (get_line line).getD 0 NUL = '#' ∨ (get_line line).length = 0
  · simp only [h1, if_true] at h
    cases h; exact ⟨rfl, rfl⟩
  · simp only [h1, if_false] at h
    cases hs : strchr (get_line line) ':' with
    | some i => rw [hs] at h; cases h; exact ⟨rfl, rfl⟩
    | none =>
      rw [hs] at h
      have hcolon := (strchr_none_iff _ _).mp hs
      have hne : get_line line ≠ [] := by
        intro he; apply h1; right; simp [he]
      simp [hne, hcolon] at hw
      simp only [hw, Bool.false_eq_true, if_false] at h
      cases he : encode_line label_list (get_line line) with
      | error e => rw [he] at h; cases h
      | ok w =>
        rw [he] at h
        by_cases hp : st.pc + 1 < 2147483648
        · simp only [hp, if_true] at h
          cases h; exact ⟨rfl, rfl⟩
        · simp only [hp, if_false] at h
          cases h

theorem second_pass_line_placed (label_list : List Label) (line : List Char) (st st1 : SecondPass)
    (hw : is_word_line line = true)
    (h : second_pass_line label_list line st = .ok st1) :
    ∃ w, scan_word (get_line line) = .ok w ∧ 0 ≤ w.1 ∧
      st1.data_list = upd st.data_list w.1.toNat w.2 ∧
      st1.max_memory_address = max st.max_memory_address w.1 := by
  unfold is_word_line defines_label at hw
  simp only [Bool.and_eq_true, decide_eq_true_eq, Bool.not_eq_true', decide_eq_false_iff_not] at hw
  obtain ⟨⟨hne, hcolon⟩, hword⟩ := hw
  rw [second_pass_line_word _ _ _ hne hcolon hword] at h
  cases hs : scan_word (get_line line) with
  | error e => rw [hs] at h; cases h
  | ok w =>
    obtain ⟨A, V⟩ := w
    rw [hs] at h
    simp only [place_word] at h
    by_cases hr : 0 ≤ A ∧ A < (MAX_INSTRUCTION_LINES : Int)
    · rw [if_pos hr] at h
      by_cases h0 : st.data_list A.toNat ≠ 0
      · rw [if_pos h0] at h
        cases h
      · rw [if_neg h0] at h
        cases h
        refine ⟨(A, V), rfl, hr.1, rfl, ?_⟩
        by_cases hm : A > st.max_memory_address
        · simp [hm]; omega
        · simp [hm]; omega
    · rw [if_neg hr] at h
      cases h

theorem second_pass_data (label_list : List Label) (lines : List (List Char)) :
    ∀ (st st1 : SecondPass), second_pass label_list lines st = .ok st1 →
      st1.data_list = (word_directives lines).foldl (fun d w => upd d w.1.toNat w.2) st.data_list ∧
      st1.max_memory_address =
        (word_directives lines).foldl (fun m w => max m w.1) st.max_memory_address := by
  induction lines with
  | nil => intro st st1 h; simp [second_pass] at h; subst h; simp [word_directives]
  | cons line rest ih =>
    intro st st1 h
    rw [second_pass] at h
    cases hl : second_pass_line label_list line st with
    | error e => rw [hl] at h; cases h
    | ok st2 =>
      rw [hl] at h
      simp only at h
      obtain ⟨h1, h2⟩ := ih st2 st1 h
      by_cases hw : is_word_line line = true
      · obtain ⟨w, hs, _, hd, hm⟩ := second_pass_line_placed _ _ _ _ hw hl
        have hwd : word_directives (line :: rest) = w :: word_directives rest := by
          simp [word_directives, List.filterMap_cons, hw, hs]
        rw [hwd, List.foldl_cons, List.foldl_cons, ← hd, ← hm]
        exact ⟨h1, h2⟩
      · have hw2 : is_word_line line = false := by simpa using hw
        obtain ⟨hd, hm⟩ := second_pass_line_other _ _ _ _ hw2 hl
        have hwd : word_directives (line :: rest) = word_directives rest := by
          simp [word_directives, List.filterMap_cons, hw2]
        rw [hwd, ← hd, ← hm]
        exact ⟨h1, h2⟩

theorem foldl_max_nonneg (ws : List (Int × Nat)) : ∀ (m : Int), 0 ≤ m →
    0 ≤ ws.foldl (fun m w => max m w.1) m := by
  induction ws with
  | nil => intro m hm; exact hm
  | cons w ws ih =>
    intro m hm
    rw [List.foldl_cons]
    exact ih _ (le_trans hm (le_max_left _ _))

/-- The data image of a source that assembles. -/
theorem data_image_spec (lines : List (List Char)) (instructions data : List Nat)
    (h : assemble lines = .ok (instructions, data)) :
    data = (List.range ((highest_word_address lines).toNat + 1)).map (placed_words lines) := by
  unfold assemble at h
  split at h
  · cases h
  · split at h
    · cases h
    · rename_i label_list pc hf st hs
      obtain ⟨h1, h2⟩ := second_pass_data _ _ _ _ hs
      cases h
      unfold data_image highest_word_address placed_words
      rw [h1, h2]
      have hn := foldl_max_nonneg (word_directives lines) 0 (le_refl _)
      simp only [SecondPass.init]
      congr 2
      omega

/-! ## The monitor dump and the IRQ2 feed -/

theorem monitor_max_loop_zero (monitor_buffer : Nat → Nat) (n : Nat) :
    ∀ (i max : Nat), (∀ j, i ≤ j → j < i + n → monitor_buffer j = 0) →
      monitor_max_loop monitor_buffer n i max = max := by
  induction n with
  | zero => intro i max _; rfl
  | succ n ih =>
    intro i max h
    have h0 : monitor_buffer i = 0 := h i (le_refl _) (by omega)
    rw [monitor_max_loop]
    simp only [h0, ne_eq, not_true_eq_false, if_false]
    exact ih (i + 1) max (fun j h1 h2 => h j (by omega) (by omega))

theorem monitor_max_loop_highest (monitor_buffer : Nat → Nat) (m : Nat)
    (hm : monitor_buffer m ≠ 0) (n : Nat) :
    ∀ (i max : Nat), i ≤ m → m < i + n → (∀ j, m < j → j < i + n → monitor_buffer j = 0) →
      monitor_max_loop monitor_buffer n i max = m := by
  induction n with
  | zero => intro i max h1 h2; omega
  | succ n ih =>
    intro i max h1 h2 h
    rw [monitor_max_loop]
    by_cases he : i = m
    · subst he
      simp only [hm, ne_eq, not_false_eq_true, if_true]
      exact monitor_max_loop_zero _ _ _ _ (fun j h3 h4 => h j (by omega) (by omega))
    · exact ih (i + 1) _ (by omega) (by omega) (fun j h3 h4 => h j h3 (by omega))

/-- The text lines of the monitor dump when the highest non-zero cell is not cell 0. -/
theorem monitor_text_highest (monitor_buffer : Nat → Nat) (m : Nat) (hm : monitor_buffer m ≠ 0)
    (hlt : m < MONITOR_SIZE) (hz : ∀ j, m < j → j < MONITOR_SIZE → monitor_buffer j = 0)
    (h0 : m ≠ 0) :
    (write_monitor_data monitor_buffer).1 =
      (List.range (m + 1)).map (fun i => monitor_buffer i % 256) := by
  unfold write_monitor_data
  rw [monitor_max_loop_highest monitor_buffer m hm MONITOR_SIZE 0 0 (Nat.zero_le _) (by omega)
    (fun j h1 h2 => hz j h1 (by omega))]
  simp [h0]

/-- The text lines of the monitor dump when no cell above cell 0 is non-zero. -/
theorem monitor_text_low (monitor_buffer : Nat → Nat)
    (hz : ∀ j, 0 < j → j < MONITOR_SIZE → monitor_buffer j = 0) :
    (write_monitor_data monitor_buffer).1 = [] := by
  unfold write_monitor_data
  by_cases h0 : monitor_buffer 0 = 0
  · rw [monitor_max_loop_zero monitor_buffer MONITOR_SIZE 0 0 (fun j h1 h2 => by
      by_cases hj : j = 0
      · rw [hj]; exact h0
      · exact hz j (by omega) (by omega))]
    simp
  · rw [monitor_max_loop_highest monitor_buffer 0 h0 MONITOR_SIZE 0 0 (le_refl _)
      (by simp [MONITOR_SIZE]) (fun j h1 h2 => hz j h1 (by omega))]
    simp

/-! ## The assembler and the dumps: the claims -/

/-- The scheduled IRQ2 event: the feed fires exactly on the scheduled cycle. -/
theorem irq2_feed_scheduled (s : Machine) (h0 : 0 ≤ s.irq2_next_cycle)
    (h1 : s.irq2_next_cycle < 4294967296) :
    (s.irq2_next_cycle = (s.io_registers CLOCK_CYCLE : Int) →
      irq2_feed s = { s with irq2_next_cycle := read_next_irq s.irq2_file.head?,
                             irq2_file := s.irq2_file.tail,
                             io_registers := upd s.io_registers IRQ2_STATUS 1 }) ∧
    (s.irq2_next_cycle ≠ (s.io_registers CLOCK_CYCLE : Int) → irq2_feed s = s) := by
  have ht : ((toU32 s.irq2_next_cycle : Nat) : Int) = s.irq2_next_cycle := by
    unfold toU32
    rw [Int.toNat_of_nonneg (Int.emod_nonneg _ (by decide)), Int.emod_eq_of_lt h0 h1]
  constructor
  · intro h
    have : toU32 s.irq2_next_cycle = s.io_registers CLOCK_CYCLE := by
      rw [h] at ht ⊢; exact_mod_cast ht
    simp [irq2_feed, this]
  · intro h
    have : toU32 s.irq2_next_cycle ≠ s.io_registers CLOCK_CYCLE := by
      intro e; rw [e] at ht; exact h ht.symm
    simp [irq2_feed, this]

/-- C21 (code evaluated at the failing input): with an empty IRQ2 file the schedule
is exhausted from the start (`irq2_next_cycle = -1`). The program writes `0xFFFFFFFE`
to `clks` in its first iteration, which ends with `clks = 0xFFFFFFFF`, the schedule
still exhausted and `irq2status = 0`; the feed step at the head of the second
iteration compares the `int` -1 with the `uint32_t` clock as unsigned numbers and
sets `irq2status` to 1. -/
theorem irq2_feed_fires_after_end_of_file :
    state_clock_write.irq2_file = [] ∧ state_clock_write.irq2_next_cycle = -1 ∧
    loop_iteration state_clock_write = .ok (after_iteration state_clock_write) ∧
    (after_iteration state_clock_write).irq2_file = [] ∧
    (after_iteration state_clock_write).irq2_next_cycle = -1 ∧
    (after_iteration state_clock_write).io_registers CLOCK_CYCLE = 0xFFFFFFFF ∧
    (after_iteration state_clock_write).io_registers IRQ2_STATUS = 0 ∧
    (irq2_feed (after_iteration state_clock_write)).io_registers IRQ2_STATUS = 1 :=
  ⟨by decide, by decide, rfl, by decide, by decide, by decide, by decide, by decide⟩

/-- C22 (counterexample): in the source `L: add $t0, $zero, $imm1, $zero, 5, 0` /
`M:` the first line does not end with `:` and so counts as one instruction in the
narrow sense, which would give `M` the address 1; pass 1 records `L` at 0 and `M`
at 0 and counts no instruction. -/
theorem label_addresses_counterexample :
    ends_with_colon (program_inline_label.getD 0 []) = false ∧
    ((program_inline_label.take 1).filter counts_as_instruction_narrow).length = 1 ∧
    first_pass program_inline_label [] 0 =
      .ok ([{ label := "L".toList, address := 0 }, { label := "M".toList, address := 0 }], 0) :=
  ⟨by decide, by decide, rfl⟩

/-- C22 (amended): a line defines a label when its normalized form holds a `:`
anywhere, the symbol being the text before the first `:`; every other line whose
normalized form is not empty and does not begin with `.word` counts as one
instruction. For every source with at most 4100 label lines, symbols shorter than 256
characters and fewer than 2^31 instruction lines, pass 1 returns, the label table
holds one entry per label line in source order, the address of each entry is the
number of instruction lines before that line, and `pc` ends as the number of
instruction lines of the source. -/
theorem label_addresses_amended (lines : List (List Char))
    (hlabels : (lines.filter defines_label).length ≤ MAX_INSTRUCTION_LINES)
    (hsym : ∀ l ∈ lines, defines_label l = true → (label_symbol l).length < MAX_LINE_LEN)
    (hpc : instruction_count lines < 2147483648) :
    first_pass lines [] 0 = .ok (label_definitions lines, (instruction_count lines : Int)) := by
  have h := first_pass_spec lines [] [] (by simpa using hlabels) hsym (by simpa using hpc)
  simpa [label_definitions, instruction_count] using h

theorem label_addresses_amended_witness :
    first_pass program_loop [] 0 =
      .ok ([{ label := "loop".toList, address := 1 }, { label := "loop".toList, address := 4 }],
        4) :=
  (label_addresses_amended program_loop (by decide) (by decide) (by decide)).trans rfl

/-- C23 (counterexample): the source `L:` / `L:` / `halt $zero, $zero, $zero, $zero,
0, 0` defines `L` twice and assembles: the instruction image is the one word
`150000000000`. -/
theorem duplicate_labels_counterexample :
    defines_label (program_duplicate_label.getD 0 []) = true ∧
    defines_label (program_duplicate_label.getD 1 []) = true ∧
    label_symbol (program_duplicate_label.getD 0 []) =
      label_symbol (program_duplicate_label.getD 1 []) ∧
    assemble program_duplicate_label = .ok ([0x150000000000], [0]) :=
  ⟨by decide, by decide, by decide, rfl⟩

/-- C23 (amended): a duplicate definition is not diagnosed. For every source (with
at most 4100 label lines, symbols shorter than 256 characters and fewer than 2^31
instruction lines) and every label line in it that is the first to define its symbol,
pass 1 returns and a reference to the symbol resolves to the address of that first
definition, whatever the later lines define. -/
theorem duplicate_labels_amended (pre post : List (List Char)) (line : List Char)
    (hlabels : ((pre ++ line :: post).filter defines_label).length ≤ MAX_INSTRUCTION_LINES)
    (hsym : ∀ l ∈ pre ++ line :: post, defines_label l = true →
      (label_symbol l).length < MAX_LINE_LEN)
    (hpc : instruction_count (pre ++ line :: post) < 2147483648)
    (hdef : defines_label line = true)
    (hfirst : ∀ l ∈ pre, defines_label l = true → label_symbol l ≠ label_symbol line) :
    ∃ label_list pc, first_pass (pre ++ line :: post) [] 0 = .ok (label_list, pc) ∧
      get_label_address label_list (label_symbol line) = .ok (instruction_count pre : Int) := by
  have h := first_pass_spec (pre ++ line :: post) [] [] (by simpa using hlabels) hsym
    (by simpa using hpc)
  refine ⟨_, _, h, ?_⟩
  rw [List.nil_append]
  exact first_definition_wins pre post line hdef hfirst

theorem duplicate_labels_amended_witness :
    ∃ label_list pc, first_pass program_loop [] 0 = .ok (label_list, pc) ∧
      get_label_address label_list "loop".toList = .ok 1 :=
  duplicate_labels_amended ["add $t0, $zero, $imm1, $zero, 3, 0\n".toList] 
    ["sub $t0, $t0, $imm1, $zero, 1, 0\n".toList,
     "bne $zero, $t0, $zero, $imm1, loop, 0\n".toList,
     "halt $zero, $zero, $zero, $zero, 0, 0\n".toList,
     "loop:\n".toList] "loop:\n".toList (by decide) (by decide) (by decide) (by decide) (by decide)

/-- C24 (code evaluated at the failing input): `isNumber` accepts the lone `-`, so
`get_immidiate_value` converts it with `atoi` and returns 0 for every label table,
the empty one included, instead of looking the symbol `-` up. -/
theorem immediate_lone_minus (label_list : List Label) :
    isNumber "-".toList = true ∧
    get_immidiate_value label_list "-".toList = .ok 0 ∧
    get_label_address [] "-".toList = .error AsmError.undefinedLabel :=
  ⟨rfl, rfl, rfl⟩

/-- C25: `get_reg_code` returns `i` for the `i`-th of the sixteen canonical names and
fails with "Invalid register" for every other string. -/
theorem register_names_exact (reg_str : List Char) :
    register_names.map get_reg_code = (List.range 16).map (fun i => Except.ok (i : Int)) ∧
    get_reg_code reg_str =
      if reg_str ∈ register_names then .ok (register_names.indexOf reg_str : Int)
      else .error AsmError.invalidRegister :=
  ⟨rfl, get_reg_code_spec reg_str⟩

/-- C26: a line whose normalized form is a `.word` directive naming the address `A`
in 0..4095 and the value `V` makes the second pass fail exactly when `data[A]` holds
a non-zero value, with "Memory address already defined"; otherwise the pass goes on
with `data[A] = V`, every other data word unchanged, the highest used address the
maximum of the previous one and `A`, and nothing emitted. -/
theorem word_placement (label_list : List Label) (line : List Char) (st : SecondPass)
    (A : Int) (V : Nat)
    (hline : is_word_line line = true)
    (hscan : scan_word (get_line line) = .ok (A, V))
    (hA : 0 ≤ A ∧ A ≤ 4095) :
    V < 4294967296 ∧
    ((∃ e, second_pass_line label_list line st = .error e) ↔ st.data_list A.toNat ≠ 0) ∧
    (st.data_list A.toNat ≠ 0 →
      second_pass_line label_list line st = .error AsmError.addressDefined) ∧
    (st.data_list A.toNat = 0 →
      ∃ st1, second_pass_line label_list line st = .ok st1 ∧
        st1.data_list A.toNat = V ∧ (∀ j, j ≠ A.toNat → st1.data_list j = st.data_list j) ∧
        st1.max_memory_address = max st.max_memory_address A ∧
        st1.instructions = st.instructions ∧ st1.pc = st.pc) := by
  unfold is_word_line defines_label at hline
  simp only [Bool.and_eq_true, decide_eq_true_eq, Bool.not_eq_true', decide_eq_false_iff_not]
    at hline
  obtain ⟨⟨hne, hcolon⟩, hword⟩ := hline
  refine ⟨?_, word_placement_spec label_list line st A V hne hcolon hword hscan hA⟩
  unfold scan_word at hscan
  split_ifs at hscan
  split at hscan
  · cases hscan
  · split at hscan
    · cases hscan
    · split_ifs at hscan
      cases hscan
      exact toU32_lt _

theorem word_placement_witness :
    ∃ st1, second_pass_line [] ".word 0x10 0xDEADBEEF\n".toList SecondPass.init = .ok st1 ∧
      st1.data_list 16 = 0xDEADBEEF ∧ st1.max_memory_address = 16 :=
  ((word_placement [] ".word 0x10 0xDEADBEEF\n".toList SecondPass.init 16 0xDEADBEEF
    (by decide) rfl (by decide)).2.2.2 rfl).elim
    fun st1 h => ⟨st1, h.1, h.2.1, h.2.2.2.1.trans (by decide)⟩

/-- C27 (counterexample): the source with the one line `halt $zero, $zero, $zero,
$zero, 0, 0` holds no `.word` directive and assembles; the data image has one line,
the word 0. -/
theorem data_image_extent_counterexample :
    word_directives program_halt = [] ∧
    assemble program_halt = .ok ([0x150000000000], [0]) :=
  ⟨by decide, rfl⟩

/-- C27 (amended): for every source that assembles, the data image has exactly H+1
lines, where H is the highest address named by a `.word` directive and 0 when the
source holds none, and line `i` is the data word at address `i`: the value the
directives place there, 0 where they place none. -/
theorem data_image_extent_amended (lines : List (List Char)) (instructions data : List Nat)
    (h : assemble lines = .ok (instructions, data)) :
    0 ≤ highest_word_address lines ∧
    data.length = (highest_word_address lines).toNat + 1 ∧
    data = (List.range ((highest_word_address lines).toNat + 1)).map (placed_words lines) := by
  have hd := data_image_spec lines instructions data h
  refine ⟨foldl_max_nonneg _ 0 (le_refl _), ?_, hd⟩
  rw [hd]
  simp

theorem data_image_extent_amended_witness :
    highest_word_address program_word = 16 ∧
    assemble program_word = .ok ([], [0, 0, 0, 0, 0, 0, 0, 0, 0, 0, 0, 0, 0, 0, 0, 0, 0xDEADBEEF]) ∧
    [0, 0, 0, 0, 0, 0, 0, 0, 0, 0, 0, 0, 0, 0, 0, 0, 0xDEADBEEF] =
      (List.range ((highest_word_address program_word).toNat + 1)).map
        (placed_words program_word) :=
  ⟨by decide, rfl,
    (data_image_extent_amended program_word []
      [0, 0, 0, 0, 0, 0, 0, 0, 0, 0, 0, 0, 0, 0, 0, 0, 0xDEADBEEF] rfl).2.2⟩

/-- C28 (code evaluated at the failing input): with the pixel `0xAB` at index 0 and
every other cell zero, the highest non-zero index is 0, the test `max != 0` fails and
no text line is written, although one line `AB` is due. With the pixel at index
32896 instead, 32897 lines are written and the last is `AB`. -/
theorem monitor_text_pixel_zero :
    (write_monitor_data (upd (fun _ => 0) 0 0xAB)).1 = [] ∧
    (write_monitor_data (upd (fun _ => 0) 32896 0xAB)).1.length = 32897 ∧
    (write_monitor_data (upd (fun _ => 0) 32896 0xAB)).1.getLast? = some 0xAB := by
  have h1 : (write_monitor_data (upd (fun _ => 0) 0 0xAB)).1 = [] :=
    monitor_text_low _ (fun j h1 _ => by simp [upd]; omega)
  have h2 := monitor_text_highest (upd (fun _ => 0) 32896 0xAB) 32896 (by simp [upd])
    (by simp [MONITOR_SIZE]) (fun j h1 _ => by simp [upd]; omega) (by decide)
  refine ⟨h1, ?_, ?_⟩
  · rw [h2]; simp
  · rw [h2, List.range_succ, List.map_append]
    simp [upd]

/-- C29: for every input line, `get_line` returns the line with everything from the
first `#` onward removed, then trimmed of leading and trailing white space, then with
every `,` replaced by a space, then with every maximal run of white space replaced by
a single space. -/
theorem normalizer_refines_specification (str : List Char) :
    get_line str = normalize_spec str :=
  get_line_normal_form str

/-- C30 (counterexample): the line `halt $zero, $zero, $zero, $zero, 0, 0,` ends with
a comma; its normalized form ends with a space. -/
theorem normalized_line_counterexample :
    get_line line_trailing_comma = "halt $zero $zero $zero $zero 0 0 ".toList ∧
    (get_line line_trailing_comma).getLast? = some ' ' ∧ isspace ' ' = true ∧
    (get_line ", add".toList).head? = some ' ' :=
  ⟨by decide, by decide, by decide, by decide⟩

/-- C30 (amended): for every input line whose text before the first `#`, once
trimmed of leading and trailing white space, neither begins nor ends with a comma,
the string returned by `get_line` neither begins nor ends with a white-space
character. -/
theorem normalized_line_amended (str : List Char)
    (hfirst : (trim_whitespace (strip_comment str)).head? ≠ some ',')
    (hlast : (trim_whitespace (strip_comment str)).getLast? ≠ some ',') :
    (∀ c, (get_line str).head? = some c → isspace c = false) ∧
    (∀ c, (get_line str).getLast? = some c → isspace c = false) :=
  get_line_ends str hfirst hlast

theorem normalized_line_amended_witness :
    get_line line_add = "add $t0 $zero $imm1 $zero 5 0".toList ∧
    (∀ c, (get_line line_add).head? = some c → isspace c = false) ∧
    (∀ c, (get_line line_add).getLast? = some c → isspace c = false) :=
  ⟨by decide, normalized_line_amended line_add (by decide) (by decide)⟩

/-! ## The two passes of the assembler -/

theorem first_pass_result (rest : List (List Char)) :
    ∀ (pre : List (List Char)) (label_list result : List Label) (pc : Int),
      first_pass rest label_list (instruction_count pre : Int) = .ok (result, pc) →
      result = label_list ++ label_definitions_after pre rest ∧
        pc = (instruction_count (pre ++ rest) : Int) := by
  induction rest with
  | nil =>
    intro pre label_list result pc h
    simp only [first_pass, Except.ok.injEq, Prod.mk.injEq] at h
    simp [label_definitions_after, h.1, h.2]
  | cons line rest ih =>
    intro pre label_list result pc h
    have happ : pre ++ line :: rest = (pre ++ [line]) ++ rest := by simp
    rw [first_pass, first_pass_line_spec] at h
    by_cases hd : defines_label line = true
    · have hc : instruction_count (pre ++ [line]) = instruction_count pre := by
        simp [instruction_count_append, instruction_count_singleton, not_counts_of_defines _ hd]
      simp only [hd, if_true, addLabel] at h
      by_cases hl : label_list.length < MAX_INSTRUCTION_LINES
      · by_cases hs : (label_symbol line).length < MAX_LINE_LEN
        · simp only [hl, hs, if_true] at h
          rw [← hc] at h
          obtain ⟨e1, e2⟩ := ih _ _ _ _ h
          rw [happ]
          refine ⟨?_, e2⟩
          rw [e1, hc]
          simp [label_definitions_after, hd]
        · simp only [hl, hs, if_true, if_false] at h
          cases h
      · simp only [hl, if_false] at h
        cases h
    · simp only [hd, Bool.false_eq_true, if_false] at h
      by_cases hi : counts_as_instruction line = true
      · have hc : instruction_count (pre ++ [line]) = instruction_count pre + 1 := by
          simp [instruction_count_append, instruction_count_singleton, hi]
        simp only [hi, if_true] at h
        by_cases hp : (instruction_count pre : Int) + 1 < 2147483648
        · simp only [hp, if_true] at h
          have hcast : ((instruction_count pre : Int) + 1) =
              ((instruction_count (pre ++ [line]) : Nat) : Int) := by
            rw [hc]; push_cast; rfl
          rw [hcast] at h
          obtain ⟨e1, e2⟩ := ih _ _ _ _ h
          rw [happ]
          refine ⟨?_, e2⟩
          rw [e1]
          simp [label_definitions_after, hd]
        · simp only [hp, if_false] at h
          cases h
      · have hc : instruction_count (pre ++ [line]) = instruction_count pre := by
          simp [instruction_count_append, instruction_count_singleton, hi]
        simp only [hi, Bool.false_eq_true, if_false] at h
        rw [← hc] at h
        obtain ⟨e1, e2⟩ := ih _ _ _ _ h
        rw [happ]
        refine ⟨?_, e2⟩
        rw [e1]
        simp [label_definitions_after, hd]

theorem second_pass_line_count (label_list : List Label) (line : List Char) (st st1 : SecondPass)
    (h : second_pass_line label_list line st = .ok st1) :
    st1.instructions.length =
        st.instructions.length + (if counts_as_instruction line then 1 else 0) ∧
      st1.pc = st.pc + (if counts_as_instruction line then 1 else 0) := by
  unfold second_pass_line at h
  dsimp only at h
  unfold counts_as_instruction defines_label
  by_cases h1 : (get_line line).getD 0 NUL = '#' ∨ (get_line line).length = 0
  · simp only [h1, if_true] at h
    cases h
    have hne : get_line line = [] := by
      rcases h1 with h1 | h1
      · exfalso
        have hh := hash_not_mem_get_line line
        cases hg : get_line line with
        | nil => rw [hg] at h1; exact absurd h1 (by decide)
        | cons a t =>
          rw [hg] at h1 hh
          simp at h1
          apply hh; simp [h1]
      · exact List.length_eq_zero.mp h1
    simp [hne]
  · simp only [h1, if_false] at h
    have hne : get_line line ≠ [] := by
      intro he; apply h1; right; simp [he]
    cases hs : strchr (get_line line) ':' with
    | some i =>
      rw [hs] at h
      cases h
      have hm : ':' ∈ get_line line := by
        by_contra hc
        rw [(strchr_none_iff _ _).mpr hc] at hs
        exact Option.noConfusion hs
      simp [hm]
    | none =>
      rw [hs] at h
      have hcolon := (strchr_none_iff _ _).mp hs
      by_cases hw : is_word_directive (get_line line) = true
      · simp only [hw, if_true] at h
        cases hsw : scan_word (get_line line) with
        | error e => rw [hsw] at h; cases h
        | ok w =>
          obtain ⟨A, V⟩ := w
          rw [hsw] at h
          simp only at h
          cases hp : place_word A V st.data_list st.max_memory_address with
          | error e => rw [hp] at h; cases h
          | ok r =>
            obtain ⟨d, m⟩ := r
            rw [hp] at h
            simp only at h
            cases h
            simp [hw]
      · simp only [hw, Bool.false_eq_true, if_false] at h
        cases he : encode_line label_list (get_line line) with
        | error e => rw [he] at h; cases h
        | ok w =>
          rw [he] at h
          by_cases hpc : st.pc + 1 < 2147483648
          · simp only [hpc, if_true] at h
            cases h
            simp [hne, hcolon, hw]
          · simp only [hpc, if_false] at h
            cases h

theorem second_pass_count (label_list : List Label) (lines : List (List Char)) :
    ∀ (st st1 : SecondPass), second_pass label_list lines st = .ok st1 →
      st1.instructions.length = st.instructions.length + instruction_count lines ∧
        st1.pc = st.pc + (instruction_count lines : Int) := by
  induction lines with
  | nil =>
    intro st st1 h
    simp only [second_pass, Except.ok.injEq] at h
    subst h
    simp [instruction_count]
  | cons line rest ih =>
    intro st st1 h
    rw [second_pass] at h
    cases hl : second_pass_line label_list line st with
    | error e => rw [hl] at h; cases h
    | ok st2 =>
      rw [hl] at h
      obtain ⟨a1, a2⟩ := second_pass_line_count _ _ _ _ hl
      obtain ⟨b1, b2⟩ := ih _ _ h
      have hc : instruction_count (line :: rest) =
          (if counts_as_instruction line then 1 else 0) + instruction_count rest := by
        have := instruction_count_append [line] rest
        rw [instruction_count_singleton] at this
        simpa using this
      rw [b1, b2, a1, a2, hc]
      by_cases hi : counts_as_instruction line = true
      · simp [hi]; constructor <;> omega
      · simp [hi]

theorem second_pass_append (label_list : List Label) (a b : List (List Char)) :
    ∀ (st : SecondPass), second_pass label_list (a ++ b) st =
      match second_pass label_list a st with
      | .error e => .error e
      | .ok st1 => second_pass label_list b st1 := by
  induction a with
  | nil => intro st; rfl
  | cons line a ih =>
    intro st
    rw [List.cons_append, second_pass, second_pass]
    cases second_pass_line label_list line st with
    | error e => rfl
    | ok st2 => exact ih st2

theorem label_definitions_after_length (rest : List (List Char)) :
    ∀ (pre : List (List Char)),
      (label_definitions_after pre rest).length = (rest.filter defines_label).length := by
  induction rest with
  | nil => intro pre; rfl
  | cons x rest ih =>
    intro pre
    by_cases hx : defines_label x = true
    · simp [label_definitions_after, List.filter, hx, ih]
    · simp [label_definitions_after, List.filter, hx, ih]

/-- C34: when pass 1 and pass 2 both return on a source, the final `pc` of pass 1 is
the number of words in the instruction image (and the final `pc` of pass 2), and for
every label line of the source pass 2 returns on the lines before it and the entry
pass 1 recorded for that line (the entry whose index is the number of label lines
before it) holds the symbol with the number of words pass 2 has emitted by then. -/
theorem passes_agree (lines : List (List Char)) (label_list : List Label) (pc : Int)
    (st : SecondPass)
    (h1 : first_pass lines [] 0 = .ok (label_list, pc))
    (h2 : second_pass label_list lines SecondPass.init = .ok st) :
    pc = (st.instructions.length : Int) ∧ st.pc = pc ∧
    ∀ pre line post, lines = pre ++ line :: post → defines_label line = true →
      ∃ st_pre l1 l2, second_pass label_list pre SecondPass.init = .ok st_pre ∧
        label_list = l1 ++
          Label.mk (label_symbol line) (st_pre.instructions.length : Int) :: l2 ∧
        l1.length = (pre.filter defines_label).length := by
  have h1a : first_pass lines [] ((instruction_count [] : Nat) : Int) = .ok (label_list, pc) := h1
  obtain ⟨e1, e2⟩ := first_pass_result lines [] [] label_list pc h1a
  obtain ⟨c1, c2⟩ := second_pass_count label_list lines _ _ h2
  simp only [SecondPass.init, List.length_nil, Nat.zero_add, Int.zero_add] at c1 c2
  simp only [List.nil_append] at e1 e2
  refine ⟨by rw [e2, c1], by rw [c2, e2], ?_⟩
  intro pre line post hl hdef
  subst hl
  rw [second_pass_append] at h2
  cases hp : second_pass label_list pre SecondPass.init with
  | error e => rw [hp] at h2; cases h2
  | ok st_pre =>
    obtain ⟨p1, _⟩ := second_pass_count label_list pre _ _ hp
    simp only [SecondPass.init, List.length_nil, Nat.zero_add] at p1
    refine ⟨st_pre, label_definitions_after [] pre,
      label_definitions_after ([] ++ pre ++ [line]) post, rfl, ?_, ?_⟩
    · rw [e1, label_definitions_after_append, p1]
      simp [label_definitions_after, hdef]
    · exact label_definitions_after_length pre []

theorem passes_agree_witness :
    first_pass program_loop [] 0 =
      .ok ([Label.mk "loop".toList 1, Label.mk "loop".toList 4], 4) ∧
    (4 : Int) = ((second_pass_result
      [Label.mk "loop".toList 1, Label.mk "loop".toList 4] program_loop).instructions.length : Int) ∧
    ∃ st_pre l1 l2,
      second_pass [Label.mk "loop".toList 1, Label.mk "loop".toList 4]
        ["add $t0, $zero, $imm1, $zero, 3, 0\n".toList] SecondPass.init = .ok st_pre ∧
      [Label.mk "loop".toList 1, Label.mk "loop".toList 4] = l1 ++
        Label.mk (label_symbol "loop:\n".toList) (st_pre.instructions.length : Int) :: l2 ∧
      l1.length = (["add $t0, $zero, $imm1, $zero, 3, 0\n".toList].filter defines_label).length :=
  ⟨rfl,
    (passes_agree program_loop [Label.mk "loop".toList 1, Label.mk "loop".toList 4] 4
      (second_pass_result [Label.mk "loop".toList 1, Label.mk "loop".toList 4] program_loop)
      rfl rfl).1,
    (passes_agree program_loop [Label.mk "loop".toList 1, Label.mk "loop".toList 4] 4
      (second_pass_result [Label.mk "loop".toList 1, Label.mk "loop".toList 4] program_loop)
      rfl rfl).2.2 ["add $t0, $zero, $imm1, $zero, 3, 0\n".toList] "loop:\n".toList
      ["sub $t0, $t0, $imm1, $zero, 1, 0\n".toList,
       "bne $zero, $t0, $zero, $imm1, loop, 0\n".toList,
       "halt $zero, $zero, $zero, $zero, 0, 0\n".toList,
       "loop:\n".toList] rfl (by decide)⟩

/-! ## `jal`, the two timer steps, interrupt entry and return -/

/-- The target of `jal`: the register `rm` as it is after the link register was
written, so the return address itself when `rd` and `rm` are the same register. -/
theorem jal_target (f : Nat → Nat) (s : Machine) :
    ∃ s1, execute_and_advance 15 f s = .ok s1 ∧
      s1.program_counter =
        (if f 3 = f 0 then (s.program_counter + 1) % 4294967296 else s.cpu_registers (f 3))
          &&& 0xFFF := by
  by_cases h : f 3 = f 0
  · simp [execute_and_advance, process_instruction, process_switch, upd, h]
  · simp [execute_and_advance, process_instruction, process_switch, upd, h]

/-- With `rm` = 0, `rd` another register and register 0 holding 0, `jal` jumps to
address 0. -/
theorem jal_zero_target (f : Nat → Nat) (s : Machine) (hm : f 3 = 0) (hd : f 0 ≠ 0)
    (h0 : s.cpu_registers 0 = 0) :
    ∃ s1, execute_and_advance 15 f s = .ok s1 ∧ s1.program_counter = 0 := by
  obtain ⟨s1, h1, h2⟩ := jal_target f s
  refine ⟨s1, h1, ?_⟩
  have hne : ¬ f 3 = f 0 := by rw [hm]; exact fun e => hd e.symm
  rw [h2, if_neg hne, hm, h0]
  rfl

/-- The two timer steps agree when `timerenable` is 0 or 1. -/
theorem timer_steps_agree (s : Machine) (h : s.io_registers TIMER_ENABLE ≤ 1) :
    (handle_timer_operations s).io_registers = update_timer s.io_registers := by
  unfold handle_timer_operations update_timer
  by_cases h1 : s.io_registers TIMER_ENABLE = 1
  · simp only [h1, if_true]
    split_ifs <;> first | rfl | simp_all
  · have h0 : s.io_registers TIMER_ENABLE = 0 := by omega
    simp [h0]

/-- C31 (code evaluated at the failing input): the word `0x0F0000000000` is
`jal $zero, $zero, $zero, $zero, 0, 0` (opcode 15, `rd` = 0, `rm` = 0). Executed at
address 10 with register 0 holding 0, it writes the return address 11 to register 0
and then reads the target from register 0: the new program counter is 11, not 0 (and
register 0 is 0 again afterwards). In general `jal` returns and jumps to the low 12
bits of the return address when `rd` and `rm` are the same register, and to the low
12 bits of `rm` otherwise. -/
theorem jal_link_register_zero :
    ((state_regs 0 0).program_counter = 10 ∧ (state_regs 0 0).cpu_registers 0 = 0 ∧
      (decode_execute 0x0F0000000000 (state_regs 0 0)).toOption.map
        (fun r => (r.2.1, r.2.2 0, r.2.2 3)) = some (15, 0, 0) ∧
      (decode_execute 0x0F0000000000 (state_regs 0 0)).toOption.map
        (fun r => (r.1.program_counter, r.1.cpu_registers 0)) = some (11, 0)) ∧
    ∀ (f : Nat → Nat) (s : Machine), ∃ s1, execute_and_advance 15 f s = .ok s1 ∧
      s1.program_counter =
        (if f 3 = f 0 then (s.program_counter + 1) % 4294967296 else s.cpu_registers (f 3))
          &&& 0xFFF :=
  ⟨by decide, jal_target⟩

/-- C32 (code evaluated at the failing input): with `timerenable = 2`,
`timercurrent = 0`, `timermax = 5`, `update_timer` (which tests `timerenable` for
non-zero) increments `timercurrent` to 1, and `handle_timer_operations` (which tests
`timerenable == 1`) leaves it at 0. For `timerenable` 0 or 1 the two steps leave
the same I/O registers. -/
theorem timer_steps_differ :
    (state_timer_enable2.io_registers TIMER_ENABLE = 2 ∧
      state_timer_enable2.io_registers TIMER_CURRENT = 0 ∧
      state_timer_enable2.io_registers TIMER_MAX = 5 ∧
      update_timer state_timer_enable2.io_registers TIMER_CURRENT = 1 ∧
      (handle_timer_operations state_timer_enable2).io_registers TIMER_CURRENT = 0) ∧
    ∀ s : Machine, s.io_registers TIMER_ENABLE ≤ 1 →
      (handle_timer_operations s).io_registers = update_timer s.io_registers :=
  ⟨by decide, timer_steps_agree⟩

/-- C33: interrupt entry followed by `reti`. Take a state with the ISR flag clear and
not halted whose iteration executes an instruction that would continue at `N`
(`sa.program_counter`, the program counter after execution and the peripherals) and
has an enabled interrupt pending; the iteration returns `s1`, in the ISR at
`irqhandler`. Take any state `t` whose `irqreturn` is the one of `s1` and whose
iteration executes `reti` with no enabled interrupt pending: that iteration returns
with the program counter equal to `N` and the ISR flag clear. -/
theorem entry_then_reti_resumes (s sa t ta : Machine) (op : Nat)
    (hisr : s.isr_active_flag = 0) (hhalt : s.halt_flag = 0)
    (hexec : execute_and_peripherals s = .ok (sa, op))
    (hpend : check_interrupts sa ≠ 0)
    (hret : t.io_registers IRQ_RETURN = (after_iteration s).io_registers IRQ_RETURN)
    (hreti : execute_and_peripherals t = .ok (ta, RETI_OP))
    (hnone : check_interrupts ta = 0) :
    ∃ s1 t1, loop_iteration s = .ok s1 ∧ s1.isr_active_flag = 1 ∧
      s1.program_counter = s1.io_registers IRQ_HANDLER ∧
      loop_iteration t = .ok t1 ∧ t1.program_counter = sa.program_counter ∧
      t1.isr_active_flag = 0 := by
  have hs1 := loop_iteration_eq s sa op hexec
  have ht1 := loop_iteration_eq t ta RETI_OP hreti
  have hafter : after_iteration s = end_of_cycle (interrupt_phase op sa) := by
    unfold after_iteration; rw [hs1]
  rw [hafter] at hret
  refine ⟨_, _, hs1, ?_, ?_, ht1, ?_, ?_⟩
  all_goals
    obtain ⟨a0, acase⟩ := execute_and_peripherals_spec s sa op hexec
    have h1 : sa.isr_active_flag = 0 := by rw [a0, hisr]
    obtain ⟨e1, e2, e3, e4⟩ := interrupt_phase_entry op sa (Or.inr h1) hpend
    obtain ⟨f1, f2, f3⟩ := end_of_cycle_frame (interrupt_phase op sa)
  · rw [f2, e4]
  · rw [f1, f3 IRQ_HANDLER (by decide) (by decide) (by decide) (by decide), e2, e3]
  · rw [interrupt_phase_reti ta hnone]
    obtain ⟨g1, g2, g3⟩ := end_of_cycle_frame { ta with isr_active_flag := 0 }
    rw [g1]
    show ta.program_counter = sa.program_counter
    obtain ⟨_, tcase⟩ := execute_and_peripherals_spec t ta RETI_OP hreti
    have h18 : RETI_OP = 18 := rfl
    have hN : sa.program_counter < 4294967296 := by
      rcases acase with ⟨_, p, q, _⟩ | ⟨_, _, _, _, hh⟩ | ⟨_, p⟩ | ⟨_, p, _⟩
      · omega
      · rw [hhalt] at hh; exact absurd hh (by decide)
      · omega
      · rw [p]; exact Nat.mod_lt _ (by decide)
    rcases tcase with ⟨e, _⟩ | ⟨e, _⟩ | ⟨e, _⟩ | ⟨_, t1, _⟩
    · exact absurd h18 e
    · exact absurd h18 e
    · exact absurd h18 e
    · rw [t1, hret, f3 IRQ_RETURN (by decide) (by decide) (by decide) (by decide), e1]
      unfold toU32
      omega
  · rw [interrupt_phase_reti ta hnone]
    rfl

theorem entry_then_reti_resumes_witness :
    (after_execute state_interrupted).program_counter = 6 ∧
    ∃ s1 t1, loop_iteration state_interrupted = .ok s1 ∧ s1.isr_active_flag = 1 ∧
      s1.program_counter = s1.io_registers IRQ_HANDLER ∧
      loop_iteration (after_iteration (after_iteration state_interrupted)) = .ok t1 ∧
      t1.program_counter = (after_execute state_interrupted).program_counter ∧
      t1.isr_active_flag = 0 :=
  ⟨by decide,
    entry_then_reti_resumes state_interrupted (after_execute state_interrupted)
      (after_iteration (after_iteration state_interrupted))
      (after_execute (after_iteration (after_iteration state_interrupted))) 0
      rfl rfl rfl (by decide) (by decide) rfl (by decide)⟩

end Sim
